import Mathlib

/-!
# arkymusic: the job pipeline (`internal/jobs/runner.go`) and its poller

A shallow embedding of `Runner.Run`, `Runner.pollPrediction` and the helpers of
`runner.go` (prompt assembly, mux, download, metadata), of the recorder of
`internal/audio/audio.go`, of `audio.Analyze` and `audio.Transcribe`, and of the
streaming uploads `elevenlabs.Client.EnhanceAudio` and `ltx2.Client.SubmitJob`.
Of the standard library the file embeds what the statements turn on:
`strings.ToLower` with the lower-case mapping of the Unicode tables,
`strings.TrimSpace`, and, for the metadata file, `unicode/utf8` and the writer
and reader of `encoding/json` on an object of strings and numbers, both on Go
strings as sequences of bytes.  Everything the Go code obtains from outside the
process (the file system, HTTP exchanges, subprocesses, the clock, the
cancellation token and the remote client's answers) is read from a `World`
record, and every call the pipeline makes, together with every event it sends,
is appended to a trace of `Action`s, so that "which stage ran" and "which event
was emitted" are plain facts about a list.
-/

namespace Arky

/-! ## Values shared by the packages -/

/-- Go `float64` values as they reach `audio.Analysis`: the three special values
and the finite ones, the latter kept as exact rationals. -/
inductive Float64 where
  | nan
  | negInf
  | posInf
  | fin (q : ℚ)

/-- Go `x >= y` on `float64`: false as soon as one side is NaN. -/
def Float64.ge : Float64 → Float64 → Bool
  | .nan, _ => false
  | _, .nan => false
  | .posInf, _ => true
  | _, .negInf => true
  | .negInf, _ => false
  | _, .posInf => false
  | .fin a, .fin b => decide (b ≤ a)

/-- Go `x > y` on `float64`. -/
def Float64.gt : Float64 → Float64 → Bool
  | .nan, _ => false
  | _, .nan => false
  | .posInf, .posInf => false
  | .posInf, _ => true
  | .negInf, _ => false
  | _, .negInf => true
  | _, .posInf => false
  | .fin a, .fin b => decide (b < a)

/-- Go `x <= y` on `float64`. -/
def Float64.le (x y : Float64) : Bool := Float64.ge y x

/-- Go `x < y` on `float64`. -/
def Float64.lt (x y : Float64) : Bool := Float64.gt y x

/-- A dynamically typed Go value (`any`) as the program meets it: what
`encoding/json` decodes into an `any`, plus the `int` the runner itself stores in
a request. -/
inductive Value where
  | null
  | bool (b : Bool)
  | int (n : Int)
  | float (x : Float64)
  | str (s : String)
  | arr (items : List Value)
  | obj (fields : List (String × Value))

/-- The two errors a `context.Context` reports once it is done. -/
inductive CtxErr where
  | canceled
  | deadlineExceeded
  deriving DecidableEq, Repr

/-- Go `error` values, by the way they were built. -/
inductive GoError where
  /-- `fmt.Errorf` with a format that has no `%w` verb: a fresh error. -/
  | errorf (msg : String)
  /-- `fmt.Errorf("<msg>: %w", cause)`. -/
  | wrapf (msg : String) (cause : GoError)
  /-- `ctx.Err()`. -/
  | ctx (e : CtxErr)
  /-- An error value returned by a library or by the operating system. -/
  | external (msg : String)
  deriving DecidableEq, Repr

/-- The `Error()` text of an error. -/
def GoError.message : GoError → String
  | .errorf msg => msg
  | .wrapf msg cause => msg ++ ": " ++ cause.message
  | .ctx .canceled => "context canceled"
  | .ctx .deadlineExceeded => "context deadline exceeded"
  | .external msg => msg

/-! ## `strings` helpers -/

/-- One run of the lower-case mapping of the Unicode case tables: the code points
`lo`, `lo + 1`, .., `hi` (only every second one, `lo`, `lo + 2`, .., when
`alternate`) have the lower-case forms `target`, `target + 1`, .. (`target`,
`target + 2`, ..). -/
structure CaseRange where
  lo : Nat
  hi : Nat
  alternate : Bool
  target : Nat

/-- Whether a code point is one of those a run maps. -/
def CaseRange.covers (r : CaseRange) (n : Nat) : Bool :=
  decide (r.lo ≤ n) && decide (n ≤ r.hi) && (!r.alternate || (n - r.lo) % 2 == 0)

/-- The code points above ASCII that `unicode.ToLower` changes, with their
lower-case forms: the simple lower-case mapping of the Unicode Character
Database (version 15.0.0, 1407 code points), which the Go runtime holds in
`unicode.CaseRanges`.  It holds, among others, U+0130 with the form `i` and
U+212A with the form `k`. -/
def lowerRanges : List CaseRange :=
  [CaseRange.mk 0x00C0 0x00D6 false 0x00E0, CaseRange.mk 0x00D8 0x00DE false 0x00F8,
    CaseRange.mk 0x0100 0x012E true 0x0101, CaseRange.mk 0x0130 0x0130 false 0x0069,
    CaseRange.mk 0x0132 0x0136 true 0x0133, CaseRange.mk 0x0139 0x0147 true 0x013A,
    CaseRange.mk 0x014A 0x0176 true 0x014B, CaseRange.mk 0x0178 0x0178 false 0x00FF,
    CaseRange.mk 0x0179 0x017D true 0x017A, CaseRange.mk 0x0181 0x0181 false 0x0253,
    CaseRange.mk 0x0182 0x0184 true 0x0183, CaseRange.mk 0x0186 0x0186 false 0x0254,
    CaseRange.mk 0x0187 0x0187 false 0x0188, CaseRange.mk 0x0189 0x018A false 0x0256,
    CaseRange.mk 0x018B 0x018B false 0x018C, CaseRange.mk 0x018E 0x018E false 0x01DD,
    CaseRange.mk 0x018F 0x018F false 0x0259, CaseRange.mk 0x0190 0x0190 false 0x025B,
    CaseRange.mk 0x0191 0x0191 false 0x0192, CaseRange.mk 0x0193 0x0193 false 0x0260,
    CaseRange.mk 0x0194 0x0194 false 0x0263, CaseRange.mk 0x0196 0x0196 false 0x0269,
    CaseRange.mk 0x0197 0x0197 false 0x0268, CaseRange.mk 0x0198 0x0198 false 0x0199,
    CaseRange.mk 0x019C 0x019C false 0x026F, CaseRange.mk 0x019D 0x019D false 0x0272,
    CaseRange.mk 0x019F 0x019F false 0x0275, CaseRange.mk 0x01A0 0x01A4 true 0x01A1,
    CaseRange.mk 0x01A6 0x01A6 false 0x0280, CaseRange.mk 0x01A7 0x01A7 false 0x01A8,
    CaseRange.mk 0x01A9 0x01A9 false 0x0283, CaseRange.mk 0x01AC 0x01AC false 0x01AD,
    CaseRange.mk 0x01AE 0x01AE false 0x0288, CaseRange.mk 0x01AF 0x01AF false 0x01B0,
    CaseRange.mk 0x01B1 0x01B2 false 0x028A, CaseRange.mk 0x01B3 0x01B5 true 0x01B4,
    CaseRange.mk 0x01B7 0x01B7 false 0x0292, CaseRange.mk 0x01B8 0x01B8 false 0x01B9,
    CaseRange.mk 0x01BC 0x01BC false 0x01BD, CaseRange.mk 0x01C4 0x01C4 false 0x01C6,
    CaseRange.mk 0x01C5 0x01C5 false 0x01C6, CaseRange.mk 0x01C7 0x01C7 false 0x01C9,
    CaseRange.mk 0x01C8 0x01C8 false 0x01C9, CaseRange.mk 0x01CA 0x01CA false 0x01CC,
    CaseRange.mk 0x01CB 0x01DB true 0x01CC, CaseRange.mk 0x01DE 0x01EE true 0x01DF,
    CaseRange.mk 0x01F1 0x01F1 false 0x01F3, CaseRange.mk 0x01F2 0x01F4 true 0x01F3,
    CaseRange.mk 0x01F6 0x01F6 false 0x0195, CaseRange.mk 0x01F7 0x01F7 false 0x01BF,
    CaseRange.mk 0x01F8 0x021E true 0x01F9, CaseRange.mk 0x0220 0x0220 false 0x019E,
    CaseRange.mk 0x0222 0x0232 true 0x0223, CaseRange.mk 0x023A 0x023A false 0x2C65,
    CaseRange.mk 0x023B 0x023B false 0x023C, CaseRange.mk 0x023D 0x023D false 0x019A,
    CaseRange.mk 0x023E 0x023E false 0x2C66, CaseRange.mk 0x0241 0x0241 false 0x0242,
    CaseRange.mk 0x0243 0x0243 false 0x0180, CaseRange.mk 0x0244 0x0244 false 0x0289,
    CaseRange.mk 0x0245 0x0245 false 0x028C, CaseRange.mk 0x0246 0x024E true 0x0247,
    CaseRange.mk 0x0370 0x0372 true 0x0371, CaseRange.mk 0x0376 0x0376 false 0x0377,
    CaseRange.mk 0x037F 0x037F false 0x03F3, CaseRange.mk 0x0386 0x0386 false 0x03AC,
    CaseRange.mk 0x0388 0x038A false 0x03AD, CaseRange.mk 0x038C 0x038C false 0x03CC,
    CaseRange.mk 0x038E 0x038F false 0x03CD, CaseRange.mk 0x0391 0x03A1 false 0x03B1,
    CaseRange.mk 0x03A3 0x03AB false 0x03C3, CaseRange.mk 0x03CF 0x03CF false 0x03D7,
    CaseRange.mk 0x03D8 0x03EE true 0x03D9, CaseRange.mk 0x03F4 0x03F4 false 0x03B8,
    CaseRange.mk 0x03F7 0x03F7 false 0x03F8, CaseRange.mk 0x03F9 0x03F9 false 0x03F2,
    CaseRange.mk 0x03FA 0x03FA false 0x03FB, CaseRange.mk 0x03FD 0x03FF false 0x037B,
    CaseRange.mk 0x0400 0x040F false 0x0450, CaseRange.mk 0x0410 0x042F false 0x0430,
    CaseRange.mk 0x0460 0x0480 true 0x0461, CaseRange.mk 0x048A 0x04BE true 0x048B,
    CaseRange.mk 0x04C0 0x04C0 false 0x04CF, CaseRange.mk 0x04C1 0x04CD true 0x04C2,
    CaseRange.mk 0x04D0 0x052E true 0x04D1, CaseRange.mk 0x0531 0x0556 false 0x0561,
    CaseRange.mk 0x10A0 0x10C5 false 0x2D00, CaseRange.mk 0x10C7 0x10C7 false 0x2D27,
    CaseRange.mk 0x10CD 0x10CD false 0x2D2D, CaseRange.mk 0x13A0 0x13EF false 0xAB70,
    CaseRange.mk 0x13F0 0x13F5 false 0x13F8, CaseRange.mk 0x1C90 0x1CBA false 0x10D0,
    CaseRange.mk 0x1CBD 0x1CBF false 0x10FD, CaseRange.mk 0x1E00 0x1E94 true 0x1E01,
    CaseRange.mk 0x1E9E 0x1E9E false 0x00DF, CaseRange.mk 0x1EA0 0x1EFE true 0x1EA1,
    CaseRange.mk 0x1F08 0x1F0F false 0x1F00, CaseRange.mk 0x1F18 0x1F1D false 0x1F10,
    CaseRange.mk 0x1F28 0x1F2F false 0x1F20, CaseRange.mk 0x1F38 0x1F3F false 0x1F30,
    CaseRange.mk 0x1F48 0x1F4D false 0x1F40, CaseRange.mk 0x1F59 0x1F5F true 0x1F51,
    CaseRange.mk 0x1F68 0x1F6F false 0x1F60, CaseRange.mk 0x1F88 0x1F8F false 0x1F80,
    CaseRange.mk 0x1F98 0x1F9F false 0x1F90, CaseRange.mk 0x1FA8 0x1FAF false 0x1FA0,
    CaseRange.mk 0x1FB8 0x1FB9 false 0x1FB0, CaseRange.mk 0x1FBA 0x1FBB false 0x1F70,
    CaseRange.mk 0x1FBC 0x1FBC false 0x1FB3, CaseRange.mk 0x1FC8 0x1FCB false 0x1F72,
    CaseRange.mk 0x1FCC 0x1FCC false 0x1FC3, CaseRange.mk 0x1FD8 0x1FD9 false 0x1FD0,
    CaseRange.mk 0x1FDA 0x1FDB false 0x1F76, CaseRange.mk 0x1FE8 0x1FE9 false 0x1FE0,
    CaseRange.mk 0x1FEA 0x1FEB false 0x1F7A, CaseRange.mk 0x1FEC 0x1FEC false 0x1FE5,
    CaseRange.mk 0x1FF8 0x1FF9 false 0x1F78, CaseRange.mk 0x1FFA 0x1FFB false 0x1F7C,
    CaseRange.mk 0x1FFC 0x1FFC false 0x1FF3, CaseRange.mk 0x2126 0x2126 false 0x03C9,
    CaseRange.mk 0x212A 0x212A false 0x006B, CaseRange.mk 0x212B 0x212B false 0x00E5,
    CaseRange.mk 0x2132 0x2132 false 0x214E, CaseRange.mk 0x2160 0x216F false 0x2170,
    CaseRange.mk 0x2183 0x2183 false 0x2184, CaseRange.mk 0x24B6 0x24CF false 0x24D0,
    CaseRange.mk 0x2C00 0x2C2F false 0x2C30, CaseRange.mk 0x2C60 0x2C60 false 0x2C61,
    CaseRange.mk 0x2C62 0x2C62 false 0x026B, CaseRange.mk 0x2C63 0x2C63 false 0x1D7D,
    CaseRange.mk 0x2C64 0x2C64 false 0x027D, CaseRange.mk 0x2C67 0x2C6B true 0x2C68,
    CaseRange.mk 0x2C6D 0x2C6D false 0x0251, CaseRange.mk 0x2C6E 0x2C6E false 0x0271,
    CaseRange.mk 0x2C6F 0x2C6F false 0x0250, CaseRange.mk 0x2C70 0x2C70 false 0x0252,
    CaseRange.mk 0x2C72 0x2C72 false 0x2C73, CaseRange.mk 0x2C75 0x2C75 false 0x2C76,
    CaseRange.mk 0x2C7E 0x2C7F false 0x023F, CaseRange.mk 0x2C80 0x2CE2 true 0x2C81,
    CaseRange.mk 0x2CEB 0x2CED true 0x2CEC, CaseRange.mk 0x2CF2 0x2CF2 false 0x2CF3,
    CaseRange.mk 0xA640 0xA66C true 0xA641, CaseRange.mk 0xA680 0xA69A true 0xA681,
    CaseRange.mk 0xA722 0xA72E true 0xA723, CaseRange.mk 0xA732 0xA76E true 0xA733,
    CaseRange.mk 0xA779 0xA77B true 0xA77A, CaseRange.mk 0xA77D 0xA77D false 0x1D79,
    CaseRange.mk 0xA77E 0xA786 true 0xA77F, CaseRange.mk 0xA78B 0xA78B false 0xA78C,
    CaseRange.mk 0xA78D 0xA78D false 0x0265, CaseRange.mk 0xA790 0xA792 true 0xA791,
    CaseRange.mk 0xA796 0xA7A8 true 0xA797, CaseRange.mk 0xA7AA 0xA7AA false 0x0266,
    CaseRange.mk 0xA7AB 0xA7AB false 0x025C, CaseRange.mk 0xA7AC 0xA7AC false 0x0261,
    CaseRange.mk 0xA7AD 0xA7AD false 0x026C, CaseRange.mk 0xA7AE 0xA7AE false 0x026A,
    CaseRange.mk 0xA7B0 0xA7B0 false 0x029E, CaseRange.mk 0xA7B1 0xA7B1 false 0x0287,
    CaseRange.mk 0xA7B2 0xA7B2 false 0x029D, CaseRange.mk 0xA7B3 0xA7B3 false 0xAB53,
    CaseRange.mk 0xA7B4 0xA7C2 true 0xA7B5, CaseRange.mk 0xA7C4 0xA7C4 false 0xA794,
    CaseRange.mk 0xA7C5 0xA7C5 false 0x0282, CaseRange.mk 0xA7C6 0xA7C6 false 0x1D8E,
    CaseRange.mk 0xA7C7 0xA7C9 true 0xA7C8, CaseRange.mk 0xA7D0 0xA7D0 false 0xA7D1,
    CaseRange.mk 0xA7D6 0xA7D8 true 0xA7D7, CaseRange.mk 0xA7F5 0xA7F5 false 0xA7F6,
    CaseRange.mk 0xFF21 0xFF3A false 0xFF41, CaseRange.mk 0x10400 0x10427 false 0x10428,
    CaseRange.mk 0x104B0 0x104D3 false 0x104D8, CaseRange.mk 0x10570 0x1057A false 0x10597,
    CaseRange.mk 0x1057C 0x1058A false 0x105A3, CaseRange.mk 0x1058C 0x10592 false 0x105B3,
    CaseRange.mk 0x10594 0x10595 false 0x105BB, CaseRange.mk 0x10C80 0x10CB2 false 0x10CC0,
    CaseRange.mk 0x118A0 0x118BF false 0x118C0, CaseRange.mk 0x16E40 0x16E5F false 0x16E60,
    CaseRange.mk 0x1E900 0x1E921 false 0x1E922]

/-- `unicode.ToLower` above ASCII, on code points: the lower-case form of the code
point in the first run that covers it, the code point itself when there is none. -/
def unicodeToLower (n : Nat) : Nat :=
  match lowerRanges.find? (fun r => r.covers n) with
  | some r => r.target + (n - r.lo)
  | none => n

/-- `unicode.ToLower`, the rune mapping of `strings.ToLower`: within ASCII
`A`..`Z` move to `a`..`z`, above ASCII the case tables are consulted. -/
def toLowerRune (c : Char) : Char :=
  if c.toNat < 128 then
    if 65 ≤ c.toNat ∧ c.toNat ≤ 90 then Char.ofNat (c.toNat + 32) else c
  else Char.ofNat (unicodeToLower c.toNat)

/-- `strings.ToLower`. -/
def toLower (s : String) : String := String.mk (s.data.map toLowerRune)

/-! ## `internal/ai/replicate` -/

/-- `replicate.Prediction`. -/
structure Prediction where
  ID : String
  Status : String
  Output : Value
  Error : Value
  Logs : String

/-- `replicate.Prediction{}`: the zero value. -/
def Prediction.zero : Prediction :=
  { ID := "", Status := "", Output := .null, Error := .null, Logs := "" }

/-- `replicate.PredictionRequest`: the `input` map, as its key/value entries. -/
structure PredictionRequest where
  Input : List (String × Value)

/-- `replicate.Client` (the HTTP handle left out). -/
structure ReplicateClient where
  APIToken : String
  BaseURL : String
  Model : String

/-! ## `internal/jobs`: data -/

/-- `jobs.Event`.  `Progress` is a `float64` in Go; the runner only ever stores
the decimal literals of its source text there, which are kept here as the exact
rationals they denote (rounding to `float64` is monotone, so order and equality
between these literals are the same). -/
structure Event where
  Stage : String
  Message : String
  Progress : ℚ
  Transcript : String
  TranscriptPath : String

/-- `jobs.JobInput`. -/
structure JobInput where
  AudioPath : String
  Lyrics : String
  Preset : String
  StylePreset : String
  AspectRatio : String
  DurationSeconds : Int
  OutputDir : String

/-- `jobs.Result`. -/
structure Result where
  JobID : String
  VideoPath : String
  MetaPath : String
  deriving DecidableEq, Repr

/-- `Result{}`: the zero value. -/
def Result.zero : Result := { JobID := "", VideoPath := "", MetaPath := "" }

/-- `audio.Analysis`. -/
structure Analysis where
  BPM : Float64
  MeanVolume : Float64
  MaxVolume : Float64
  Duration : Float64

/-- `audio.TranscribeConfig`. -/
structure TranscribeConfig where
  Enabled : Bool
  DockerPath : String
  DockerImage : String
  Model : String
  ModelDir : String
  AutoDownload : Bool

/-- `elevenlabs.Client` (the HTTP handle left out). -/
structure ElevenLabsClient where
  APIKey : String
  BaseURL : String
  EnhancePath : String

/-- `jobs.Runner`; a nil client pointer is `none`. -/
structure Runner where
  ElevenLabs : Option ElevenLabsClient
  Replicate : Option ReplicateClient
  Transcribe : TranscribeConfig
  FFmpegPath : String
  PollInterval : Int
  PreferWait : Bool

/-! ## The outside world -/

/-- One reading of `time.Now()`: its `UnixNano()` and its `Format(time.RFC3339)`. -/
structure Time where
  unixNano : Int
  rfc3339 : String

/-- An HTTP response: status code and the body as `io.ReadAll` yields it. -/
structure HttpResponse where
  StatusCode : Int
  Body : String

/-- One wait of the poll loop, `select { case <-ctx.Done(): ... case <-time.After(d): }`,
and what follows it: either the cancellation token fires first and `ctx.Err()`
is `e`, or the interval elapses and `FetchPrediction(ctx, id)` answers `fetch id`. -/
inductive PollStep where
  | cancelled (e : CtxErr)
  | elapsed (fetch : String → Except GoError Prediction)

/-- What `downloadOutput` meets outside the process. -/
structure DownloadWorld where
  mkdirAll : String → Option GoError
  newRequest : String → Option GoError
  roundTrip : String → Except GoError HttpResponse
  now : Time
  create : String → Option GoError
  copy : String → Option GoError

/-- What `muxAudio` meets outside the process: `combinedOutput name args` is the
outcome of `exec.CommandContext(ctx, name, args...).CombinedOutput()`. -/
structure MuxWorld where
  mkdirAll : String → Option GoError
  now : Time
  combinedOutput : String → List String → String × Option GoError

/-- What `writeMetadata` meets outside the process; `nowCreated` is the clock
reading formatted into `created_at`, `nowName` the later one used in the file
name, `encode path payload` the outcome of `json.NewEncoder(file).Encode(payload)`. -/
structure MetaWorld where
  mkdirAll : String → Option GoError
  nowCreated : Time
  nowName : Time
  create : String → Option GoError
  encode : String → List (String × Value) → Option GoError

/-- Everything one run of the pipeline reads from outside.  The functions of the
other packages (`audio`, `elevenlabs`, `replicate`) appear by their outcome: the
error when they fail, the returned value otherwise. -/
structure World where
  validateAudioPath : String → Option GoError
  enhanceAudio : ElevenLabsClient → String → String → Except GoError String
  transcribe : TranscribeConfig → String → String → Except GoError (String × String)
  analyze : String → String → Except GoError Analysis
  submitPrediction : ReplicateClient → PredictionRequest → Bool → Except GoError Prediction
  poll : List PollStep
  filepathJoin : String → String → String
  download : DownloadWorld
  mux : MuxWorld
  metadata : MetaWorld

/-- What the pipeline does to the outside, in program order. -/
inductive Action where
  /-- `events <- e`. -/
  | emit (e : Event)
  | validateAudioPath (path : String)
  | enhanceAudio (inputPath outputDir : String)
  | transcribe (audioPath outputDir : String)
  | analyze (ffmpegPath inputPath : String)
  | submitPrediction (request : PredictionRequest) (preferWait : Bool)
  /-- The blocking `select` of the poll loop, with the interval waited for. -/
  | wait (interval : Int)
  | fetchPrediction (id : String)
  | downloadOutput (url outputDir : String)
  | muxAudio (ffmpegPath videoPath audioPath outputDir : String)
  | writeMetadata (input : JobInput) (jobID videoPath transcript transcriptPath : String)
      (analysis : Analysis)

/-- A call of a function of `runner.go` that returns `(α, error)`: the trace it
leaves and the pair it returns, `none` while it has not returned. -/
structure Ran (α : Type) where
  trace : List Action
  returned : Option (α × Option GoError)

/-- The events of a trace, in order. -/
def events : List Action → List Event
  | [] => []
  | .emit e :: rest => e :: events rest
  | _ :: rest => events rest

/-! ## `replicate.OutputURL` -/

/-- The loop of `OutputURL`: the first element that is a string. -/
def firstString : List Value → String
  | [] => ""
  | .str url :: _ => url
  | _ :: rest => firstString rest

/-- `replicate.OutputURL`. -/
def OutputURL : Value → String
  | .str value => value
  | .arr items => firstString items
  | _ => ""

/-! ## `strings`, `path/filepath` and `fmt` as the runner uses them -/

/-- `unicode.IsSpace`. -/
def isSpace (c : Char) : Bool :=
  let n := c.toNat
  (9 ≤ n ∧ n ≤ 13) ∨ n = 32 ∨ n = 0x85 ∨ n = 0xA0 ∨ n = 0x1680 ∨ (0x2000 ≤ n ∧ n ≤ 0x200A)
    ∨ n = 0x2028 ∨ n = 0x2029 ∨ n = 0x202F ∨ n = 0x205F ∨ n = 0x3000

/-- `strings.TrimSpace`. -/
def trimSpace (s : String) : String :=
  String.mk ((s.data.dropWhile isSpace).reverse.dropWhile isSpace).reverse

/-- The last path element of a path without trailing separators, given reversed. -/
def lastElement (reversed : List Char) : List Char :=
  (reversed.takeWhile (fun c => c != '/')).reverse

/-- `filepath.Base` (Unix separator, no volume names). -/
def filepathBase (path : String) : String :=
  if path = "" then "."
  else
    let stripped := path.data.reverse.dropWhile (fun c => c == '/')
    let last := lastElement stripped
    if last = [] then "/" else String.mk last

/-- `fmt.Sprintf("%d", n)` for an integer. -/
def formatInt (n : Int) : String := toString n

/-- `strings.Join`. -/
def join (parts : List String) (sep : String) : String := sep.intercalate parts

/-! ## The prompt -/

/-- `presetNotes`. -/
def presetNotes (preset : String) : List String :=
  let key := toLower (trimSpace preset)
  if key = "hook" then ["hook moment", "fast impact", "center focus"]
  else if key = "canvas" then ["seamless loop", "subtle motion", "ambient visuals"]
  else if key = "highlight" then ["dramatic highlight", "cinematic focus", "story beat"]
  else []

/-- `vibeFromAnalysis`. -/
def vibeFromAnalysis (analysis : Analysis) : List String :=
  let tempo : List String :=
    if analysis.BPM.ge (.fin 120) then ["fast paced", "dynamic cuts", "high energy"]
    else if analysis.BPM.gt (.fin 0) && analysis.BPM.le (.fin 90) then
      ["slow motion", "smooth transitions", "ambient"]
    else []
  let loudness : List String :=
    if analysis.MaxVolume.ge (.fin (-10)) then ["intense", "vibrant colors", "high contrast"]
    else if analysis.MeanVolume.le (.fin (-25)) && analysis.MeanVolume.lt (.fin 0) then
      ["minimalist", "soft lighting", "calm"]
    else []
  tempo ++ loudness

/-- `buildPrompt`. -/
def buildPrompt (input : JobInput) (enhancedPath transcript : String) (analysis : Analysis) :
    String :=
  let promptParts := ["cinematic music video visuals"]
  let promptParts := promptParts ++ presetNotes input.Preset
  let promptParts :=
    if input.StylePreset ≠ "" then promptParts ++ ["style " ++ input.StylePreset] else promptParts
  let promptParts :=
    if input.AspectRatio ≠ "" then promptParts ++ ["aspect ratio " ++ input.AspectRatio]
    else promptParts
  let promptParts :=
    if trimSpace input.Lyrics ≠ "" then promptParts ++ ["lyrics: " ++ trimSpace input.Lyrics]
    else promptParts
  let promptParts :=
    if trimSpace transcript ≠ "" then promptParts ++ ["transcript: " ++ trimSpace transcript]
    else promptParts
  let promptParts := promptParts ++ vibeFromAnalysis analysis
  let promptParts :=
    if enhancedPath ≠ "" then promptParts ++ ["audio source " ++ filepathBase enhancedPath]
    else promptParts
  join promptParts ", "

/-! ## The helpers of `runner.go` -/

/-- `muxAudio`: the returned `(string, error)` pair. -/
def muxAudio (w : MuxWorld) (pathJoin : String → String → String)
    (ffmpegPath videoPath audioPath outputDir : String) : String × Option GoError :=
  let ffmpegPath := if ffmpegPath = "" then "ffmpeg" else ffmpegPath
  match w.mkdirAll outputDir with
  | some err => ("", some err)
  | none =>
    let outputPath := pathJoin outputDir ("final-" ++ formatInt w.now.unixNano ++ ".mp4")
    match w.combinedOutput ffmpegPath
        ["-y", "-i", videoPath, "-i", audioPath, "-c:v", "copy", "-c:a", "aac", "-shortest",
          outputPath] with
    | (output, some _) => ("", some (.errorf ("ffmpeg mux failed: " ++ trimSpace output)))
    | (_, none) => (outputPath, none)

/-- `downloadOutput`: the returned `(string, error)` pair. -/
def downloadOutput (w : DownloadWorld) (pathJoin : String → String → String)
    (url outputDir : String) : String × Option GoError :=
  match w.mkdirAll outputDir with
  | some err => ("", some err)
  | none =>
    match w.newRequest url with
    | some err => ("", some err)
    | none =>
      match w.roundTrip url with
      | .error err => ("", some err)
      | .ok response =>
        if response.StatusCode ≥ 400 then
          ("", some (.errorf ("replicate download error: " ++ response.Body)))
        else
          let outputPath := pathJoin outputDir ("video-" ++ formatInt w.now.unixNano ++ ".mp4")
          match w.create outputPath with
          | some err => ("", some err)
          | none =>
            match w.copy outputPath with
            | some err => ("", some err)
            | none => (outputPath, none)

/-- The `payload` map of `writeMetadata`, as its key/value entries. -/
def metadataPayload (input : JobInput) (jobID videoPath transcript transcriptPath : String)
    (analysis : Analysis) (createdAt : String) : List (String × Value) :=
  [ ("job_id", .str jobID),
    ("audio_path", .str input.AudioPath),
    ("lyrics", .str input.Lyrics),
    ("preset", .str input.Preset),
    ("style_preset", .str input.StylePreset),
    ("aspect_ratio", .str input.AspectRatio),
    ("duration_seconds", .int input.DurationSeconds),
    ("video_path", .str videoPath),
    ("transcript", .str transcript),
    ("transcript_path", .str transcriptPath),
    ("audio_bpm", .float analysis.BPM),
    ("audio_mean_db", .float analysis.MeanVolume),
    ("audio_max_db", .float analysis.MaxVolume),
    ("audio_duration", .float analysis.Duration),
    ("created_at", .str createdAt) ]

/-- `writeMetadata`: the returned `(string, error)` pair. -/
def writeMetadata (w : MetaWorld) (pathJoin : String → String → String) (input : JobInput)
    (jobID videoPath transcript transcriptPath : String) (analysis : Analysis) :
    String × Option GoError :=
  match w.mkdirAll input.OutputDir with
  | some err => ("", some err)
  | none =>
    let payload :=
      metadataPayload input jobID videoPath transcript transcriptPath analysis w.nowCreated.rfc3339
    let metaPath := pathJoin input.OutputDir ("metadata-" ++ formatInt w.nowName.unixNano ++ ".json")
    match w.create metaPath with
    | some err => ("", some err)
    | none =>
      match w.encode metaPath payload with
      | some err => ("", some err)
      | none => (metaPath, none)

/-! ## The poller -/

/-- The `send` closure of `Run`: an event without transcript fields, sent only
when the channel is not nil (`sink = true`). -/
def send (sink : Bool) (stage message : String) (progress : ℚ) : List Action :=
  if sink then
    [.emit { Stage := stage, Message := message, Progress := progress,
             Transcript := "", TranscriptPath := "" }]
  else []

/-- The `sendTranscript` closure of `Run`. -/
def sendTranscript (sink : Bool) (stage message transcript transcriptPath : String)
    (progress : ℚ) : List Action :=
  if sink then
    [.emit { Stage := stage, Message := message, Progress := progress,
             Transcript := transcript, TranscriptPath := transcriptPath }]
  else []

/-- The interval `pollPrediction` waits for: four seconds (in nanoseconds) when
`PollInterval <= 0`. -/
def effectiveInterval (pollInterval : Int) : Int :=
  if pollInterval ≤ 0 then 4 * 1000000000 else pollInterval

/-- The progress value of the render event for a lower-cased status. -/
def renderProgress (status : String) : ℚ :=
  if status = "processing" ∨ status = "running" then 0.6 else 0.4

/-- The four arms of the `switch status` of `pollPrediction`. -/
inductive Transition where
  /-- `case "succeeded", "completed"`. -/
  | success
  /-- `case "failed", "canceled"`. -/
  | failure
  /-- `case "starting", "processing", "running", "queued"`. -/
  | pending
  /-- `default`. -/
  | unknown
  deriving DecidableEq, Repr

/-- The arm the `switch` of `pollPrediction` takes for a lower-cased status. -/
def classify (status : String) : Transition :=
  if status = "succeeded" ∨ status = "completed" then .success
  else if status = "failed" ∨ status = "canceled" then .failure
  else if status = "starting" ∨ status = "processing" ∨ status = "running"
      ∨ status = "queued" then .pending
  else .unknown

/-- One pass through the body of the `for` loop of `pollPrediction`, on the
current `prediction`.  `step` is the outcome of the wait of this pass (`none`:
the wait never ends) and `again` stands for the next passes, run on the freshly
fetched prediction. -/
def pollIteration (sink : Bool) (pollInterval : Int) (prediction : Prediction)
    (step : Option PollStep) (again : Prediction → Ran Prediction) : Ran Prediction :=
  let status := toLower prediction.Status
  let sent :=
    send sink "render" ("Rendering (" ++ prediction.Status ++ ")") (renderProgress status)
  match classify status with
  | .success => { trace := sent, returned := some (prediction, none) }
  | .failure =>
    { trace := sent, returned := some (Prediction.zero, some (.errorf "replicate job failed")) }
  | .unknown =>
    { trace := sent,
      returned := some (Prediction.zero,
        some (.errorf ("replicate job status unknown: " ++ prediction.Status))) }
  | .pending =>
    let waited := sent ++ [.wait (effectiveInterval pollInterval)]
    match step with
    | none => { trace := waited, returned := none }
    | some (.cancelled e) => { trace := waited, returned := some (Prediction.zero, some (.ctx e)) }
    | some (.elapsed fetch) =>
      let fetched := waited ++ [.fetchPrediction prediction.ID]
      match fetch prediction.ID with
      | .error err => { trace := fetched, returned := some (Prediction.zero, some err) }
      | .ok next =>
        let r := again next
        { trace := fetched ++ r.trace, returned := r.returned }

/-- `Runner.pollPrediction`.  `steps` lists the outcomes of the successive waits
of the loop.  The trace holds what the loop did; `returned` is `none` when the
loop is still blocked in a wait after `steps` is used up (the Go loop has no
bound of its own). -/
def pollPrediction (sink : Bool) (pollInterval : Int) :
    List PollStep → Prediction → Ran Prediction
  | [], prediction =>
    pollIteration sink pollInterval prediction none (fun _ => { trace := [], returned := none })
  | step :: rest, prediction =>
    pollIteration sink pollInterval prediction (some step)
      (fun next => pollPrediction sink pollInterval rest next)

/-! ## `Runner.Run` -/

/-- The request `Run` submits. -/
def predictionRequest (prompt : String) (input : JobInput) : PredictionRequest :=
  { Input := [ ("prompt", .str prompt),
               ("prompt_optimizer", .bool true),
               ("duration", .int input.DurationSeconds),
               ("aspect_ratio", .str input.AspectRatio) ] }

/-- `Run` from the download stage on: the prediction is the one the poller
returned, `before` the trace so far. -/
def runAfterPoll (w : World) (runner : Runner) (input : JobInput) (sink : Bool)
    (transcript transcriptPath : String) (analysis : Analysis) (prediction : Prediction)
    (before : List Action) : Ran Result :=
  let t := before ++ send sink "download" "Downloading video" 0.9
  let videoURL := OutputURL prediction.Output
  if videoURL = "" then
    { trace := t, returned := some (Result.zero, some (.errorf "replicate output url missing")) }
  else
    let t := t ++ [.downloadOutput videoURL input.OutputDir]
    match downloadOutput w.download w.filepathJoin videoURL input.OutputDir with
    | (_, some err) => { trace := t, returned := some (Result.zero, some err) }
    | (videoPath, none) =>
      let t := t ++ [.muxAudio runner.FFmpegPath videoPath input.AudioPath input.OutputDir]
      match muxAudio w.mux w.filepathJoin runner.FFmpegPath videoPath input.AudioPath
          input.OutputDir with
      | (_, some err) => { trace := t, returned := some (Result.zero, some err) }
      | (muxedPath, none) =>
        let t := t ++ [.writeMetadata input prediction.ID muxedPath transcript transcriptPath
          analysis]
        match writeMetadata w.metadata w.filepathJoin input prediction.ID muxedPath transcript
            transcriptPath analysis with
        | (_, some err) => { trace := t, returned := some (Result.zero, some err) }
        | (metaPath, none) =>
          { trace := t ++ send sink "done" "Completed" 1.0,
            returned := some
              ({ JobID := prediction.ID, VideoPath := videoPath, MetaPath := metaPath }, none) }

/-- `Run` from the analyze stage on. -/
def runAfterTranscribe (w : World) (runner : Runner) (client : ReplicateClient)
    (input : JobInput) (sink : Bool) (enhancedPath transcript transcriptPath : String)
    (before : List Action) : Ran Result :=
  let t := before ++ send sink "analyze" "Analyzing audio" 0.36
    ++ [.analyze runner.FFmpegPath input.AudioPath]
  match w.analyze runner.FFmpegPath input.AudioPath with
  | .error err => { trace := t, returned := some (Result.zero, some err) }
  | .ok analysis =>
    let prompt := buildPrompt input enhancedPath transcript analysis
    let request := predictionRequest prompt input
    let t := t ++ send sink "submit" "Submitting to Replicate" 0.4
      ++ [.submitPrediction request runner.PreferWait]
    match w.submitPrediction client request runner.PreferWait with
    | .error err => { trace := t, returned := some (Result.zero, some err) }
    | .ok prediction =>
      let polled := pollPrediction sink runner.PollInterval w.poll prediction
      match polled.returned with
      | none => { trace := t ++ polled.trace, returned := none }
      | some (_, some err) =>
        { trace := t ++ polled.trace, returned := some (Result.zero, some err) }
      | some (prediction, none) =>
        runAfterPoll w runner input sink transcript transcriptPath analysis prediction
          (t ++ polled.trace)

/-- `Runner.Run`.  `sink` tells whether the `events` channel is non-nil; every
send is taken to be received (the channel is unbuffered, so a send without a
receiver would block the run for good). -/
def Run (w : World) (runner : Runner) (input : JobInput) (sink : Bool) : Ran Result :=
  match runner.Replicate with
  | none =>
    { trace := [], returned := some (Result.zero, some (.errorf "replicate client not configured")) }
  | some client =>
    let t := send sink "validate" "Validating audio" 0.05 ++ [.validateAudioPath input.AudioPath]
    match w.validateAudioPath input.AudioPath with
    | some err => { trace := t, returned := some (Result.zero, some err) }
    | none =>
      let t := t ++ send sink "enhance" "Enhancing audio" 0.2
      let enhanced : List Action × Except GoError String :=
        match runner.ElevenLabs with
        | none => ([], .ok input.AudioPath)
        | some eleven =>
          ([.enhanceAudio input.AudioPath input.OutputDir],
            w.enhanceAudio eleven input.AudioPath input.OutputDir)
      let t := t ++ enhanced.1
      match enhanced.2 with
      | .error err => { trace := t, returned := some (Result.zero, some err) }
      | .ok enhancedPath =>
        if runner.Transcribe.Enabled then
          let t := t ++ send sink "transcribe" "Transcribing audio" 0.3
            ++ [.transcribe input.AudioPath input.OutputDir]
          match w.transcribe runner.Transcribe input.AudioPath input.OutputDir with
          | .error err => { trace := t, returned := some (Result.zero, some err) }
          | .ok (transcript, transcriptPath) =>
            runAfterTranscribe w runner client input sink enhancedPath transcript transcriptPath
              (t ++ sendTranscript sink "transcribe" "Transcript ready" transcript transcriptPath
                0.35)
        else
          runAfterTranscribe w runner client input sink enhancedPath "" "" t

/-! ## Vocabulary of the statements -/

/-- The eight statuses the `switch` of `pollPrediction` names. -/
def knownStatuses : List String :=
  ["succeeded", "completed", "failed", "canceled", "starting", "processing", "running", "queued"]

/-- The four statuses on which the poller keeps waiting. -/
def pendingStatuses : List String := ["starting", "processing", "running", "queued"]

/-- How many `FetchPrediction` calls a trace holds. -/
def fetchCount : List Action → Nat
  | [] => 0
  | .fetchPrediction _ :: rest => fetchCount rest + 1
  | _ :: rest => fetchCount rest

/-- Whether the last action of a trace is a `FetchPrediction` call. -/
def endsWithFetch (trace : List Action) : Bool :=
  match trace.getLast? with
  | some (.fetchPrediction _) => true
  | _ => false

/-- The render event of one pass of the poll loop on `p`. -/
def renderEvent (p : Prediction) (progress : ℚ) : Event :=
  { Stage := "render", Message := "Rendering (" ++ p.Status ++ ")", Progress := progress,
    Transcript := "", TranscriptPath := "" }

/-- A prediction with the given id and status and an output URL. -/
def samplePrediction (id status : String) : Prediction :=
  { ID := id, Status := status, Output := .str "https://cdn.example/out.mp4", Error := .null,
    Logs := "" }

/-- A world in which every stage succeeds: the remote job is reported as
starting, then processing, then succeeded. -/
def sampleWorld : World :=
  { validateAudioPath := fun _ => none
    enhanceAudio := fun _ inputPath _ => .ok inputPath
    transcribe := fun _ _ _ => .ok ("la la la", "out/transcript-0.txt")
    analyze := fun _ _ =>
      .ok { BPM := .fin 128, MeanVolume := .fin (-18), MaxVolume := .fin (-3), Duration := .fin 12 }
    submitPrediction := fun _ _ _ => .ok (samplePrediction "job-1" "starting")
    poll := [.elapsed (fun id => .ok (samplePrediction id "processing")),
             .elapsed (fun id => .ok (samplePrediction id "succeeded"))]
    filepathJoin := fun dir name => dir ++ "/" ++ name
    download :=
      { mkdirAll := fun _ => none
        newRequest := fun _ => none
        roundTrip := fun _ => .ok { StatusCode := 200, Body := "" }
        now := { unixNano := 1, rfc3339 := "2024-05-01T10:00:01Z" }
        create := fun _ => none
        copy := fun _ => none }
    mux :=
      { mkdirAll := fun _ => none
        now := { unixNano := 2, rfc3339 := "2024-05-01T10:00:02Z" }
        combinedOutput := fun _ _ => ("", none) }
    metadata :=
      { mkdirAll := fun _ => none
        nowCreated := { unixNano := 3, rfc3339 := "2024-05-01T10:00:03Z" }
        nowName := { unixNano := 4, rfc3339 := "2024-05-01T10:00:03Z" }
        create := fun _ => none
        encode := fun _ _ => none } }

/-- The sample world, except that the ffmpeg mux exits with an error. -/
def muxFailingWorld : World :=
  { sampleWorld with
    mux :=
      { mkdirAll := fun _ => none
        now := { unixNano := 2, rfc3339 := "2024-05-01T10:00:02Z" }
        combinedOutput := fun _ _ =>
          ("  song.wav: Invalid data found when processing input\n",
            some (.external "exit status 1")) } }

/-- A transcription configuration, enabled or not. -/
def sampleTranscribe (enabled : Bool) : TranscribeConfig :=
  { Enabled := enabled, DockerPath := "", DockerImage := "", Model := "", ModelDir := "",
    AutoDownload := false }

/-- A runner with a remote-generation client and no enhancement client. -/
def sampleRunner (transcribe : Bool) : Runner :=
  { ElevenLabs := none
    Replicate := some { APIToken := "token", BaseURL := "https://api.replicate.com/v1",
                        Model := "minimax/video-01" }
    Transcribe := sampleTranscribe transcribe
    FFmpegPath := ""
    PollInterval := 0
    PreferWait := false }

/-- A runner without a remote-generation client. -/
def unconfiguredRunner : Runner :=
  { ElevenLabs := none, Replicate := none, Transcribe := sampleTranscribe false, FFmpegPath := "",
    PollInterval := 0, PreferWait := false }

/-- A job input. -/
def sampleInput : JobInput :=
  { AudioPath := "song.wav", Lyrics := "", Preset := "hook", StylePreset := "neon",
    AspectRatio := "16:9", DurationSeconds := 6, OutputDir := "out" }

/-- An event without transcript fields, as the `send` closure builds it. -/
def plainEvent (stage message : String) (progress : ℚ) : Event :=
  { Stage := stage, Message := message, Progress := progress, Transcript := "",
    TranscriptPath := "" }

/-- The events of the stages from analyze to download, in a run that gets that
far, given the render events of its poller. -/
def lateEvents (renders : List Event) : List Event :=
  [plainEvent "analyze" "Analyzing audio" 0.36, plainEvent "submit" "Submitting to Replicate" 0.4]
    ++ renders ++ [plainEvent "download" "Downloading video" 0.9]

/-- The "Transcript ready" event, as the `sendTranscript` closure builds it. -/
def readyEvent (transcript transcriptPath : String) : Event :=
  { Stage := "transcribe", Message := "Transcript ready", Progress := 0.35,
    Transcript := transcript, TranscriptPath := transcriptPath }

/-- The last event of a run that succeeds. -/
def doneEvent : Event := plainEvent "done" "Completed" 1.0

/-- The events of the stages before analyze, in a run that gets that far; with
transcription enabled, `ready` is the "Transcript ready" event. -/
def earlyEvents (transcribe : Bool) (ready : Event) : List Event :=
  [plainEvent "validate" "Validating audio" 0.05, plainEvent "enhance" "Enhancing audio" 0.2]
    ++ (if transcribe then [plainEvent "transcribe" "Transcribing audio" 0.3, ready] else [])

/-- The order the progress values keep: a later event never carries less than an
earlier one, two render events apart. -/
def ProgressOrdered (a b : Event) : Prop :=
  (a.Stage = "render" ∧ b.Stage = "render") ∨ a.Progress ≤ b.Progress

/-- The stage names the runner gives its events. -/
def eventStages : List String :=
  ["validate", "enhance", "transcribe", "analyze", "submit", "render", "download", "done"]

/-- The error, if any, a stage call of the trace returns in world `w`.  The
calls of the poller are left out (`none`): what a fetch answers depends on the
wait it follows, not on the call alone. -/
def stageError (w : World) (runner : Runner) : Action → Option GoError
  | .validateAudioPath path => w.validateAudioPath path
  | .enhanceAudio inputPath outputDir =>
    match runner.ElevenLabs with
    | none => none
    | some eleven =>
      match w.enhanceAudio eleven inputPath outputDir with
      | .error err => some err
      | .ok _ => none
  | .transcribe audioPath outputDir =>
    match w.transcribe runner.Transcribe audioPath outputDir with
    | .error err => some err
    | .ok _ => none
  | .analyze ffmpegPath inputPath =>
    match w.analyze ffmpegPath inputPath with
    | .error err => some err
    | .ok _ => none
  | .submitPrediction request preferWait =>
    match runner.Replicate with
    | none => none
    | some client =>
      match w.submitPrediction client request preferWait with
      | .error err => some err
      | .ok _ => none
  | .downloadOutput url outputDir => (downloadOutput w.download w.filepathJoin url outputDir).2
  | .muxAudio ffmpegPath videoPath audioPath outputDir =>
    (muxAudio w.mux w.filepathJoin ffmpegPath videoPath audioPath outputDir).2
  | .writeMetadata input jobID videoPath transcript transcriptPath analysis =>
    (writeMetadata w.metadata w.filepathJoin input jobID videoPath transcript transcriptPath
      analysis).2
  | .emit _ => none
  | .wait _ => none
  | .fetchPrediction _ => none

/-- The video paths handed to `writeMetadata` in a trace, which it records as
`video_path`. -/
def metadataVideoPaths : List Action → List String
  | [] => []
  | .writeMetadata _ _ videoPath _ _ _ :: rest => videoPath :: metadataVideoPaths rest
  | _ :: rest => metadataVideoPaths rest

/-- The prediction, if any, a submit call of the trace returns in world `w`. -/
def submitted (w : World) (runner : Runner) : Action → Option Prediction
  | .submitPrediction request preferWait =>
    match runner.Replicate with
    | none => none
    | some client =>
      match w.submitPrediction client request preferWait with
      | .error _ => none
      | .ok prediction => some prediction
  | _ => none

/-- A trace without a successful submit call. -/
def Unsubmitted (w : World) (runner : Runner) (trace : List Action) : Prop :=
  ∀ a ∈ trace, submitted w runner a = none

/-- What one run must satisfy for "a failing poller ends the run": when the
poller, started on the prediction a submit call returned, returns an error, the
run returns that error with the empty `Result`, and its trace stops with the
trace of the poller. -/
def PollAborts (w : World) (runner : Runner) (sink : Bool) (r : Ran Result) : Prop :=
  ∀ a ∈ r.trace, ∀ p q err, submitted w runner a = some p →
    (pollPrediction sink runner.PollInterval w.poll p).returned = some (q, some err) →
    r.returned = some (Result.zero, some err) ∧
      ∃ before, r.trace = before ++ a :: (pollPrediction sink runner.PollInterval w.poll p).trace

/-- A trace none of whose stage calls failed. -/
def Clean (w : World) (runner : Runner) (trace : List Action) : Prop :=
  ∀ a ∈ trace, stageError w runner a = none

/-- What one run must satisfy for "a failing stage ends the run": an error comes
with the empty `Result`, and a stage call that fails is the last action of the
trace and its error is the one returned. -/
def Aborts (w : World) (runner : Runner) (r : Ran Result) : Prop :=
  (∀ res err, r.returned = some (res, some err) → res = Result.zero) ∧
    ∀ a ∈ r.trace, ∀ err, stageError w runner a = some err →
      r.trace.getLast? = some a ∧ r.returned = some (Result.zero, some err)

/-- The waits of a poll in which no cancellation fires and the remote client
answers the successive fetches with the predictions `answers`, in order. -/
def reports (answers : List Prediction) : List PollStep :=
  answers.map (fun q => PollStep.elapsed (fun _ => Except.ok q))

/-- What the submit call of a run of `Run` on `input` looks like: the prompt is
built from the input, some enhanced path, transcript and analysis, and the
enhanced path is the input audio path when there is no enhancement client. -/
def SubmitShape (runner : Runner) (input : JobInput) (request : PredictionRequest)
    (preferWait : Bool) : Prop :=
  preferWait = runner.PreferWait ∧
    ∃ enhancedPath transcript analysis,
      request = predictionRequest (buildPrompt input enhancedPath transcript analysis) input ∧
        (runner.ElevenLabs = none → enhancedPath = input.AudioPath)

/-- The actions of a run up to the submit stage, with what each call receives:
the events of the first five stages, the calls of validate, enhance, transcribe
and analyze on the input audio path, and a submit call that fails. -/
def earlyAction (w : World) (runner : Runner) (input : JobInput) : Action → Prop
  | .emit e => e.Stage ∈ ["validate", "enhance", "transcribe", "analyze", "submit"]
  | .validateAudioPath path => path = input.AudioPath
  | .enhanceAudio inputPath outputDir =>
    inputPath = input.AudioPath ∧ outputDir = input.OutputDir ∧ runner.ElevenLabs ≠ none
  | .transcribe audioPath outputDir =>
    audioPath = input.AudioPath ∧ outputDir = input.OutputDir
  | .analyze ffmpegPath inputPath =>
    ffmpegPath = runner.FFmpegPath ∧ inputPath = input.AudioPath
  | .submitPrediction request preferWait =>
    submitted w runner (.submitPrediction request preferWait) = none ∧
      SubmitShape runner input request preferWait
  | _ => False

/-- The actions of the poller: render events, waits and fetches. -/
def pollAction : Action → Prop
  | .emit e => e.Stage = "render"
  | .wait _ => True
  | .fetchPrediction _ => True
  | _ => False

/-- The actions of a run after the poller, with what each call receives: the
download and done events, the download of a non-empty URL, the mux of the input
audio path, the metadata of the input. -/
def lateAction (runner : Runner) (input : JobInput) : Action → Prop
  | .emit e => e.Stage = "download" ∨ e.Stage = "done"
  | .downloadOutput url outputDir => url ≠ "" ∧ outputDir = input.OutputDir
  | .muxAudio ffmpegPath _ audioPath outputDir =>
    ffmpegPath = runner.FFmpegPath ∧ audioPath = input.AudioPath ∧ outputDir = input.OutputDir
  | .writeMetadata recorded _ _ _ _ _ => recorded = input
  | _ => False

/-- A trace made of actions of the stages up to submit only. -/
def Early (w : World) (runner : Runner) (input : JobInput) (trace : List Action) : Prop :=
  ∀ a ∈ trace, earlyAction w runner input a

/-- The two ways a run can go: it fails before any prediction is obtained, its
trace holding early actions only; or it obtains a prediction `p` from a submit
call, polls it, and then stays blocked, fails with the poller's error, or goes
on with `runAfterPoll` on the prediction `q` the poller returned. -/
def Structured (w : World) (runner : Runner) (input : JobInput) (sink : Bool)
    (r : Ran Result) : Prop :=
  ((∃ err, r.returned = some (Result.zero, some err)) ∧ Early w runner input r.trace) ∨
    ∃ early request p transcript transcriptPath analysis,
      Early w runner input early ∧ SubmitShape runner input request runner.PreferWait ∧
      submitted w runner (.submitPrediction request runner.PreferWait) = some p ∧
      (((pollPrediction sink runner.PollInterval w.poll p).returned = none ∧
          r = { trace := early ++ .submitPrediction request runner.PreferWait ::
                  (pollPrediction sink runner.PollInterval w.poll p).trace,
                returned := none }) ∨
        (∃ q err, (pollPrediction sink runner.PollInterval w.poll p).returned =
            some (q, some err) ∧
          r = { trace := early ++ .submitPrediction request runner.PreferWait ::
                  (pollPrediction sink runner.PollInterval w.poll p).trace,
                returned := some (Result.zero, some err) }) ∨
        (∃ q, (pollPrediction sink runner.PollInterval w.poll p).returned = some (q, none) ∧
          r = runAfterPoll w runner input sink transcript transcriptPath analysis q
            (early ++ .submitPrediction request runner.PreferWait ::
              (pollPrediction sink runner.PollInterval w.poll p).trace)))

/-- Whether an action is a call of one of the stages after the poller:
download, mux, persist-metadata. -/
def isLateCall : Action → Bool
  | .downloadOutput _ _ => true
  | .muxAudio _ _ _ _ => true
  | .writeMetadata _ _ _ _ _ _ => true
  | _ => false

/-- The sample world, except that the job is reported as succeeded at once with
an output that holds no URL (a list without a string). -/
def noUrlWorld : World :=
  { sampleWorld with
    submitPrediction := fun _ _ _ =>
      .ok { ID := "job-2", Status := "succeeded", Output := .arr [.null, .int 3],
            Error := .null, Logs := "" } }

/-- `strings.Contains(s, sub)`, as a proposition: the runes of `sub` occur in a
row in `s`. -/
def Contains (s sub : String) : Prop := sub.data <:+: s.data

/-- `strings.HasPrefix(s, start)`, as a proposition. -/
def StartsWith (s start : String) : Prop := start.data <+: s.data

/-- `strings.HasSuffix(s, ending)`, as a proposition. -/
def EndsWith (s ending : String) : Prop := ending.data <:+ s.data

/-- The optional fragments of the prompt, in the spec's words: the style
fragment, present when the style tag is not empty. -/
def styleFragment (input : JobInput) : List String :=
  if input.StylePreset ≠ "" then ["style " ++ input.StylePreset] else []

/-- The aspect-ratio fragment, present when the aspect-ratio tag is not empty. -/
def aspectFragment (input : JobInput) : List String :=
  if input.AspectRatio ≠ "" then ["aspect ratio " ++ input.AspectRatio] else []

/-- The lyrics fragment, present when the lyrics are not blank. -/
def lyricsFragment (lyrics : String) : List String :=
  if trimSpace lyrics ≠ "" then ["lyrics: " ++ trimSpace lyrics] else []

/-- The transcript fragment, present when the transcript is not blank. -/
def transcriptFragment (transcript : String) : List String :=
  if trimSpace transcript ≠ "" then ["transcript: " ++ trimSpace transcript] else []

/-- The audio-source fragment, present when the enhanced path is not empty. -/
def audioSourceFragment (enhancedPath : String) : List String :=
  if enhancedPath ≠ "" then ["audio source " ++ filepathBase enhancedPath] else []

/-- The fragments of the prompt in the order the spec gives: base phrase, preset
fragments, style, aspect ratio, lyrics, transcript, mood fragments, audio
source. -/
def promptFragments (input : JobInput) (enhancedPath transcript : String)
    (analysis : Analysis) : List String :=
  ["cinematic music video visuals"] ++ presetNotes input.Preset ++ styleFragment input
    ++ aspectFragment input ++ lyricsFragment input.Lyrics ++ transcriptFragment transcript
    ++ vibeFromAnalysis analysis ++ audioSourceFragment enhancedPath

instance (s sub : String) : Decidable (Contains s sub) :=
  inferInstanceAs (Decidable (sub.data <:+: s.data))

/-- An analysis with the given tempo, mean and max loudness. -/
def sampleAnalysis (bpm mean max : ℚ) : Analysis :=
  { BPM := .fin bpm, MeanVolume := .fin mean, MaxVolume := .fin max, Duration := .fin 12 }

/-- The three preset names of the lookup table. -/
def presetNames : List String := ["hook", "canvas", "highlight"]

/-- An input with the given lyrics and nothing else. -/
def lyricsInput (lyrics : String) : JobInput :=
  { AudioPath := "song.wav", Lyrics := lyrics, Preset := "", StylePreset := "",
    AspectRatio := "", DurationSeconds := 6, OutputDir := "out" }

/-- `audio.Analysis{}`: the zero value. -/
def Analysis.zero : Analysis :=
  { BPM := .fin 0, MeanVolume := .fin 0, MaxVolume := .fin 0, Duration := .fin 0 }

/-- The world `w`, except that the enhancement call succeeds with `path`. -/
def withEnhanced (w : World) (path : String) : World :=
  { w with enhanceAudio := fun _ _ _ => .ok path }

/-- The sample runner with an enhancement client. -/
def enhancingRunner : Runner :=
  { sampleRunner false with
    ElevenLabs := some { APIKey := "key", BaseURL := "https://api.elevenlabs.io",
                         EnhancePath := "/v1/audio-isolation" } }

/-! ## `internal/audio`: the recorder -/

/-- `os.Process`: the handle of a started subprocess. -/
structure OSProcess where
  Pid : Int

/-- `exec.Cmd`, as far as the recorder looks at it: `Process` is nil until the
command is started. -/
structure Cmd where
  Process : Option OSProcess

/-- `audio.Recorder`.  `stderr` is the text the buffer holds, into which both
the standard output and the standard error of the subprocess are written. -/
structure Recorder where
  cmd : Option Cmd
  stderr : String
  OutputPath : String
  stopped : Bool

/-- What a call of `Stop` leaves: the recorder afterwards, whether
`Process.Kill()` was called, and the error returned. -/
structure Stopped where
  recorder : Option Recorder
  killed : Bool
  err : Option GoError

/-- `Recorder.Stop`; a nil receiver is `none`, `signal` is what
`Process.Signal(os.Interrupt)` returns. -/
def Stop (recorder : Option Recorder) (signal : Option GoError) : Stopped :=
  match recorder with
  | none => { recorder := none, killed := false, err := none }
  | some r =>
    match r.cmd with
    | none => { recorder := some r, killed := false, err := none }
    | some cmd =>
      match cmd.Process with
      | none => { recorder := some r, killed := false, err := none }
      | some _ =>
        let r := { r with stopped := true }
        match signal with
        | some err => { recorder := some r, killed := true, err := some err }
        | none => { recorder := some r, killed := false, err := none }

/-- `Recorder.Wait`; `exit` is what `cmd.Wait()` returns (nil when the subprocess
exits with status zero), and the buffer is read as it stands then. -/
def Wait (recorder : Option Recorder) (exit : Option GoError) : Option GoError :=
  match recorder with
  | none => none
  | some r =>
    match r.cmd with
    | none => none
    | some _ =>
      match exit with
      | some _ =>
        if r.stopped then none
        else some (.errorf ("ffmpeg recording failed: " ++ trimSpace r.stderr))
      | none => none

/-- A recorder as `StartRecording` returns it, once the subprocess has written
`captured` to its standard output and standard error. -/
def startedRecorder (outputPath captured : String) : Recorder :=
  { cmd := some { Process := some { Pid := 4242 } }, stderr := captured,
    OutputPath := outputPath, stopped := false }

/-- Whether the recorder has a started subprocess. -/
def Recorder.started (r : Recorder) : Prop :=
  ∃ cmd process, r.cmd = some cmd ∧ cmd.Process = some process

/-! ## Vocabulary of the later statements -/

/-- Whether a decoded value is a Go `string`. -/
def Value.isStr : Value → Bool
  | .str _ => true
  | _ => false

/-- A prediction as received, but for its status, which is converted to lower case. -/
def lowerStatus (p : Prediction) : Prediction := { p with Status := toLower p.Status }

/-! ## `internal/ai/elevenlabs` and `internal/ai/ltx2`: the streaming upload -/

/-- What the multipart upload of `EnhanceAudio` and of `SubmitJob` meets outside
the process.  `newRequest url` is the error of `http.NewRequestWithContext`,
`osOpen path` that of `os.Open`, `createFormFile field name` that of
`multipartWriter.CreateFormFile`, `copyPart path` that of `io.Copy(part, file)`
for the file at `path`, and `clientDo url` the outcome of `HTTPClient.Do` on the
request for `url`.  The outcomes of the encoding goroutine and of the exchange
are independent entries, so every combination of them can be stated. -/
structure UploadWorld where
  newRequest : String → Option GoError
  osOpen : String → Option GoError
  createFormFile : String → String → Option GoError
  copyPart : String → Option GoError
  clientDo : String → Except GoError HttpResponse

/-- The goroutine of `EnhanceAudio` and the first part of the goroutine of
`SubmitJob`: the value it sends on `errorChan`, `none` for `nil`.  (In
`SubmitJob` four `WriteField` calls follow whose errors are discarded, so the
value sent is the same.) -/
def uploadAudio (w : UploadWorld) (inputPath : String) : Option GoError :=
  match w.osOpen inputPath with
  | some err => some err
  | none =>
    match w.createFormFile "audio" (filepathBase inputPath) with
    | some err => some err
    | none =>
      match w.copyPart inputPath with
      | some err => some err
      | none => none

/-- What `EnhanceAudio` meets outside the process: the upload, and the file
system and clock used to store the answer. -/
structure EnhanceWorld where
  upload : UploadWorld
  mkdirAll : String → Option GoError
  now : Time
  create : String → Option GoError
  copy : String → Option GoError

/-- A call of `EnhanceAudio`: the files it created with `os.Create`, and the
`(string, error)` pair it returns. -/
structure Enhanced where
  created : List String
  returned : String × Option GoError

/-- `elevenlabs.Client.EnhanceAudio`.  The value the goroutine sends on
`errorChan` is received only after `HTTPClient.Do` has returned a response. -/
def EnhanceAudio (w : EnhanceWorld) (pathJoin : String → String → String)
    (client : ElevenLabsClient) (inputPath outputDir : String) : Enhanced :=
  if client.APIKey = "" then { created := [], returned := (inputPath, none) }
  else
    match w.upload.newRequest (client.BaseURL ++ client.EnhancePath) with
    | some err => { created := [], returned := ("", some err) }
    | none =>
      match w.upload.clientDo (client.BaseURL ++ client.EnhancePath) with
      | .error err => { created := [], returned := ("", some err) }
      | .ok response =>
        match uploadAudio w.upload inputPath with
        | some err => { created := [], returned := ("", some err) }
        | none =>
          if response.StatusCode ≥ 400 then
            { created := [],
              returned := ("", some (.errorf ("elevenlabs error: " ++ response.Body))) }
          else
            match w.mkdirAll outputDir with
            | some err => { created := [], returned := ("", some err) }
            | none =>
              let outputPath :=
                pathJoin outputDir ("enhanced-" ++ formatInt w.now.unixNano ++ ".wav")
              match w.create outputPath with
              | some err => { created := [], returned := ("", some err) }
              | none =>
                match w.copy outputPath with
                | some err => { created := [outputPath], returned := ("", some err) }
                | none => { created := [outputPath], returned := (outputPath, none) }

/-- `ltx2.Client` (the HTTP handle left out). -/
structure LTX2Client where
  BaseURL : String
  GeneratePath : String
  StatusPath : String
  DownloadPath : String

/-- `ltx2.GenerateRequest`. -/
structure GenerateRequest where
  AudioPath : String
  Lyrics : String
  StylePreset : String
  AspectRatio : String
  DurationSeconds : Int

/-- `ltx2.GenerateResponse`. -/
structure GenerateResponse where
  JobID : String
  ID : String

/-- What `SubmitJob` meets outside the process: the upload, and `decode body`,
the outcome of `json.NewDecoder(response.Body).Decode(&payload)`. -/
structure SubmitWorld where
  upload : UploadWorld
  decode : String → Except GoError GenerateResponse

/-- `ltx2.Client.SubmitJob`: the returned `(string, error)` pair. -/
def SubmitJob (w : SubmitWorld) (client : LTX2Client) (request : GenerateRequest) :
    String × Option GoError :=
  if client.BaseURL = "" then ("", some (.errorf "ltx2 base url is required"))
  else
    let requestURL := client.BaseURL ++ client.GeneratePath
    match w.upload.newRequest requestURL with
    | some err => ("", some err)
    | none =>
      match w.upload.clientDo requestURL with
      | .error err => ("", some err)
      | .ok response =>
        match uploadAudio w.upload request.AudioPath with
        | some err => ("", some err)
        | none =>
          if response.StatusCode ≥ 400 then
            ("", some (.errorf ("ltx2 submit error: " ++ response.Body)))
          else
            match w.decode response.Body with
            | .error err => ("", some err)
            | .ok payload =>
              let jobID := if payload.JobID = "" then payload.ID else payload.JobID
              if jobID = "" then ("", some (.errorf "ltx2 response missing job id"))
              else (jobID, none)

/-- An upload in which the file is read and encoded without error and the
exchange ends as `exchange` says. -/
def sampleUpload (exchange : Except GoError HttpResponse) : UploadWorld :=
  { newRequest := fun _ => none
    osOpen := fun _ => none
    createFormFile := fun _ _ => none
    copyPart := fun _ => none
    clientDo := fun _ => exchange }

/-- An upload whose source file cannot be opened, the exchange ending as
`exchange` says. -/
def missingFileUpload (exchange : Except GoError HttpResponse) : UploadWorld :=
  { sampleUpload exchange with
    osOpen := fun path => some (.external ("open " ++ path ++ ": no such file or directory")) }

/-- A world of `EnhanceAudio` with the given upload, in which the answer can
be stored. -/
def sampleEnhance (upload : UploadWorld) : EnhanceWorld :=
  { upload := upload
    mkdirAll := fun _ => none
    now := { unixNano := 5, rfc3339 := "2024-05-01T10:00:05Z" }
    create := fun _ => none
    copy := fun _ => none }

/-- An enhancement client with an API key. -/
def sampleEleven : ElevenLabsClient :=
  { APIKey := "key", BaseURL := "https://api.elevenlabs.io", EnhancePath := "/v1/audio-isolation" }

/-- The path join of the sample worlds. -/
def slashJoin (dir name : String) : String := dir ++ "/" ++ name

/-- The path `EnhanceAudio` stores the answer at. -/
def enhancedPath (w : EnhanceWorld) (pathJoin : String → String → String)
    (outputDir : String) : String :=
  pathJoin outputDir ("enhanced-" ++ formatInt w.now.unixNano ++ ".wav")

/-- A generation client with a base URL. -/
def sampleLTX2 : LTX2Client :=
  { BaseURL := "http://localhost:8000", GeneratePath := "/generate", StatusPath := "/status/%s",
    DownloadPath := "/download/%s" }

/-- A generation request for `song.wav`. -/
def sampleGenerate : GenerateRequest :=
  { AudioPath := "song.wav", Lyrics := "", StylePreset := "neon", AspectRatio := "16:9",
    DurationSeconds := 6 }

/-- A world of `SubmitJob` with the given upload, whose answer names no job. -/
def sampleSubmit (upload : UploadWorld) : SubmitWorld :=
  { upload := upload, decode := fun _ => .ok { JobID := "", ID := "" } }

/-- The error of an exchange that never reached the service. -/
def refused : GoError := .external "dial tcp 127.0.0.1:8000: connect: connection refused"

/-! ## `internal/audio`: analysis and transcription -/

/-- `errors.Is(err, target)`: `err` is `target`, or an error `err` wraps (with
`%w`) is. -/
def errorsIs : GoError → GoError → Bool
  | .wrapf msg cause, target => decide (GoError.wrapf msg cause = target) || errorsIs cause target
  | err, target => decide (err = target)

/-- What `audio.Analyze` meets: `run name args` is the text the subprocess
`exec.CommandContext(ctx, name, args...)` wrote to its standard error and the
error of its `Run()`.  The three parsers of `analysis.go`, which read numbers
out of that text with `strconv` and `regexp`, are taken as given functions. -/
structure AnalyzeWorld where
  run : String → List String → String × Option GoError
  parseFFmpegValue : String → String → String → Float64
  parseDurationFromLog : String → Float64
  parseBPM : String → Float64

/-- `audio.Analyze`: the returned `(Analysis, error)` pair. -/
def Analyze (w : AnalyzeWorld) (ffmpegPath inputPath : String) : Analysis × Option GoError :=
  let ffmpegPath := if ffmpegPath = "" then "ffmpeg" else ffmpegPath
  match w.run ffmpegPath
      ["-i", inputPath, "-filter:a", "volumedetect", "-f", "null", "/dev/null"] with
  | (_, some err) => (Analysis.zero, some (.wrapf "volume analysis failed" err))
  | (outputVol, none) =>
    let meanVol := w.parseFFmpegValue outputVol "mean_volume: " " dB"
    let maxVol := w.parseFFmpegValue outputVol "max_volume: " " dB"
    let duration := w.parseDurationFromLog outputVol
    let bpm :=
      match w.run ffmpegPath ["-i", inputPath, "-filter:a", "bpm", "-f", "null", "/dev/null"] with
      | (stderrBpm, none) => w.parseBPM stderrBpm
      | (_, some _) => .fin 0
    ({ BPM := bpm, MeanVolume := meanVol, MaxVolume := maxVol, Duration := duration }, none)

/-- What `audio.Transcribe` meets outside the process.  `now` is the clock
reading that names the work directory, `nowFinal` the later one that names the
transcript; `combinedOutput name args` is the outcome of
`exec.CommandContext(ctx, name, args...).CombinedOutput()`. -/
structure TranscribeWorld where
  mkdirAll : String → Option GoError
  abs : String → Except GoError String
  stat : String → Option GoError
  now : Time
  nowFinal : Time
  osOpen : String → Option GoError
  create : String → Option GoError
  copy : String → String → Option GoError
  combinedOutput : String → List String → String × Option GoError
  readFile : String → Except GoError String
  rename : String → String → Option GoError

/-- `downloadModel` of `transcribe.go`. -/
def downloadModel (w : TranscribeWorld) (config : TranscribeConfig) : Option GoError :=
  match w.combinedOutput config.DockerPath
      ["run", "--rm", "-v", config.ModelDir ++ ":/models", config.DockerImage,
        "./models/download-ggml-model.sh", config.Model] with
  | (output, some _) => some (.errorf ("whisper model download failed: " ++ trimSpace output))
  | (_, none) => none

/-- `copyFile` of `transcribe.go`. -/
def copyFile (w : TranscribeWorld) (source destination : String) : Option GoError :=
  match w.osOpen source with
  | some err => some err
  | none =>
    match w.create destination with
    | some err => some err
    | none =>
      match w.copy source destination with
      | some err => some err
      | none => none

/-- The arguments of the whisper subprocess of `Transcribe`. -/
def whisperArgs (config : TranscribeConfig) (workDirAbs : String) : List String :=
  ["run", "--rm", "-v", workDirAbs ++ ":/work", "-v", config.ModelDir ++ ":/models",
    config.DockerImage, "./main", "-m", "/models/ggml-" ++ config.Model ++ ".bin",
    "-f", "/work/input.wav", "-of", "/work/transcript", "-otxt"]

/-- `Transcribe` from the whisper subprocess on: `config` holds the defaults and
the absolute model directory, `workDir` is the work directory and `workDirAbs`
its absolute path. -/
def transcribeAfterCopy (w : TranscribeWorld) (pathJoin : String → String → String)
    (config : TranscribeConfig) (workDir workDirAbs outputDir : String) :
    String × String × Option GoError :=
  let outputBase := pathJoin workDir "transcript"
  match w.combinedOutput config.DockerPath (whisperArgs config workDirAbs) with
  | (output, some _) =>
    ("", "", some (.errorf ("whisper transcription failed: " ++ trimSpace output)))
  | (_, none) =>
    let transcriptPath := outputBase ++ ".txt"
    match w.readFile transcriptPath with
    | .error err => ("", "", some err)
    | .ok content =>
      let finalPath :=
        pathJoin outputDir ("transcript-" ++ formatInt w.nowFinal.unixNano ++ ".txt")
      match w.rename transcriptPath finalPath with
      | some err => ("", "", some err)
      | none => (trimSpace content, finalPath, none)

/-- The configuration `Transcribe` works with: empty fields get their defaults. -/
def transcribeDefaults (config : TranscribeConfig) : TranscribeConfig :=
  { config with
    DockerPath := if config.DockerPath = "" then "docker" else config.DockerPath
    DockerImage :=
      if config.DockerImage = "" then "ghcr.io/ggerganov/whisper.cpp:1.5.5"
      else config.DockerImage
    Model := if config.Model = "" then "small" else config.Model
    ModelDir := if config.ModelDir = "" then "./models" else config.ModelDir }

/-- `audio.Transcribe`: the returned `(string, string, error)` triple. -/
def Transcribe (w : TranscribeWorld) (pathJoin : String → String → String)
    (config : TranscribeConfig) (audioPath outputDir : String) :
    String × String × Option GoError :=
  if config.Enabled = false then ("", "", none)
  else
    match w.mkdirAll outputDir with
    | some err => ("", "", some err)
    | none =>
      let config := transcribeDefaults config
      match w.abs config.ModelDir with
      | .error err => ("", "", some err)
      | .ok modelDir =>
        let config := { config with ModelDir := modelDir }
        let modelPath := pathJoin config.ModelDir ("ggml-" ++ config.Model ++ ".bin")
        let missing : Option GoError :=
          match w.stat modelPath with
          | some _ =>
            if config.AutoDownload = false then
              some (.errorf ("whisper model not found: " ++ modelPath))
            else downloadModel w config
          | none => none
        match missing with
        | some err => ("", "", some err)
        | none =>
          let workDir := pathJoin outputDir ("whisper-" ++ formatInt w.now.unixNano)
          match w.mkdirAll workDir with
          | some err => ("", "", some err)
          | none =>
            match w.abs workDir with
            | .error err => ("", "", some err)
            | .ok workDirAbs =>
              match copyFile w audioPath (pathJoin workDirAbs "input.wav") with
              | some err => ("", "", some err)
              | none => transcribeAfterCopy w pathJoin config workDir workDirAbs outputDir

/-- The world `w`, its transcription and analysis being those of
`audio.Transcribe` in `tw` and of `audio.Analyze` in `aw`. -/
def withAudio (w : World) (tw : TranscribeWorld) (aw : AnalyzeWorld) : World :=
  { w with
    transcribe := fun config audioPath outputDir =>
      match Transcribe tw w.filepathJoin config audioPath outputDir with
      | (_, _, some err) => .error err
      | (transcript, transcriptPath, none) => .ok (transcript, transcriptPath)
    analyze := fun ffmpegPath inputPath =>
      match Analyze aw ffmpegPath inputPath with
      | (_, some err) => .error err
      | (analysis, none) => .ok analysis }

/-- A world of `Transcribe` in which the model is present and every file
operation succeeds; the subprocess ends as `whisper` says. -/
def sampleTranscription (whisper : String × Option GoError) : TranscribeWorld :=
  { mkdirAll := fun _ => none
    abs := fun path => .ok ("/srv/" ++ path)
    stat := fun _ => none
    now := { unixNano := 6, rfc3339 := "2024-05-01T10:00:06Z" }
    nowFinal := { unixNano := 7, rfc3339 := "2024-05-01T10:00:07Z" }
    osOpen := fun _ => none
    create := fun _ => none
    copy := fun _ _ => none
    combinedOutput := fun _ _ => whisper
    readFile := fun _ => .ok " la la la\n"
    rename := fun _ _ => none }

/-- A world of `Analyze` whose subprocesses end as `volume` says. -/
def sampleAnalyzer (volume : String × Option GoError) : AnalyzeWorld :=
  { run := fun _ _ => volume
    parseFFmpegValue := fun _ _ _ => .fin (-18)
    parseDurationFromLog := fun _ => .fin 12
    parseBPM := fun _ => .fin 128 }

/-- The sample world, except that the ffmpeg mux is abandoned: its
`CombinedOutput` hands back no output and the cancellation error. -/
def muxCancelledWorld : World :=
  { sampleWorld with
    mux :=
      { mkdirAll := fun _ => none
        now := { unixNano := 2, rfc3339 := "2024-05-01T10:00:02Z" }
        combinedOutput := fun _ _ => ("", some (.ctx .canceled)) } }

/-- The arguments of the ffmpeg subprocess of `muxAudio`. -/
def muxArgs (videoPath audioPath outputPath : String) : List String :=
  ["-y", "-i", videoPath, "-i", audioPath, "-c:v", "copy", "-c:a", "aac", "-shortest", outputPath]

/-- The arguments of the volume subprocess of `Analyze`. -/
def volumeArgs (inputPath : String) : List String :=
  ["-i", inputPath, "-filter:a", "volumedetect", "-f", "null", "/dev/null"]

/-! ## Vocabulary of the lemmas on the case tables -/

/-- The lower-case form of the last code point of a run. -/
def CaseRange.last (r : CaseRange) : Nat := r.target + (r.hi - r.lo)

/-- A test under which no lower-case form of the run `r` is covered by the run
`q`: the forms lie below `q`, or above it, or both runs take every second code
point and the forms fall between the code points of `q`. -/
def CaseRange.separated (r q : CaseRange) : Bool :=
  decide (r.last < q.lo) || decide (q.hi < r.target) ||
    ((r.alternate || r.lo == r.hi) && q.alternate && (r.target + q.lo) % 2 == 1)

/-- A test under which every lower-case form of the run `r` is left unchanged by
`unicode.ToLower`: the forms are ASCII but no capital letters, or they are code
points above ASCII that no run covers. -/
def CaseRange.settled (r : CaseRange) : Bool :=
  (decide (r.last < 65) || (decide (90 < r.target) && decide (r.last < 128))) ||
    (decide (128 ≤ r.target) &&
      (decide (r.last < 0xD800) || (decide (0xDFFF < r.target) && decide (r.last < 0x110000))) &&
      lowerRanges.all (fun q => r.separated q))

/-- Stretches of code points, given by the code points just before and just after
them, that hold no white space. -/
def spaceGaps : List (Nat × Nat) :=
  [(32, 0x85), (0xA0, 0x1680), (0x1680, 0x2000), (0x205F, 0x3000), (0x3000, 0x110000)]

/-- Whether the code points `a`..`b` lie within one of the stretches without white
space. -/
def inGap (a b : Nat) : Bool := spaceGaps.any (fun g => decide (g.1 < a) && decide (b < g.2))

/-- A test under which neither the code points of a run nor their lower-case forms
are white space. -/
def CaseRange.spaceFree (r : CaseRange) : Bool := inGap r.lo r.hi && inGap r.target r.last

/-! ## Go strings as bytes: `unicode/utf8` -/

/-- `utf8.RuneError`, U+FFFD. -/
def runeError : Nat := 0xFFFD

/-- `utf8.DecodeRune` on a Go string given as the list of its bytes: the rune at
its head and the number of bytes it takes; `(RuneError, 1)` when the head starts
no well-formed sequence (too short, overlong, a surrogate, above U+10FFFF). -/
def decodeRune (p : List Nat) : Nat × Nat :=
  match p with
  | [] => (runeError, 0)
  | p0 :: rest =>
    if p0 < 0x80 then (p0, 1)
    else if p0 < 0xC2 ∨ 0xF4 < p0 then (runeError, 1)
    else
      let size := if p0 < 0xE0 then 2 else if p0 < 0xF0 then 3 else 4
      let lo := if p0 = 0xE0 then 0xA0 else if p0 = 0xF0 then 0x90 else 0x80
      let hi := if p0 = 0xED then 0x9F else if p0 = 0xF4 then 0x8F else 0xBF
      if rest.length + 1 < size then (runeError, 1)
      else
        let b1 := rest.getD 0 0
        let b2 := rest.getD 1 0
        let b3 := rest.getD 2 0
        if b1 < lo ∨ hi < b1 then (runeError, 1)
        else if size ≤ 2 then (p0 % 32 * 64 + b1 % 64, 2)
        else if b2 < 0x80 ∨ 0xBF < b2 then (runeError, 1)
        else if size ≤ 3 then (p0 % 16 * 4096 + b1 % 64 * 64 + b2 % 64, 3)
        else if b3 < 0x80 ∨ 0xBF < b3 then (runeError, 1)
        else (p0 % 8 * 262144 + b1 % 64 * 4096 + b2 % 64 * 64 + b3 % 64, 4)

/-- `utf8.AppendRune` to the empty string: the bytes of a rune; a surrogate or a
value above U+10FFFF is written as `RuneError`. -/
def encodeRune (r : Nat) : List Nat :=
  if r < 0x80 then [r]
  else if r < 0x800 then [0xC0 + r / 64, 0x80 + r % 64]
  else
    let r := if 0x10FFFF < r ∨ (0xD800 ≤ r ∧ r ≤ 0xDFFF) then runeError else r
    if r < 0x10000 then [0xE0 + r / 4096, 0x80 + r / 64 % 64, 0x80 + r % 64]
    else [0xF0 + r / 262144, 0x80 + r / 4096 % 64, 0x80 + r / 64 % 64, 0x80 + r % 64]

/-- The bytes of the Go string that holds a text: its UTF-8 encoding. -/
def utf8 (s : String) : List Nat := s.data.flatMap (fun c => encodeRune c.toNat)

/-- The loop of `utf8.Valid`; `skip` counts the bytes still to pass over, those of
the rune decoded last. -/
def validLoop : Nat → List Nat → Bool
  | _, [] => true
  | skip + 1, _ :: rest => validLoop skip rest
  | 0, b :: rest =>
    if (decodeRune (b :: rest)).1 = runeError ∧ (decodeRune (b :: rest)).2 = 1 then false
    else validLoop ((decodeRune (b :: rest)).2 - 1) rest

/-- `utf8.Valid`: whether a Go string is made of well-formed UTF-8 sequences only. -/
def validUTF8 (s : List Nat) : Bool := validLoop 0 s

/-! ## `encoding/json` as `writeMetadata` uses it

The writer is `json.NewEncoder(file).Encode` on a map of strings, integers and
floats (HTML escaping on, as is the default of an `Encoder`); the reader is
`json.Unmarshal` on a document of that shape, an object whose values are strings
and numbers. -/

/-- The table `htmlSafeSet` of `encoding/json`: the ASCII bytes written as they
are. -/
def htmlSafe (b : Nat) : Bool :=
  decide (0x20 ≤ b) && decide (b < 0x80) && b != 0x22 && b != 0x5C && b != 0x3C && b != 0x3E
    && b != 0x26

/-- The digit `"0123456789abcdef"[n]`. -/
def hexDigit (n : Nat) : Nat := if n < 10 then 48 + n else 87 + n

/-- The escape `appendString` writes for an ASCII byte outside `htmlSafeSet`: a
backslash before a quote or a backslash, the short escapes of the five control
characters that have one, six bytes `\u00XX` otherwise. -/
def escapeByte (b : Nat) : List Nat :=
  if b = 0x5C ∨ b = 0x22 then [0x5C, b]
  else if b = 8 then [0x5C, 0x62]
  else if b = 12 then [0x5C, 0x66]
  else if b = 10 then [0x5C, 0x6E]
  else if b = 13 then [0x5C, 0x72]
  else if b = 9 then [0x5C, 0x74]
  else [0x5C, 0x75, 0x30, 0x30, hexDigit (b / 16), hexDigit (b % 16)]

/-- The loop of `appendString`: safe ASCII bytes and well-formed runes are copied,
a byte that starts no well-formed sequence is written as `\ufffd`, U+2028 and
U+2029 as `\u2028` and `\u2029`; `skip` counts the bytes still to pass over,
those of the rune decoded last. -/
def quoteLoop : Nat → List Nat → List Nat
  | _, [] => []
  | skip + 1, _ :: rest => quoteLoop skip rest
  | 0, b :: rest =>
    if b < 0x80 then (if htmlSafe b then [b] else escapeByte b) ++ quoteLoop 0 rest
    else if (decodeRune (b :: rest)).1 = runeError ∧ (decodeRune (b :: rest)).2 = 1 then
      [0x5C, 0x75, 0x66, 0x66, 0x66, 0x64] ++ quoteLoop 0 rest
    else if (decodeRune (b :: rest)).1 = 0x2028 ∨ (decodeRune (b :: rest)).1 = 0x2029 then
      [0x5C, 0x75, 0x32, 0x30, 0x32, hexDigit ((decodeRune (b :: rest)).1 % 16)]
        ++ quoteLoop ((decodeRune (b :: rest)).2 - 1) rest
    else
      (b :: rest).take (decodeRune (b :: rest)).2
        ++ quoteLoop ((decodeRune (b :: rest)).2 - 1) rest

/-- `appendString` of `encoding/json`: a Go string as a JSON string literal. -/
def appendString (src : List Nat) : List Nat := 0x22 :: quoteLoop 0 src ++ [0x22]

/-- A Go string with every byte that starts no well-formed UTF-8 sequence
replaced by the three bytes of U+FFFD; `skip` as in `quoteLoop`. -/
def coerceLoop : Nat → List Nat → List Nat
  | _, [] => []
  | skip + 1, _ :: rest => coerceLoop skip rest
  | 0, b :: rest =>
    if (decodeRune (b :: rest)).1 = runeError ∧ (decodeRune (b :: rest)).2 = 1 then
      [0xEF, 0xBF, 0xBD] ++ coerceLoop 0 rest
    else
      (b :: rest).take (decodeRune (b :: rest)).2
        ++ coerceLoop ((decodeRune (b :: rest)).2 - 1) rest

/-- What `encoding/json` makes of a Go string ("coerced to valid UTF-8, replacing
invalid bytes with the Unicode replacement rune"). -/
def coerceUTF8 (s : List Nat) : List Nat := coerceLoop 0 s

/-- The value of a hexadecimal digit, as `getu4` reads it. -/
def hexValue (c : Nat) : Option Nat :=
  if 48 ≤ c ∧ c ≤ 57 then some (c - 48)
  else if 97 ≤ c ∧ c ≤ 102 then some (c - 87)
  else if 65 ≤ c ∧ c ≤ 70 then some (c - 55)
  else none

/-- `getu4` of `encoding/json`: the number of an escape `\uXXXX` at the head of the
bytes, `none` for its `-1`. -/
def getu4 (s : List Nat) : Option Nat :=
  if s.length < 6 ∨ s.getD 0 0 ≠ 0x5C ∨ s.getD 1 0 ≠ 0x75 then none
  else
    match hexValue (s.getD 2 0), hexValue (s.getD 3 0), hexValue (s.getD 4 0),
        hexValue (s.getD 5 0) with
    | some a, some b, some c, some d => some (((a * 16 + b) * 16 + c) * 16 + d)
    | _, _, _, _ => none

/-- `utf16.DecodeRune` on a first surrogate and the outcome of `getu4` after it. -/
def decodeSurrogates (r1 : Nat) (r2 : Option Nat) : Nat :=
  match r2 with
  | some r2 =>
    if 0xD800 ≤ r1 ∧ r1 < 0xDC00 ∧ 0xDC00 ≤ r2 ∧ r2 < 0xE000 then
      (r1 - 0xD800) * 1024 + (r2 - 0xDC00) + 0x10000
    else runeError
  | none => runeError

/-- The bytes `out` put before what the rest of a string literal yields. -/
def prepend (out : List Nat) (r : Option (List Nat × List Nat)) : Option (List Nat × List Nat) :=
  r.map (fun p => (out ++ p.1, p.2))

/-- The reading of a string literal from just after its opening quote, as the
scanner of `encoding/json` delimits it and `unquote` decodes it: the Go string
it stands for and the bytes after the closing quote; `none` for a literal that
is not closed, holds a control character or a wrong escape.  Bytes that start
no well-formed UTF-8 sequence are read as U+FFFD; `skip` counts the bytes still
to pass over, those of the escape or rune read last. -/
def readString : Nat → List Nat → Option (List Nat × List Nat)
  | _, [] => none
  | skip + 1, _ :: rest => readString skip rest
  | 0, c :: rest =>
    if c = 0x22 then some ([], rest)
    else if c = 0x5C then
      if rest.getD 0 0 = 0x22 ∨ rest.getD 0 0 = 0x5C ∨ rest.getD 0 0 = 0x2F then
        prepend [rest.getD 0 0] (readString 1 rest)
      else if rest.getD 0 0 = 0x62 then prepend [8] (readString 1 rest)
      else if rest.getD 0 0 = 0x66 then prepend [12] (readString 1 rest)
      else if rest.getD 0 0 = 0x6E then prepend [10] (readString 1 rest)
      else if rest.getD 0 0 = 0x72 then prepend [13] (readString 1 rest)
      else if rest.getD 0 0 = 0x74 then prepend [9] (readString 1 rest)
      else if rest.getD 0 0 = 0x75 then
        match getu4 (c :: rest) with
        | none => none
        | some rr =>
          if 0xD800 ≤ rr ∧ rr < 0xE000 then
            if decodeSurrogates rr (getu4 (rest.drop 5)) ≠ runeError then
              prepend (encodeRune (decodeSurrogates rr (getu4 (rest.drop 5))))
                (readString 11 rest)
            else prepend (encodeRune runeError) (readString 5 rest)
          else prepend (encodeRune rr) (readString 5 rest)
      else none
    else if c < 0x20 then none
    else if c < 0x80 then prepend [c] (readString 0 rest)
    else prepend (encodeRune (decodeRune (c :: rest)).1)
      (readString ((decodeRune (c :: rest)).2 - 1) rest)

/-- The decimal digits of a natural number, most significant first; `fuel` bounds
the number of digits. -/
def decimalLoop : Nat → Nat → List Nat
  | 0, _ => []
  | fuel + 1, n => if n < 10 then [48 + n] else decimalLoop fuel (n / 10) ++ [48 + n % 10]

/-- `strconv.AppendInt(nil, i, 10)`: an integer in decimal, as `encoding/json`
writes it and as `%d` formats it. -/
def appendInt (i : Int) : List Nat :=
  if i < 0 then 0x2D :: decimalLoop (i.natAbs + 1) i.natAbs
  else decimalLoop (i.natAbs + 1) i.natAbs

/-- The number a run of decimal digits stands for. -/
def parseDigits (s : List Nat) : Option Nat :=
  s.foldl (fun acc c =>
    match acc with
    | some n => if 48 ≤ c ∧ c ≤ 57 then some (n * 10 + (c - 48)) else none
    | none => none) (some 0)

/-- `strconv.ParseInt(s, 10, 64)` without its range check: the integer a number
literal stands for when it is read into an integer. -/
def parseInt (s : List Nat) : Option Int :=
  if s = [] then none
  else if s.headD 0 = 0x2D then
    if s.tail = [] then none else (parseDigits s.tail).map (fun n => - (n : Int))
  else if s.headD 0 = 0x2B then
    if s.tail = [] then none else (parseDigits s.tail).map (fun n => (n : Int))
  else (parseDigits s).map (fun n => (n : Int))

/-- The states of the scanner of `encoding/json` within a number literal. -/
inductive NumState where
  | start
  | sign
  | zero
  | int
  | dot
  | frac
  | e
  | esign
  | exp
  | bad
  deriving DecidableEq, Repr

/-- One step of the scanner within a number literal. -/
def numStep (st : NumState) (c : Nat) : NumState :=
  let digit := 48 ≤ c ∧ c ≤ 57
  match st with
  | .start => if c = 0x2D then .sign else if c = 48 then .zero else if digit then .int else .bad
  | .sign => if c = 48 then .zero else if digit then .int else .bad
  | .zero => if c = 0x2E then .dot else if c = 0x65 ∨ c = 0x45 then .e else .bad
  | .int =>
    if digit then .int else if c = 0x2E then .dot else if c = 0x65 ∨ c = 0x45 then .e else .bad
  | .dot => if digit then .frac else .bad
  | .frac => if digit then .frac else if c = 0x65 ∨ c = 0x45 then .e else .bad
  | .e => if c = 0x2B ∨ c = 0x2D then .esign else if digit then .exp else .bad
  | .esign => if digit then .exp else .bad
  | .exp => if digit then .exp else .bad
  | .bad => .bad

/-- The states in which a number literal may end. -/
def NumState.accepts : NumState → Bool
  | .zero => true
  | .int => true
  | .frac => true
  | .exp => true
  | _ => false

/-- Whether the bytes are a JSON number literal. -/
def validNumber (literal : List Nat) : Bool := (literal.foldl numStep .start).accepts

/-- The bytes a number literal is made of: digits, signs, the point, `e` and `E`. -/
def isNumberByte (c : Nat) : Bool :=
  (decide (48 ≤ c) && decide (c ≤ 57)) || c == 0x2D || c == 0x2B || c == 0x2E || c == 0x65
    || c == 0x45

/-- The white space of JSON: blank, tab, carriage return, line feed. -/
def isSpaceByte (c : Nat) : Bool := c == 0x20 || c == 0x09 || c == 0x0D || c == 0x0A

/-- The bytes after leading white space. -/
def skipSpace (s : List Nat) : List Nat := s.dropWhile isSpaceByte

/-- A JSON string, given by the Go string it stands for, or a JSON number, given
by its literal. -/
inductive JSONScalar where
  | str (s : List Nat)
  | num (literal : List Nat)
  deriving DecidableEq, Repr

/-- Whether a scalar can be written: a number must be a number literal. -/
def JSONScalar.wellFormed : JSONScalar → Bool
  | .str _ => true
  | .num literal => literal.all isNumberByte && validNumber literal

/-- The reading of a value that is a string or a number, with the bytes after it;
`none` for a malformed one and for the values `writeMetadata` never writes
(objects, arrays, `true`, `false`, `null`). -/
def readValue (s : List Nat) : Option (JSONScalar × List Nat) :=
  if s.headD 0 = 0x22 then (readString 0 s.tail).map (fun p => (.str p.1, p.2))
  else if validNumber (s.takeWhile isNumberByte) then
    some (.num (s.takeWhile isNumberByte), s.dropWhile isNumberByte)
  else none

/-- The reading of the members of an object from just after its opening brace or
a comma, up to the closing brace, after which only white space may follow;
`fuel` bounds the number of members. -/
def readMembers : Nat → List Nat → Option (List (List Nat × JSONScalar))
  | 0, _ => none
  | fuel + 1, s =>
    if (skipSpace s).headD 0 ≠ 0x22 then none
    else
      match readString 0 (skipSpace s).tail with
      | none => none
      | some (key, s1) =>
        if (skipSpace s1).headD 0 ≠ 0x3A then none
        else
          match readValue (skipSpace (skipSpace s1).tail) with
          | none => none
          | some (v, s3) =>
            if (skipSpace s3).headD 0 = 0x2C then
              (readMembers fuel (skipSpace s3).tail).map (fun rest => (key, v) :: rest)
            else if (skipSpace s3).headD 0 = 0x7D then
              if skipSpace (skipSpace s3).tail = [] then some [(key, v)] else none
            else none

/-- `json.Unmarshal` of a document that is one object of strings and numbers: its
members in the order of the document, `none` for any other document. -/
def unmarshal (data : List Nat) : Option (List (List Nat × JSONScalar)) :=
  if (skipSpace data).headD 0 ≠ 0x7B then none
  else if (skipSpace (skipSpace data).tail).headD 0 = 0x7D then
    if skipSpace (skipSpace (skipSpace data).tail).tail = [] then some [] else none
  else readMembers data.length (skipSpace data).tail

/-- The text of a scalar in a document. -/
def JSONScalar.text : JSONScalar → List Nat
  | .str s => appendString s
  | .num literal => literal

/-- A member of an object: the key, a colon, the value. -/
def memberText (m : List Nat × JSONScalar) : List Nat := appendString m.1 ++ 0x3A :: m.2.text

/-- The members of an object, with commas between them. -/
def joinMembers : List (List Nat) → List Nat
  | [] => []
  | [m] => m
  | m :: n :: rest => m ++ 0x2C :: joinMembers (n :: rest)

/-- The document `Encoder.Encode` writes for a map, given by its members in the
order of their keys: the object between braces, then a line feed. -/
def encodeObject (members : List (List Nat × JSONScalar)) : List Nat :=
  0x7B :: joinMembers (members.map memberText) ++ [0x7D, 0x0A]

/-- A scalar as it is read back: a string with its malformed bytes replaced. -/
def JSONScalar.coerced : JSONScalar → JSONScalar
  | .str s => .str (coerceUTF8 s)
  | .num literal => .num literal

/-! ## `writeMetadata` on byte strings

A Go string need not be valid UTF-8, which a text cannot show; here the strings
`writeMetadata` receives are given by their bytes, and the document it writes
is given byte by byte. -/

/-- `jobs.JobInput`, its strings given by their bytes. -/
structure RawJobInput where
  AudioPath : List Nat
  Lyrics : List Nat
  Preset : List Nat
  StylePreset : List Nat
  AspectRatio : List Nat
  DurationSeconds : Int
  OutputDir : List Nat

/-- A value of the map `writeMetadata` builds: a string, given by its bytes, an
`int` or a `float64`. -/
inductive RawValue where
  | str (s : List Nat)
  | int (n : Int)
  | float (x : Float64)

/-- What `writeMetadata` meets outside the process, paths given by their bytes.
`formatFloat x` is the literal `encoding/json` writes for a finite float (it
takes it from `strconv.AppendFloat`), which is a number literal; `write path
data` is the outcome of writing the document to the file created. -/
structure RawMetaWorld where
  mkdirAll : List Nat → Option GoError
  nowCreated : Time
  nowName : Time
  filepathJoin : List Nat → List Nat → List Nat
  create : List Nat → Option GoError
  formatFloat : Float64 → { literal : List Nat // (JSONScalar.num literal).wellFormed = true }
  write : List Nat → List Nat → Option GoError

/-- The `payload` map of `writeMetadata`, as its entries in the order of their
keys, which is the order `encoding/json` writes the entries of a map in. -/
def rawMetadataPayload (input : RawJobInput)
    (jobID videoPath transcript transcriptPath : List Nat) (analysis : Analysis)
    (createdAt : List Nat) : List (List Nat × RawValue) :=
  [ (utf8 "aspect_ratio", .str input.AspectRatio),
    (utf8 "audio_bpm", .float analysis.BPM),
    (utf8 "audio_duration", .float analysis.Duration),
    (utf8 "audio_max_db", .float analysis.MaxVolume),
    (utf8 "audio_mean_db", .float analysis.MeanVolume),
    (utf8 "audio_path", .str input.AudioPath),
    (utf8 "created_at", .str createdAt),
    (utf8 "duration_seconds", .int input.DurationSeconds),
    (utf8 "job_id", .str jobID),
    (utf8 "lyrics", .str input.Lyrics),
    (utf8 "preset", .str input.Preset),
    (utf8 "style_preset", .str input.StylePreset),
    (utf8 "transcript", .str transcript),
    (utf8 "transcript_path", .str transcriptPath),
    (utf8 "video_path", .str videoPath) ]

/-- The scalar `encoding/json` writes for a value of the map; a float that is NaN
or infinite is refused with an `UnsupportedValueError`. -/
def encodeValue
    (formatFloat : Float64 → { literal : List Nat // (JSONScalar.num literal).wellFormed = true }) :
    RawValue → Except GoError JSONScalar
  | .str s => .ok (.str s)
  | .int n => .ok (.num (appendInt n))
  | .float (.fin q) => .ok (.num (formatFloat (.fin q)).1)
  | .float .nan => .error (.external "json: unsupported value: NaN")
  | .float .posInf => .error (.external "json: unsupported value: +Inf")
  | .float .negInf => .error (.external "json: unsupported value: -Inf")

/-- The scalars written for the entries of a map, or the first error met. -/
def encodeMembers
    (formatFloat : Float64 → { literal : List Nat // (JSONScalar.num literal).wellFormed = true }) :
    List (List Nat × RawValue) → Except GoError (List (List Nat × JSONScalar))
  | [] => .ok []
  | (key, v) :: rest =>
    match encodeValue formatFloat v with
    | .error err => .error err
    | .ok x =>
      match encodeMembers formatFloat rest with
      | .error err => .error err
      | .ok xs => .ok ((key, x) :: xs)

/-- A call of `writeMetadata`: the document in the file, when it was written in
full, and the `(string, error)` pair returned. -/
structure RawWritten where
  written : Option (List Nat)
  returned : List Nat × Option GoError

/-- `writeMetadata`, on byte strings. -/
def writeMetadataRaw (w : RawMetaWorld) (input : RawJobInput)
    (jobID videoPath transcript transcriptPath : List Nat) (analysis : Analysis) : RawWritten :=
  match w.mkdirAll input.OutputDir with
  | some err => { written := none, returned := ([], some err) }
  | none =>
    let payload := rawMetadataPayload input jobID videoPath transcript transcriptPath analysis
      (utf8 w.nowCreated.rfc3339)
    let metaPath := w.filepathJoin input.OutputDir
      (utf8 "metadata-" ++ appendInt w.nowName.unixNano ++ utf8 ".json")
    match w.create metaPath with
    | some err => { written := none, returned := ([], some err) }
    | none =>
      match encodeMembers w.formatFloat payload with
      | .error err => { written := none, returned := ([], some err) }
      | .ok members =>
        match w.write metaPath (encodeObject members) with
        | some err => { written := none, returned := ([], some err) }
        | none => { written := some (encodeObject members), returned := (metaPath, none) }

/-- A job input as bytes: every string by its UTF-8 encoding. -/
def JobInput.raw (input : JobInput) : RawJobInput :=
  { AudioPath := utf8 input.AudioPath, Lyrics := utf8 input.Lyrics, Preset := utf8 input.Preset,
    StylePreset := utf8 input.StylePreset, AspectRatio := utf8 input.AspectRatio,
    DurationSeconds := input.DurationSeconds, OutputDir := utf8 input.OutputDir }

/-- A value of the map `metadataPayload` builds, as bytes. -/
def Value.raw : Value → RawValue
  | .str s => .str (utf8 s)
  | .int n => .int n
  | .float x => .float x
  | _ => .str []

/-- A world of `writeMetadata` on byte strings in which every step succeeds; every
float is written as `0`. -/
def sampleRawMeta : RawMetaWorld :=
  { mkdirAll := fun _ => none
    nowCreated := { unixNano := 3, rfc3339 := "2024-05-01T10:00:03Z" }
    nowName := { unixNano := 4, rfc3339 := "2024-05-01T10:00:03Z" }
    filepathJoin := fun dir name => dir ++ 0x2F :: name
    create := fun _ => none
    formatFloat := fun _ => ⟨[48], by decide⟩
    write := fun _ _ => none }

/-- The sample input, except that its audio path holds the byte 0xFF, which
starts no UTF-8 sequence: `song`, 0xFF, `.wav`. -/
def latin1Input : RawJobInput :=
  { sampleInput.raw with AudioPath := utf8 "song" ++ 0xFF :: utf8 ".wav" }

/-- The members of the document of a successful call, as they are read back. -/
def readBack (r : RawWritten) : Option (List (List Nat × JSONScalar)) :=
  match r.written with
  | some data => unmarshal data
  | none => none

/-- The scalar written for a value of the map when it is written at all. -/
def RawValue.scalar
    (formatFloat : Float64 → { literal : List Nat // (JSONScalar.num literal).wellFormed = true }) :
    RawValue → JSONScalar
  | .str s => .str s
  | .int n => .num (appendInt n)
  | .float x => .num (formatFloat x).1

/-! ## Lemmas on traces and on the poller -/

theorem events_append (a b : List Action) : events (a ++ b) = events a ++ events b := by
  induction a with
  | nil => rfl
  | cons x rest ih => cases x <;> simp [events, ih]

theorem events_send_true (stage message : String) (progress : ℚ) :
    events (send true stage message progress) =
      [{ Stage := stage, Message := message, Progress := progress,
         Transcript := "", TranscriptPath := "" }] := rfl

theorem events_send_false (stage message : String) (progress : ℚ) :
    events (send false stage message progress) = [] := rfl

theorem toLower_succeeded : toLower "succeeded" = "succeeded" := by decide

theorem toLower_completed : toLower "completed" = "completed" := by decide

theorem toLower_failed : toLower "failed" = "failed" := by decide

theorem toLower_canceled : toLower "canceled" = "canceled" := by decide

theorem toLower_starting : toLower "starting" = "starting" := by decide

theorem toLower_processing : toLower "processing" = "processing" := by decide

theorem toLower_running : toLower "running" = "running" := by decide

theorem toLower_queued : toLower "queued" = "queued" := by decide

/-- The loop does the same first pass whatever the list of wait outcomes, as
long as the status is not a pending one. -/
theorem pollPrediction_settled (sink : Bool) (interval : Int) (steps : List PollStep)
    (p : Prediction) (h : classify (toLower p.Status) ≠ .pending) :
    pollPrediction sink interval steps p =
      pollIteration sink interval p none (fun _ => { trace := [], returned := none }) := by
  cases steps with
  | nil => rfl
  | cons step rest =>
    simp only [pollPrediction, pollIteration]
    cases hc : classify (toLower p.Status) <;> simp_all

/-- The render event (if any) one pass of the loop sends for `p`. -/
theorem send_render (sink : Bool) (p : Prediction) :
    send sink "render" ("Rendering (" ++ p.Status ++ ")") (renderProgress (toLower p.Status)) =
      if sink then [.emit (renderEvent p (renderProgress (toLower p.Status)))] else [] := rfl

/-- The five ways one pass of the poll loop can go. -/
theorem pollPrediction_pass (sink : Bool) (interval : Int) (steps : List PollStep)
    (p : Prediction) :
    let sent := send sink "render" ("Rendering (" ++ p.Status ++ ")")
      (renderProgress (toLower p.Status))
    let r := pollPrediction sink interval steps p
    (classify (toLower p.Status) ≠ .pending ∧ r.trace = sent ∧
        ∃ q err, r.returned = some (q, err)) ∨
      (classify (toLower p.Status) = .pending ∧ steps = [] ∧
        r.trace = sent ++ [.wait (effectiveInterval interval)] ∧ r.returned = none) ∨
      (classify (toLower p.Status) = .pending ∧ (∃ e rest, steps = .cancelled e :: rest ∧
        r.trace = sent ++ [.wait (effectiveInterval interval)] ∧
        r.returned = some (Prediction.zero, some (.ctx e)))) ∨
      (classify (toLower p.Status) = .pending ∧ (∃ fetch rest err,
        steps = .elapsed fetch :: rest ∧ fetch p.ID = .error err ∧
        r.trace = sent ++ [.wait (effectiveInterval interval), .fetchPrediction p.ID] ∧
        r.returned = some (Prediction.zero, some err))) ∨
      (classify (toLower p.Status) = .pending ∧ (∃ fetch rest next,
        steps = .elapsed fetch :: rest ∧ fetch p.ID = .ok next ∧
        r.trace = sent ++ [.wait (effectiveInterval interval), .fetchPrediction p.ID]
          ++ (pollPrediction sink interval rest next).trace ∧
        r.returned = (pollPrediction sink interval rest next).returned)) := by
  intro sent r
  cases hc : classify (toLower p.Status) with
  | success =>
    left
    have := pollPrediction_settled sink interval steps p (by rw [hc]; decide)
    simp [r, sent, this, pollIteration, hc]
  | failure =>
    left
    have := pollPrediction_settled sink interval steps p (by rw [hc]; decide)
    simp [r, sent, this, pollIteration, hc]
  | unknown =>
    left
    have := pollPrediction_settled sink interval steps p (by rw [hc]; decide)
    simp [r, sent, this, pollIteration, hc]
  | pending =>
    right
    cases steps with
    | nil => left; simp [r, sent, pollPrediction, pollIteration, hc]
    | cons step rest =>
      right
      cases step with
      | cancelled e => left; simp [r, sent, pollPrediction, pollIteration, hc]
      | elapsed fetch =>
        right
        cases hf : fetch p.ID with
        | error err => left; simp [r, sent, pollPrediction, pollIteration, hc, hf]
        | ok next =>
          right
          refine ⟨rfl, fetch, rest, next, rfl, hf, ?_, ?_⟩ <;>
            simp [r, sent, pollPrediction, pollIteration, hc, hf]

/-- The value `renderProgress` takes is one of the two constants. -/
theorem renderProgress_values (status : String) :
    renderProgress status = 0.4 ∨ renderProgress status = 0.6 := by
  unfold renderProgress
  split <;> simp

/-- Every event the poller sends is a render event carrying 0.4 or 0.6. -/
theorem poll_events_render (sink : Bool) (interval : Int) (steps : List PollStep) :
    ∀ (p : Prediction), ∀ e ∈ events (pollPrediction sink interval steps p).trace,
      e.Stage = "render" ∧ (e.Progress = 0.4 ∨ e.Progress = 0.6) := by
  induction steps with
  | nil =>
    intro p e he
    have hv := renderProgress_values (toLower p.Status)
    rcases pollPrediction_pass sink interval [] p with h | h | h | h | h
    · obtain ⟨-, ht, -⟩ := h
      rw [ht, send_render] at he
      cases sink <;> simp [events, renderEvent] at he
      subst he; exact ⟨rfl, hv⟩
    · obtain ⟨-, -, ht, -⟩ := h
      rw [ht, send_render, events_append] at he
      cases sink <;> simp [events, renderEvent] at he
      subst he; exact ⟨rfl, hv⟩
    · obtain ⟨-, e', rest, hs, -⟩ := h; cases hs
    · obtain ⟨-, f, rest, err, hs, -⟩ := h; cases hs
    · obtain ⟨-, f, rest, next, hs, -⟩ := h; cases hs
  | cons step rest ih =>
    intro p e he
    have hv := renderProgress_values (toLower p.Status)
    rcases pollPrediction_pass sink interval (step :: rest) p with h | h | h | h | h
    · obtain ⟨-, ht, -⟩ := h
      rw [ht, send_render] at he
      cases sink <;> simp [events, renderEvent] at he
      subst he; exact ⟨rfl, hv⟩
    · obtain ⟨-, hs, -⟩ := h; cases hs
    · obtain ⟨-, e', rest', -, ht, -⟩ := h
      rw [ht, send_render, events_append] at he
      cases sink <;> simp [events, renderEvent] at he
      subst he; exact ⟨rfl, hv⟩
    · obtain ⟨-, f, rest', err, -, -, ht, -⟩ := h
      rw [ht, send_render, events_append] at he
      cases sink <;> simp [events, renderEvent] at he
      subst he; exact ⟨rfl, hv⟩
    · obtain ⟨-, f, rest', next, hs, -, ht, -⟩ := h
      cases hs
      rw [ht, send_render, events_append, events_append] at he
      cases sink
      · simp [events] at he
        exact ih next e he
      · simp [events, renderEvent] at he
        rcases he with he | he
        · subst he; exact ⟨rfl, hv⟩
        · exact ih next e he

/-- With a sink, the trace of the poller starts with the render event of its
first pass. -/
theorem poll_trace_head (interval : Int) (steps : List PollStep) (p : Prediction) :
    ∃ tail, (pollPrediction true interval steps p).trace =
      .emit (renderEvent p (renderProgress (toLower p.Status))) :: tail := by
  rcases pollPrediction_pass true interval steps p with h | h | h | h | h
  · obtain ⟨-, ht, -⟩ := h
    exact ⟨[], by rw [ht, send_render]; rfl⟩
  · obtain ⟨-, -, ht, -⟩ := h
    exact ⟨_, by rw [ht, send_render]; rfl⟩
  · obtain ⟨-, e', rest', -, ht, -⟩ := h
    exact ⟨_, by rw [ht, send_render]; rfl⟩
  · obtain ⟨-, f, rest', err, -, -, ht, -⟩ := h
    exact ⟨_, by rw [ht, send_render]; rfl⟩
  · obtain ⟨-, f, rest', next, -, -, ht, -⟩ := h
    exact ⟨_, by rw [ht, send_render]; rfl⟩

/-- With a sink, the render events of the poller are as many as its fetches,
plus one unless the trace stops at a fetch (which then failed). -/
theorem poll_render_count (interval : Int) (steps : List PollStep) :
    ∀ (p : Prediction),
      (events (pollPrediction true interval steps p).trace).length =
        fetchCount (pollPrediction true interval steps p).trace +
          (if endsWithFetch (pollPrediction true interval steps p).trace then 0 else 1) := by
  induction steps with
  | nil =>
    intro p
    rcases pollPrediction_pass true interval [] p with h | h | h | h | h
    · obtain ⟨-, ht, -⟩ := h
      rw [ht, send_render]; simp [events, fetchCount, endsWithFetch]
    · obtain ⟨-, -, ht, -⟩ := h
      rw [ht, send_render]; simp [events, fetchCount, endsWithFetch]
    · obtain ⟨-, e', rest, hs, -⟩ := h; cases hs
    · obtain ⟨-, f, rest, err, hs, -⟩ := h; cases hs
    · obtain ⟨-, f, rest, next, hs, -⟩ := h; cases hs
  | cons step rest ih =>
    intro p
    rcases pollPrediction_pass true interval (step :: rest) p with h | h | h | h | h
    · obtain ⟨-, ht, -⟩ := h
      rw [ht, send_render]; simp [events, fetchCount, endsWithFetch]
    · obtain ⟨-, hs, -⟩ := h; cases hs
    · obtain ⟨-, e', rest', -, ht, -⟩ := h
      rw [ht, send_render]; simp [events, fetchCount, endsWithFetch]
    · obtain ⟨-, f, rest', err, -, -, ht, -⟩ := h
      rw [ht, send_render]; simp [events, fetchCount, endsWithFetch]
    · obtain ⟨-, f, rest', next, hs, -, ht, -⟩ := h
      cases hs
      obtain ⟨tail, hd⟩ := poll_trace_head interval rest next
      have hi := ih next
      rw [ht, send_render]
      rw [hd] at hi ⊢
      simp only [events, fetchCount, endsWithFetch, List.getLast?_cons_cons, reduceIte,
        List.cons_append, List.nil_append, List.length_cons, List.singleton_append] at hi ⊢
      omega

/-! ## Lemmas on `Run` -/

/-- From the download stage on, with a sink: either the run fails after the
download event, or it succeeds and the done event follows. -/
theorem runAfterPoll_events (w : World) (runner : Runner) (input : JobInput)
    (transcript transcriptPath : String) (analysis : Analysis) (prediction : Prediction)
    (before : List Action) :
    let r := runAfterPoll w runner input true transcript transcriptPath analysis prediction before
    ((∃ err, r.returned = some (Result.zero, some err)) ∧
        events r.trace = events before ++ [plainEvent "download" "Downloading video" 0.9]) ∨
      ((∃ res, r.returned = some (res, none)) ∧
        events r.trace = events before ++
          [plainEvent "download" "Downloading video" 0.9, doneEvent]) := by
  intro r
  simp only [r, runAfterPoll]
  split
  · left; simp [events_append, events_send_true, plainEvent]
  · split
    · left; simp [events_append, events_send_true, plainEvent, events]
    · split
      · left; simp [events_append, events_send_true, plainEvent, events]
      · split
        · left; simp [events_append, events_send_true, plainEvent, events]
        · right; simp [events_append, events_send_true, plainEvent, events, doneEvent]

/-- From the analyze stage on, with a sink: the events are those of a successful
run when the run succeeds, and a beginning of them (without the done event)
otherwise. -/
theorem runAfterTranscribe_events (w : World) (runner : Runner) (client : ReplicateClient)
    (input : JobInput) (enhancedPath transcript transcriptPath : String)
    (before : List Action) :
    let r := runAfterTranscribe w runner client input true enhancedPath transcript
      transcriptPath before
    ∃ renders : List Event,
      (∀ e ∈ renders, e.Stage = "render" ∧ (e.Progress = 0.4 ∨ e.Progress = 0.6)) ∧
      (((∃ res, r.returned = some (res, none)) ∧ renders ≠ [] ∧
          events r.trace = events before ++ (lateEvents renders ++ [doneEvent])) ∨
        ((r.returned = none ∨ ∃ err, r.returned = some (Result.zero, some err)) ∧
          ∃ k, events r.trace = events before ++ k ∧ k <+: lateEvents renders)) := by
  intro r
  cases ha : w.analyze runner.FFmpegPath input.AudioPath with
  | error err =>
    refine ⟨[], by simp, Or.inr ⟨Or.inr ⟨err, ?_⟩, [plainEvent "analyze" "Analyzing audio" 0.36],
      ?_, ?_⟩⟩
    · simp [r, runAfterTranscribe, ha]
    · simp [r, runAfterTranscribe, ha, events_append, events_send_true, plainEvent, events]
    · simp [lateEvents]
  | ok analysis =>
    cases hsub : w.submitPrediction client
        (predictionRequest (buildPrompt input enhancedPath transcript analysis) input)
        runner.PreferWait with
    | error err =>
      refine ⟨[], by simp, Or.inr ⟨Or.inr ⟨err, ?_⟩, [plainEvent "analyze" "Analyzing audio" 0.36,
        plainEvent "submit" "Submitting to Replicate" 0.4], ?_, ?_⟩⟩
      · simp [r, runAfterTranscribe, ha, hsub]
      · simp [r, runAfterTranscribe, ha, hsub, events_append, events_send_true, plainEvent, events]
      · simp [lateEvents]
    | ok prediction =>
      have hrender := poll_events_render true runner.PollInterval w.poll prediction
      refine ⟨events (pollPrediction true runner.PollInterval w.poll prediction).trace,
        hrender, ?_⟩
      cases hp : (pollPrediction true runner.PollInterval w.poll prediction).returned with
      | none =>
        refine Or.inr ⟨Or.inl ?_, [plainEvent "analyze" "Analyzing audio" 0.36,
            plainEvent "submit" "Submitting to Replicate" 0.4]
            ++ events (pollPrediction true runner.PollInterval w.poll prediction).trace, ?_, ?_⟩
        · simp [r, runAfterTranscribe, ha, hsub, hp]
        · simp [r, runAfterTranscribe, ha, hsub, hp, events_append, events_send_true, plainEvent,
            events]
        · simp [lateEvents]
      | some pr =>
        obtain ⟨polled, perr⟩ := pr
        cases perr with
        | some err =>
          refine Or.inr ⟨Or.inr ⟨err, ?_⟩, [plainEvent "analyze" "Analyzing audio" 0.36,
              plainEvent "submit" "Submitting to Replicate" 0.4]
              ++ events (pollPrediction true runner.PollInterval w.poll prediction).trace, ?_, ?_⟩
          · simp [r, runAfterTranscribe, ha, hsub, hp]
          · simp [r, runAfterTranscribe, ha, hsub, hp, events_append, events_send_true,
              plainEvent, events]
          · simp [lateEvents]
        | none =>
          have hne : events (pollPrediction true runner.PollInterval w.poll prediction).trace
              ≠ [] := by
            obtain ⟨tail, hd⟩ := poll_trace_head runner.PollInterval w.poll prediction
            rw [hd]; simp [events]
          have hr : r = runAfterPoll w runner input true transcript transcriptPath analysis polled
              (before ++ send true "analyze" "Analyzing audio" 0.36
                ++ [.analyze runner.FFmpegPath input.AudioPath]
                ++ send true "submit" "Submitting to Replicate" 0.4
                ++ [.submitPrediction (predictionRequest
                    (buildPrompt input enhancedPath transcript analysis) input) runner.PreferWait]
                ++ (pollPrediction true runner.PollInterval w.poll prediction).trace) := by
            simp [r, runAfterTranscribe, ha, hsub, hp]
          rw [hr]
          rcases runAfterPoll_events w runner input transcript transcriptPath analysis polled
            (before ++ send true "analyze" "Analyzing audio" 0.36
                ++ [.analyze runner.FFmpegPath input.AudioPath]
                ++ send true "submit" "Submitting to Replicate" 0.4
                ++ [.submitPrediction (predictionRequest
                    (buildPrompt input enhancedPath transcript analysis) input) runner.PreferWait]
                ++ (pollPrediction true runner.PollInterval w.poll prediction).trace)
            with h | h
          · obtain ⟨herr, hev⟩ := h
            refine Or.inr ⟨Or.inr herr, lateEvents
              (events (pollPrediction true runner.PollInterval w.poll prediction).trace), ?_,
              List.prefix_refl _⟩
            rw [hev]
            simp [lateEvents, events_append, events_send_true, plainEvent, events]
          · obtain ⟨hres, hev⟩ := h
            refine Or.inl ⟨hres, hne, ?_⟩
            rw [hev]
            simp [lateEvents, events_append, events_send_true, plainEvent, events]

/-- The "Transcript ready" event. -/
theorem events_sendTranscript_true (stage message transcript transcriptPath : String)
    (progress : ℚ) :
    events (sendTranscript true stage message transcript transcriptPath progress) =
      [{ Stage := stage, Message := message, Progress := progress,
         Transcript := transcript, TranscriptPath := transcriptPath }] := rfl

/-- What `Run` is once validation and enhancement are through. -/
theorem run_after_enhance (w : World) (runner : Runner) (input : JobInput) (sink : Bool)
    (client : ReplicateClient) (enhanceTrace : List Action) (enhancedPath : String)
    (hrep : runner.Replicate = some client)
    (hval : w.validateAudioPath input.AudioPath = none)
    (henh : (match runner.ElevenLabs with
      | none => (([] : List Action), (Except.ok input.AudioPath : Except GoError String))
      | some eleven => ([Action.enhanceAudio input.AudioPath input.OutputDir],
          w.enhanceAudio eleven input.AudioPath input.OutputDir)) =
        (enhanceTrace, .ok enhancedPath)) :
    Run w runner input sink =
      if runner.Transcribe.Enabled then
        match w.transcribe runner.Transcribe input.AudioPath input.OutputDir with
        | .error err =>
          { trace := send sink "validate" "Validating audio" 0.05
              ++ [.validateAudioPath input.AudioPath] ++ send sink "enhance" "Enhancing audio" 0.2
              ++ enhanceTrace ++ send sink "transcribe" "Transcribing audio" 0.3
              ++ [.transcribe input.AudioPath input.OutputDir],
            returned := some (Result.zero, some err) }
        | .ok (transcript, transcriptPath) =>
          runAfterTranscribe w runner client input sink enhancedPath transcript transcriptPath
            (send sink "validate" "Validating audio" 0.05
              ++ [.validateAudioPath input.AudioPath] ++ send sink "enhance" "Enhancing audio" 0.2
              ++ enhanceTrace ++ send sink "transcribe" "Transcribing audio" 0.3
              ++ [.transcribe input.AudioPath input.OutputDir]
              ++ sendTranscript sink "transcribe" "Transcript ready" transcript transcriptPath 0.35)
      else
        runAfterTranscribe w runner client input sink enhancedPath "" ""
          (send sink "validate" "Validating audio" 0.05
            ++ [.validateAudioPath input.AudioPath] ++ send sink "enhance" "Enhancing audio" 0.2
            ++ enhanceTrace) := by
  simp only [Run, hrep, hval, henh]

/-- What `Run` is when enhancement fails. -/
theorem run_enhance_failed (w : World) (runner : Runner) (input : JobInput) (sink : Bool)
    (client : ReplicateClient) (enhanceTrace : List Action) (err : GoError)
    (hrep : runner.Replicate = some client)
    (hval : w.validateAudioPath input.AudioPath = none)
    (henh : (match runner.ElevenLabs with
      | none => (([] : List Action), (Except.ok input.AudioPath : Except GoError String))
      | some eleven => ([Action.enhanceAudio input.AudioPath input.OutputDir],
          w.enhanceAudio eleven input.AudioPath input.OutputDir)) =
        (enhanceTrace, .error err)) :
    Run w runner input sink =
      { trace := send sink "validate" "Validating audio" 0.05
          ++ [.validateAudioPath input.AudioPath] ++ send sink "enhance" "Enhancing audio" 0.2
          ++ enhanceTrace,
        returned := some (Result.zero, some err) } := by
  simp only [Run, hrep, hval, henh]

/-- The enhancement step leaves no event behind. -/
theorem enhance_trace_events (w : World) (runner : Runner) (input : JobInput)
    (enhanceTrace : List Action) (outcome : Except GoError String)
    (henh : (match runner.ElevenLabs with
      | none => (([] : List Action), (Except.ok input.AudioPath : Except GoError String))
      | some eleven => ([Action.enhanceAudio input.AudioPath input.OutputDir],
          w.enhanceAudio eleven input.AudioPath input.OutputDir)) =
        (enhanceTrace, outcome)) :
    events enhanceTrace = [] := by
  cases he : runner.ElevenLabs with
  | none => rw [he] at henh; cases henh; rfl
  | some eleven => rw [he] at henh; cases henh; rfl

/-- The events of a run with a sink: those of a successful run (validate,
enhance, the two transcribe events when transcription is enabled, analyze,
submit, the render events, download, done) when the run succeeds, and a
beginning of them without the done event when it fails or stays blocked. -/
theorem run_events (w : World) (runner : Runner) (input : JobInput) :
    ∃ (ready : Event) (renders : List Event),
      ready.Stage = "transcribe" ∧ ready.Progress = 0.35 ∧
      (∀ e ∈ renders, e.Stage = "render" ∧ (e.Progress = 0.4 ∨ e.Progress = 0.6)) ∧
      (((∃ res, (Run w runner input true).returned = some (res, none)) ∧ renders ≠ [] ∧
          events (Run w runner input true).trace =
            earlyEvents runner.Transcribe.Enabled ready ++ (lateEvents renders ++ [doneEvent])) ∨
        (((Run w runner input true).returned = none ∨
            ∃ err, (Run w runner input true).returned = some (Result.zero, some err)) ∧
          events (Run w runner input true).trace <+:
            earlyEvents runner.Transcribe.Enabled ready ++ lateEvents renders)) := by
  have hdummy : (plainEvent "transcribe" "Transcript ready" 0.35).Stage = "transcribe" ∧
      (plainEvent "transcribe" "Transcript ready" 0.35).Progress = 0.35 := ⟨rfl, rfl⟩
  cases hrep : runner.Replicate with
  | none =>
    refine ⟨_, [], hdummy.1, hdummy.2, by simp,
      Or.inr ⟨Or.inr ⟨.errorf "replicate client not configured", ?_⟩, ?_⟩⟩
    · simp only [Run, hrep]
    · simp [Run, hrep, events]
  | some client =>
    cases hval : w.validateAudioPath input.AudioPath with
    | some err =>
      refine ⟨_, [], hdummy.1, hdummy.2, by simp, Or.inr ⟨Or.inr ⟨err, ?_⟩, ?_⟩⟩
      · simp only [Run, hrep, hval]
      · simp [Run, hrep, hval, events_append, events_send_true, events, earlyEvents, plainEvent]
    | none =>
      cases henh : (match runner.ElevenLabs with
        | none => (([] : List Action), (Except.ok input.AudioPath : Except GoError String))
        | some eleven => ([Action.enhanceAudio input.AudioPath input.OutputDir],
            w.enhanceAudio eleven input.AudioPath input.OutputDir)) with
      | mk enhanceTrace outcome =>
        have hnil := enhance_trace_events w runner input enhanceTrace outcome henh
        cases outcome with
        | error err =>
          rw [run_enhance_failed w runner input true client enhanceTrace err hrep hval henh]
          refine ⟨_, [], hdummy.1, hdummy.2, by simp, Or.inr ⟨Or.inr ⟨err, rfl⟩, ?_⟩⟩
          simp [events_append, events_send_true, events, earlyEvents, plainEvent, hnil]
        | ok enhancedPath =>
          rw [run_after_enhance w runner input true client enhanceTrace enhancedPath hrep hval
            henh]
          cases ht : runner.Transcribe.Enabled with
          | false =>
            simp only [Bool.false_eq_true, if_false]
            obtain ⟨renders, hr, h⟩ := runAfterTranscribe_events w runner client input
              enhancedPath "" "" (send true "validate" "Validating audio" 0.05
                ++ [.validateAudioPath input.AudioPath]
                ++ send true "enhance" "Enhancing audio" 0.2 ++ enhanceTrace)
            refine ⟨_, renders, hdummy.1, hdummy.2, hr, ?_⟩
            rcases h with ⟨hres, hne, hev⟩ | ⟨hret, k, hev, hk⟩
            · refine Or.inl ⟨hres, hne, ?_⟩
              rw [hev]
              simp [events_append, events_send_true, events, earlyEvents, plainEvent, hnil]
            · refine Or.inr ⟨hret, ?_⟩
              rw [hev]
              simpa [events_append, events_send_true, events, earlyEvents, plainEvent, hnil]
                using hk
          | true =>
            simp only [if_true]
            cases htr : w.transcribe runner.Transcribe input.AudioPath input.OutputDir with
            | error err =>
              refine ⟨_, [], hdummy.1, hdummy.2, by simp, Or.inr ⟨Or.inr ⟨err, rfl⟩, ?_⟩⟩
              simp [events_append, events_send_true, events, earlyEvents, plainEvent, hnil]
            | ok tr =>
              obtain ⟨transcript, transcriptPath⟩ := tr
              obtain ⟨renders, hr, h⟩ := runAfterTranscribe_events w runner client input
                enhancedPath transcript transcriptPath (send true "validate" "Validating audio" 0.05
                  ++ [.validateAudioPath input.AudioPath]
                  ++ send true "enhance" "Enhancing audio" 0.2 ++ enhanceTrace
                  ++ send true "transcribe" "Transcribing audio" 0.3
                  ++ [.transcribe input.AudioPath input.OutputDir]
                  ++ sendTranscript true "transcribe" "Transcript ready" transcript
                    transcriptPath 0.35)
              refine ⟨readyEvent transcript transcriptPath, renders, rfl, rfl, hr, ?_⟩
              rcases h with ⟨hres, hne, hev⟩ | ⟨hret, k, hev, hk⟩
              · refine Or.inl ⟨hres, hne, ?_⟩
                simp only [] at hev ⊢
                rw [hev]
                simp [events_append, events_send_true, events_sendTranscript_true, events,
                  earlyEvents, plainEvent, readyEvent, hnil]
              · refine Or.inr ⟨hret, ?_⟩
                simp only [] at hev ⊢
                rw [hev]
                simpa [events_append, events_send_true, events_sendTranscript_true, events,
                  earlyEvents, plainEvent, readyEvent, hnil] using hk

/-- Putting an event in front of a list whose progress values are all at least
its own keeps the list ordered, and bounded below by the new head. -/
theorem ordered_cons (c : ℚ) (e : Event) (l : List Event) (he : e.Progress ≤ c)
    (hl : ∀ x ∈ l, c ≤ x.Progress) (hp : List.Pairwise ProgressOrdered l) :
    List.Pairwise ProgressOrdered (e :: l) ∧ ∀ x ∈ e :: l, e.Progress ≤ x.Progress := by
  refine ⟨List.pairwise_cons.mpr ⟨fun x hx => Or.inr (le_trans he (hl x hx)), hp⟩, ?_⟩
  intro x hx
  rcases List.mem_cons.mp hx with h | h
  · rw [h]
  · exact le_trans he (hl x h)

/-- The events from the first render event on keep the order, and carry at
least 0.4. -/
theorem render_tail_ordered (renders : List Event)
    (hr : ∀ e ∈ renders, e.Stage = "render" ∧ (e.Progress = 0.4 ∨ e.Progress = 0.6)) :
    List.Pairwise ProgressOrdered
        (renders ++ [plainEvent "download" "Downloading video" 0.9, doneEvent]) ∧
      ∀ x ∈ renders ++ [plainEvent "download" "Downloading video" 0.9, doneEvent],
        (0.4 : ℚ) ≤ x.Progress := by
  have hlow : ∀ e ∈ renders, (0.4 : ℚ) ≤ e.Progress := by
    intro e he
    rcases (hr e he).2 with h | h <;> norm_num [h]
  have hhigh : ∀ e ∈ renders, e.Progress ≤ (0.6 : ℚ) := by
    intro e he
    rcases (hr e he).2 with h | h <;> norm_num [h]
  have hrr : List.Pairwise ProgressOrdered renders := by
    rw [List.pairwise_iff_forall_sublist]
    intro a b hab
    have ha := hab.subset (List.mem_cons_self a [b])
    have hb := hab.subset (List.mem_cons_of_mem a (List.mem_singleton_self b))
    exact Or.inl ⟨(hr a ha).1, (hr b hb).1⟩
  have hdone : List.Pairwise ProgressOrdered
      [plainEvent "download" "Downloading video" 0.9, doneEvent] := by
    refine List.pairwise_cons.mpr ⟨?_, List.pairwise_singleton _ _⟩
    intro x hx
    rw [List.mem_singleton.mp hx]
    right
    show (0.9 : ℚ) ≤ 1.0
    norm_num
  have hlast : ∀ x ∈ [plainEvent "download" "Downloading video" 0.9, doneEvent],
      (0.9 : ℚ) ≤ x.Progress := by
    intro x hx
    rcases List.mem_cons.mp hx with h | h
    · rw [h]; show (0.9 : ℚ) ≤ 0.9; norm_num
    · rw [List.mem_singleton.mp h]; show (0.9 : ℚ) ≤ 1.0; norm_num
  refine ⟨List.pairwise_append.mpr ⟨hrr, hdone, ?_⟩, ?_⟩
  · intro a ha b hb
    right
    have h1 := hhigh a ha
    have h2 := hlast b hb
    linarith
  · intro x hx
    rcases List.mem_append.mp hx with h | h
    · exact hlow x h
    · have := hlast x h
      linarith

/-- The events of a successful run keep the order of `ProgressOrdered`. -/
theorem full_events_ordered (transcribe : Bool) (ready : Event) (renders : List Event)
    (hready : ready.Progress = 0.35)
    (hr : ∀ e ∈ renders, e.Stage = "render" ∧ (e.Progress = 0.4 ∨ e.Progress = 0.6)) :
    List.Pairwise ProgressOrdered
      (earlyEvents transcribe ready ++ (lateEvents renders ++ [doneEvent])) := by
  obtain ⟨h0, b0⟩ := render_tail_ordered renders hr
  obtain ⟨h1, b1⟩ := ordered_cons 0.4 (plainEvent "submit" "Submitting to Replicate" 0.4) _
    (le_refl _) b0 h0
  obtain ⟨h2, b2⟩ := ordered_cons 0.4 (plainEvent "analyze" "Analyzing audio" 0.36) _
    (by show (0.36 : ℚ) ≤ 0.4; norm_num) b1 h1
  have hshape : lateEvents renders ++ [doneEvent] =
      plainEvent "analyze" "Analyzing audio" 0.36 ::
        plainEvent "submit" "Submitting to Replicate" 0.4 ::
          (renders ++ [plainEvent "download" "Downloading video" 0.9, doneEvent]) := by
    simp [lateEvents]
  rw [hshape]
  cases transcribe
  · obtain ⟨h3, b3⟩ := ordered_cons 0.36 (plainEvent "enhance" "Enhancing audio" 0.2) _
      (by show (0.2 : ℚ) ≤ 0.36; norm_num) b2 h2
    obtain ⟨h4, -⟩ := ordered_cons 0.2 (plainEvent "validate" "Validating audio" 0.05) _
      (by show (0.05 : ℚ) ≤ 0.2; norm_num) b3 h3
    simpa [earlyEvents] using h4
  · obtain ⟨h3, b3⟩ := ordered_cons 0.36 ready _ (by rw [hready]; norm_num) b2 h2
    rw [hready] at b3
    obtain ⟨h4, b4⟩ := ordered_cons 0.35 (plainEvent "transcribe" "Transcribing audio" 0.3) _
      (by show (0.3 : ℚ) ≤ 0.35; norm_num) b3 h3
    obtain ⟨h5, b5⟩ := ordered_cons 0.3 (plainEvent "enhance" "Enhancing audio" 0.2) _
      (by show (0.2 : ℚ) ≤ 0.3; norm_num) b4 h4
    obtain ⟨h6, -⟩ := ordered_cons 0.2 (plainEvent "validate" "Validating audio" 0.05) _
      (by show (0.05 : ℚ) ≤ 0.2; norm_num) b5 h5
    simpa [earlyEvents] using h6

/-- Without a sink the poller sends nothing. -/
theorem poll_events_no_sink (interval : Int) (steps : List PollStep) :
    ∀ (p : Prediction), events (pollPrediction false interval steps p).trace = [] := by
  induction steps with
  | nil =>
    intro p
    rcases pollPrediction_pass false interval [] p with h | h | h | h | h
    · obtain ⟨-, ht, -⟩ := h; rw [ht]; rfl
    · obtain ⟨-, -, ht, -⟩ := h; rw [ht]; rfl
    · obtain ⟨-, e', rest, hs, -⟩ := h; cases hs
    · obtain ⟨-, f, rest, err, hs, -⟩ := h; cases hs
    · obtain ⟨-, f, rest, next, hs, -⟩ := h; cases hs
  | cons step rest ih =>
    intro p
    rcases pollPrediction_pass false interval (step :: rest) p with h | h | h | h | h
    · obtain ⟨-, ht, -⟩ := h; rw [ht]; rfl
    · obtain ⟨-, hs, -⟩ := h; cases hs
    · obtain ⟨-, e', rest', -, ht, -⟩ := h; rw [ht]; rfl
    · obtain ⟨-, f, rest', err, -, -, ht, -⟩ := h; rw [ht]; rfl
    · obtain ⟨-, f, rest', next, hs, -, ht, -⟩ := h
      cases hs
      rw [ht, events_append, ih next]; rfl

/-- Without a sink, the stages from download on send nothing. -/
theorem runAfterPoll_no_sink (w : World) (runner : Runner) (input : JobInput)
    (transcript transcriptPath : String) (analysis : Analysis) (prediction : Prediction)
    (before : List Action) :
    events (runAfterPoll w runner input false transcript transcriptPath analysis prediction
      before).trace = events before := by
  simp only [runAfterPoll]
  repeat' split
  all_goals simp [events_append, events_send_false, events]

/-- Without a sink, the stages from analyze on send nothing. -/
theorem runAfterTranscribe_no_sink (w : World) (runner : Runner) (client : ReplicateClient)
    (input : JobInput) (enhancedPath transcript transcriptPath : String)
    (before : List Action) :
    events (runAfterTranscribe w runner client input false enhancedPath transcript
      transcriptPath before).trace = events before := by
  simp only [runAfterTranscribe]
  repeat' split
  all_goals
    simp [events_append, events_send_false, events, poll_events_no_sink, runAfterPoll_no_sink]

/-- Without a sink (a nil `events` channel) a run sends no event. -/
theorem run_events_no_sink (w : World) (runner : Runner) (input : JobInput) :
    events (Run w runner input false).trace = [] := by
  cases hrep : runner.Replicate with
  | none => simp [Run, hrep, events]
  | some client =>
    cases hval : w.validateAudioPath input.AudioPath with
    | some err => simp [Run, hrep, hval, events_append, events_send_false, events]
    | none =>
      cases henh : (match runner.ElevenLabs with
        | none => (([] : List Action), (Except.ok input.AudioPath : Except GoError String))
        | some eleven => ([Action.enhanceAudio input.AudioPath input.OutputDir],
            w.enhanceAudio eleven input.AudioPath input.OutputDir)) with
      | mk enhanceTrace outcome =>
        have hnil := enhance_trace_events w runner input enhanceTrace outcome henh
        cases outcome with
        | error err =>
          rw [run_enhance_failed w runner input false client enhanceTrace err hrep hval henh]
          simp [events_append, events_send_false, events, hnil]
        | ok enhancedPath =>
          rw [run_after_enhance w runner input false client enhanceTrace enhancedPath hrep hval
            henh]
          repeat' split
          all_goals
            simp [events_append, events_send_false, events, hnil, runAfterTranscribe_no_sink,
              sendTranscript]

/-- Sending an event is no stage call. -/
theorem stageError_send (w : World) (runner : Runner) (sink : Bool) (stage message : String)
    (progress : ℚ) : Clean w runner (send sink stage message progress) := by
  intro a ha
  cases sink
  · simp [send] at ha
  · simp only [send, if_true, List.mem_singleton] at ha
    rw [ha]; rfl

/-- Sending the transcript event is no stage call. -/
theorem stageError_sendTranscript (w : World) (runner : Runner) (sink : Bool)
    (stage message transcript transcriptPath : String) (progress : ℚ) :
    Clean w runner (sendTranscript sink stage message transcript transcriptPath progress) := by
  intro a ha
  cases sink
  · simp [sendTranscript] at ha
  · simp only [sendTranscript, if_true, List.mem_singleton] at ha
    rw [ha]; rfl

/-- The poller calls none of the stages `stageError` speaks of. -/
theorem stageError_poll (w : World) (runner : Runner) (sink : Bool) (interval : Int)
    (steps : List PollStep) :
    ∀ (p : Prediction), Clean w runner (pollPrediction sink interval steps p).trace := by
  induction steps with
  | nil =>
    intro p a ha
    rcases pollPrediction_pass sink interval [] p with h | h | h | h | h
    · obtain ⟨-, ht, -⟩ := h
      rw [ht] at ha
      exact stageError_send w runner sink _ _ _ a ha
    · obtain ⟨-, -, ht, -⟩ := h
      rw [ht] at ha
      rcases List.mem_append.mp ha with h | h
      · exact stageError_send w runner sink _ _ _ a h
      · rw [List.mem_singleton.mp h]; rfl
    · obtain ⟨-, e', rest, hs, -⟩ := h; cases hs
    · obtain ⟨-, f, rest, err, hs, -⟩ := h; cases hs
    · obtain ⟨-, f, rest, next, hs, -⟩ := h; cases hs
  | cons step rest ih =>
    intro p a ha
    rcases pollPrediction_pass sink interval (step :: rest) p with h | h | h | h | h
    · obtain ⟨-, ht, -⟩ := h
      rw [ht] at ha
      exact stageError_send w runner sink _ _ _ a ha
    · obtain ⟨-, hs, -⟩ := h; cases hs
    · obtain ⟨-, e', rest', -, ht, -⟩ := h
      rw [ht] at ha
      rcases List.mem_append.mp ha with h | h
      · exact stageError_send w runner sink _ _ _ a h
      · rw [List.mem_singleton.mp h]; rfl
    · obtain ⟨-, f, rest', err, -, -, ht, -⟩ := h
      rw [ht] at ha
      rcases List.mem_append.mp ha with h | h
      · exact stageError_send w runner sink _ _ _ a h
      · simp only [List.mem_cons, List.mem_singleton, List.not_mem_nil, or_false] at h
        rcases h with h | h <;> (rw [h]; rfl)
    · obtain ⟨-, f, rest', next, hs, -, ht, -⟩ := h
      cases hs
      rw [ht] at ha
      rcases List.mem_append.mp ha with h | h
      · rcases List.mem_append.mp h with h | h
        · exact stageError_send w runner sink _ _ _ a h
        · simp only [List.mem_cons, List.mem_singleton, List.not_mem_nil, or_false] at h
          rcases h with h | h <;> (rw [h]; rfl)
      · exact ih next a h

/-- A trace none of whose calls failed, followed by one call that fails with
`err` and the return of that error, is an aborted run. -/
theorem aborts_at (w : World) (runner : Runner) (before : List Action) (a : Action)
    (err : GoError) (hb : Clean w runner before)
    (ha : stageError w runner a = some err) :
    Aborts w runner { trace := before ++ [a], returned := some (Result.zero, some err) } := by
  refine ⟨?_, ?_⟩
  · intro res e h
    simp only [Option.some.injEq, Prod.mk.injEq] at h
    exact h.1.symm
  · intro x hx e he
    rcases List.mem_append.mp hx with h | h
    · rw [hb x h] at he; cases he
    · rw [List.mem_singleton.mp h] at he ⊢
      rw [ha] at he
      cases he
      exact ⟨List.getLast?_concat _, rfl⟩

/-- A trace none of whose calls failed is an aborted run whatever it returns,
provided an error comes with the empty `Result`. -/
theorem aborts_clean (w : World) (runner : Runner) (trace : List Action)
    (returned : Option (Result × Option GoError))
    (hb : Clean w runner trace)
    (hz : ∀ res err, returned = some (res, some err) → res = Result.zero) :
    Aborts w runner { trace := trace, returned := returned } := by
  refine ⟨hz, ?_⟩
  intro x hx e he
  rw [hb x hx] at he; cases he

/-- Two traces without a failed call make one. -/
theorem clean_append {w : World} {runner : Runner} {l₁ l₂ : List Action}
    (h₁ : Clean w runner l₁) (h₂ : Clean w runner l₂) : Clean w runner (l₁ ++ l₂) := by
  intro a ha
  rcases List.mem_append.mp ha with h | h
  · exact h₁ a h
  · exact h₂ a h

/-- A call that does not fail makes a trace without a failed call. -/
theorem clean_single (w : World) (runner : Runner) (a : Action)
    (h : stageError w runner a = none) : Clean w runner [a] := by
  intro x hx
  rw [List.mem_singleton.mp hx]; exact h

/-- From the download stage on, a failing stage ends the run. -/
theorem runAfterPoll_aborts (w : World) (runner : Runner) (input : JobInput) (sink : Bool)
    (transcript transcriptPath : String) (analysis : Analysis) (prediction : Prediction)
    (before : List Action) (hb : Clean w runner before) :
    Aborts w runner
      (runAfterPoll w runner input sink transcript transcriptPath analysis prediction before) := by
  have hdl := clean_append hb (stageError_send w runner sink "download" "Downloading video" 0.9)
  by_cases hurl : OutputURL prediction.Output = ""
  · have hr : runAfterPoll w runner input sink transcript transcriptPath analysis prediction
        before = { trace := before ++ send sink "download" "Downloading video" 0.9,
                   returned := some (Result.zero,
                     some (.errorf "replicate output url missing")) } := by
      simp [runAfterPoll, hurl]
    rw [hr]
    refine aborts_clean w runner _ _ hdl ?_
    intro res err h
    simp only [Option.some.injEq, Prod.mk.injEq] at h
    exact h.1.symm
  · cases hd : downloadOutput w.download w.filepathJoin (OutputURL prediction.Output)
        input.OutputDir with
    | mk videoPath derr =>
      cases derr with
      | some err =>
        have hr : runAfterPoll w runner input sink transcript transcriptPath analysis prediction
            before = { trace := before ++ send sink "download" "Downloading video" 0.9
                         ++ [.downloadOutput (OutputURL prediction.Output) input.OutputDir],
                       returned := some (Result.zero, some err) } := by
          simp [runAfterPoll, hurl, hd]
        rw [hr]
        exact aborts_at w runner _ _ err hdl (by simp [stageError, hd])
      | none =>
        have hdc := clean_append hdl (clean_single w runner
      (.downloadOutput (OutputURL prediction.Output) input.OutputDir)
          (by simp [stageError, hd]))
        cases hm : muxAudio w.mux w.filepathJoin runner.FFmpegPath videoPath input.AudioPath
            input.OutputDir with
        | mk muxedPath merr =>
          cases merr with
          | some err =>
            have hr : runAfterPoll w runner input sink transcript transcriptPath analysis
                prediction before =
                  { trace := before ++ send sink "download" "Downloading video" 0.9
                      ++ [.downloadOutput (OutputURL prediction.Output) input.OutputDir]
                      ++ [.muxAudio runner.FFmpegPath videoPath input.AudioPath input.OutputDir],
                    returned := some (Result.zero, some err) } := by
              simp [runAfterPoll, hurl, hd, hm]
            rw [hr]
            exact aborts_at w runner _ _ err hdc (by simp [stageError, hm])
          | none =>
            have hmc := clean_append hdc (clean_single w runner
      (.muxAudio runner.FFmpegPath videoPath input.AudioPath input.OutputDir)
              (by simp [stageError, hm]))
            cases hw : writeMetadata w.metadata w.filepathJoin input prediction.ID muxedPath
                transcript transcriptPath analysis with
            | mk metaPath werr =>
              cases werr with
              | some err =>
                have hr : runAfterPoll w runner input sink transcript transcriptPath analysis
                    prediction before =
                      { trace := before ++ send sink "download" "Downloading video" 0.9
                          ++ [.downloadOutput (OutputURL prediction.Output) input.OutputDir]
                          ++ [.muxAudio runner.FFmpegPath videoPath input.AudioPath
                                input.OutputDir]
                          ++ [.writeMetadata input prediction.ID muxedPath transcript
                                transcriptPath analysis],
                        returned := some (Result.zero, some err) } := by
                  simp [runAfterPoll, hurl, hd, hm, hw]
                rw [hr]
                exact aborts_at w runner _ _ err hmc (by simp [stageError, hw])
              | none =>
                have hr : runAfterPoll w runner input sink transcript transcriptPath analysis
                    prediction before =
                      { trace := before ++ send sink "download" "Downloading video" 0.9
                          ++ [.downloadOutput (OutputURL prediction.Output) input.OutputDir]
                          ++ [.muxAudio runner.FFmpegPath videoPath input.AudioPath
                                input.OutputDir]
                          ++ [.writeMetadata input prediction.ID muxedPath transcript
                                transcriptPath analysis]
                          ++ send sink "done" "Completed" 1.0,
                        returned := some ({ JobID := prediction.ID, VideoPath := videoPath,
                                            MetaPath := metaPath }, none) } := by
                  simp [runAfterPoll, hurl, hd, hm, hw]
                rw [hr]
                refine aborts_clean w runner _ _ (clean_append (clean_append hmc
                  (clean_single w runner _ (by simp [stageError, hw])))
                  (stageError_send w runner sink "done" "Completed" 1.0)) ?_
                intro res err h
                simp at h

/-- From the analyze stage on, a failing stage ends the run. -/
theorem runAfterTranscribe_aborts (w : World) (runner : Runner) (client : ReplicateClient)
    (input : JobInput) (sink : Bool) (enhancedPath transcript transcriptPath : String)
    (before : List Action) (hrep : runner.Replicate = some client)
    (hb : Clean w runner before) :
    Aborts w runner
      (runAfterTranscribe w runner client input sink enhancedPath transcript transcriptPath
        before) := by
  have hzero : ∀ (e : GoError) (res : Result) (err : GoError),
      some (Result.zero, some e) = some (res, some err) → res = Result.zero := by
    intro e res err h
    simp only [Option.some.injEq, Prod.mk.injEq] at h
    exact h.1.symm
  have han := clean_append hb (stageError_send w runner sink "analyze" "Analyzing audio" 0.36)
  cases ha : w.analyze runner.FFmpegPath input.AudioPath with
  | error err =>
    have hr : runAfterTranscribe w runner client input sink enhancedPath transcript
        transcriptPath before =
          { trace := before ++ send sink "analyze" "Analyzing audio" 0.36
              ++ [.analyze runner.FFmpegPath input.AudioPath],
            returned := some (Result.zero, some err) } := by
      simp [runAfterTranscribe, ha]
    rw [hr]
    exact aborts_at w runner _ _ err han (by simp [stageError, ha])
  | ok analysis =>
    have hsb := clean_append (clean_append han (clean_single w runner
      (.analyze runner.FFmpegPath input.AudioPath) (by simp [stageError, ha])))
      (stageError_send w runner sink "submit" "Submitting to Replicate" 0.4)
    cases hsub : w.submitPrediction client
        (predictionRequest (buildPrompt input enhancedPath transcript analysis) input)
        runner.PreferWait with
    | error err =>
      have hr : runAfterTranscribe w runner client input sink enhancedPath transcript
          transcriptPath before =
            { trace := before ++ send sink "analyze" "Analyzing audio" 0.36
                ++ [.analyze runner.FFmpegPath input.AudioPath]
                ++ send sink "submit" "Submitting to Replicate" 0.4
                ++ [.submitPrediction (predictionRequest
                    (buildPrompt input enhancedPath transcript analysis) input)
                    runner.PreferWait],
              returned := some (Result.zero, some err) } := by
        simp [runAfterTranscribe, ha, hsub]
      rw [hr]
      exact aborts_at w runner _ _ err hsb (by simp [stageError, hrep, hsub])
    | ok prediction =>
      have hpc := clean_append (clean_append hsb (clean_single w runner
      (.submitPrediction (predictionRequest
          (buildPrompt input enhancedPath transcript analysis) input) runner.PreferWait)
        (by simp [stageError, hrep, hsub])))
        (stageError_poll w runner sink runner.PollInterval w.poll prediction)
      cases hp : (pollPrediction sink runner.PollInterval w.poll prediction).returned with
      | none =>
        have hr : runAfterTranscribe w runner client input sink enhancedPath transcript
            transcriptPath before =
              { trace := before ++ send sink "analyze" "Analyzing audio" 0.36
                  ++ [.analyze runner.FFmpegPath input.AudioPath]
                  ++ send sink "submit" "Submitting to Replicate" 0.4
                  ++ [.submitPrediction (predictionRequest
                      (buildPrompt input enhancedPath transcript analysis) input)
                      runner.PreferWait]
                  ++ (pollPrediction sink runner.PollInterval w.poll prediction).trace,
                returned := none } := by
          simp [runAfterTranscribe, ha, hsub, hp]
        rw [hr]
        exact aborts_clean w runner _ _ hpc (by intro res err h; cases h)
      | some pr =>
        obtain ⟨polled, perr⟩ := pr
        cases perr with
        | some err =>
          have hr : runAfterTranscribe w runner client input sink enhancedPath transcript
              transcriptPath before =
                { trace := before ++ send sink "analyze" "Analyzing audio" 0.36
                    ++ [.analyze runner.FFmpegPath input.AudioPath]
                    ++ send sink "submit" "Submitting to Replicate" 0.4
                    ++ [.submitPrediction (predictionRequest
                        (buildPrompt input enhancedPath transcript analysis) input)
                        runner.PreferWait]
                    ++ (pollPrediction sink runner.PollInterval w.poll prediction).trace,
                  returned := some (Result.zero, some err) } := by
            simp [runAfterTranscribe, ha, hsub, hp]
          rw [hr]
          exact aborts_clean w runner _ _ hpc (hzero err)
        | none =>
          have hr : runAfterTranscribe w runner client input sink enhancedPath transcript
              transcriptPath before =
                runAfterPoll w runner input sink transcript transcriptPath analysis polled
                  (before ++ send sink "analyze" "Analyzing audio" 0.36
                    ++ [.analyze runner.FFmpegPath input.AudioPath]
                    ++ send sink "submit" "Submitting to Replicate" 0.4
                    ++ [.submitPrediction (predictionRequest
                        (buildPrompt input enhancedPath transcript analysis) input)
                        runner.PreferWait]
                    ++ (pollPrediction sink runner.PollInterval w.poll prediction).trace) := by
            simp [runAfterTranscribe, ha, hsub, hp]
          rw [hr]
          exact runAfterPoll_aborts w runner input sink transcript transcriptPath analysis
            polled _ hpc

/-- Once validation and enhancement are through, a failing stage ends the run. -/
theorem run_tail_aborts (w : World) (runner : Runner) (input : JobInput) (sink : Bool)
    (client : ReplicateClient) (enhanceTrace : List Action) (enhancedPath : String)
    (hrep : runner.Replicate = some client)
    (hval : w.validateAudioPath input.AudioPath = none)
    (henh : (match runner.ElevenLabs with
      | none => (([] : List Action), (Except.ok input.AudioPath : Except GoError String))
      | some eleven => ([Action.enhanceAudio input.AudioPath input.OutputDir],
          w.enhanceAudio eleven input.AudioPath input.OutputDir)) =
        (enhanceTrace, .ok enhancedPath))
    (hclean : Clean w runner enhanceTrace) :
    Aborts w runner (Run w runner input sink) := by
  have hve := clean_append (clean_append (clean_append
    (stageError_send w runner sink "validate" "Validating audio" 0.05)
    (clean_single w runner
      (.validateAudioPath input.AudioPath) (by simp [stageError, hval])))
    (stageError_send w runner sink "enhance" "Enhancing audio" 0.2)) hclean
  rw [run_after_enhance w runner input sink client enhanceTrace enhancedPath hrep hval henh]
  cases ht : runner.Transcribe.Enabled with
  | false =>
    simp only [Bool.false_eq_true, if_false]
    exact runAfterTranscribe_aborts w runner client input sink enhancedPath "" "" _ hrep hve
  | true =>
    simp only [if_true]
    have htc := clean_append hve
      (stageError_send w runner sink "transcribe" "Transcribing audio" 0.3)
    cases htr : w.transcribe runner.Transcribe input.AudioPath input.OutputDir with
    | error err =>
      exact aborts_at w runner _ _ err htc (by simp [stageError, htr])
    | ok tr =>
      obtain ⟨transcript, transcriptPath⟩ := tr
      exact runAfterTranscribe_aborts w runner client input sink enhancedPath transcript
        transcriptPath _ hrep
        (clean_append (clean_append htc (clean_single w runner
      (.transcribe input.AudioPath input.OutputDir) (by simp [stageError, htr])))
          (stageError_sendTranscript w runner sink "transcribe" "Transcript ready" transcript
            transcriptPath 0.35))

/-- A failing stage ends the run. -/
theorem run_aborts (w : World) (runner : Runner) (input : JobInput) (sink : Bool) :
    Aborts w runner (Run w runner input sink) := by
  have hzero : ∀ (e : GoError) (res : Result) (err : GoError),
      some (Result.zero, some e) = some (res, some err) → res = Result.zero := by
    intro e res err h
    simp only [Option.some.injEq, Prod.mk.injEq] at h
    exact h.1.symm
  cases hrep : runner.Replicate with
  | none =>
    have hr : Run w runner input sink = { trace := [], returned := some (Result.zero,
        some (.errorf "replicate client not configured")) } := by simp [Run, hrep]
    rw [hr]
    exact aborts_clean w runner _ _ (by intro a ha; cases ha) (hzero _)
  | some client =>
    have hv := stageError_send w runner sink "validate" "Validating audio" 0.05
    cases hval : w.validateAudioPath input.AudioPath with
    | some err =>
      have hr : Run w runner input sink =
          { trace := send sink "validate" "Validating audio" 0.05
              ++ [.validateAudioPath input.AudioPath],
            returned := some (Result.zero, some err) } := by simp [Run, hrep, hval]
      rw [hr]
      exact aborts_at w runner _ _ err hv (by simp [stageError, hval])
    | none =>
      have hve := clean_append (clean_append hv (clean_single w runner
      (.validateAudioPath input.AudioPath) (by simp [stageError, hval])))
        (stageError_send w runner sink "enhance" "Enhancing audio" 0.2)
      cases hel : runner.ElevenLabs with
      | none =>
        exact run_tail_aborts w runner input sink client [] input.AudioPath hrep hval
          (by rw [hel]) (by intro a ha; cases ha)
      | some eleven =>
        cases he : w.enhanceAudio eleven input.AudioPath input.OutputDir with
        | error err =>
          rw [run_enhance_failed w runner input sink client
            [.enhanceAudio input.AudioPath input.OutputDir] err hrep hval (by rw [hel]; simp only [he])]
          exact aborts_at w runner _ _ err hve (by simp [stageError, hel, he])
        | ok enhancedPath =>
          exact run_tail_aborts w runner input sink client
            [.enhanceAudio input.AudioPath input.OutputDir] enhancedPath hrep hval
            (by rw [hel]; simp only [he]) (clean_single w runner _ (by simp [stageError, hel, he]))

/-- An event sent is no submit call. -/
theorem unsubmitted_send (w : World) (runner : Runner) (sink : Bool) (stage message : String)
    (progress : ℚ) : Unsubmitted w runner (send sink stage message progress) := by
  intro a ha
  cases sink
  · simp [send] at ha
  · simp only [send, if_true, List.mem_singleton] at ha
    rw [ha]; rfl

/-- The poller submits nothing. -/
theorem unsubmitted_poll (w : World) (runner : Runner) (sink : Bool) (interval : Int)
    (steps : List PollStep) :
    ∀ (p : Prediction), Unsubmitted w runner (pollPrediction sink interval steps p).trace := by
  induction steps with
  | nil =>
    intro p a ha
    rcases pollPrediction_pass sink interval [] p with h | h | h | h | h
    · obtain ⟨-, ht, -⟩ := h
      rw [ht] at ha
      exact unsubmitted_send w runner sink _ _ _ a ha
    · obtain ⟨-, -, ht, -⟩ := h
      rw [ht] at ha
      rcases List.mem_append.mp ha with h | h
      · exact unsubmitted_send w runner sink _ _ _ a h
      · rw [List.mem_singleton.mp h]; rfl
    · obtain ⟨-, e', rest, hs, -⟩ := h; cases hs
    · obtain ⟨-, f, rest, err, hs, -⟩ := h; cases hs
    · obtain ⟨-, f, rest, next, hs, -⟩ := h; cases hs
  | cons step rest ih =>
    intro p a ha
    rcases pollPrediction_pass sink interval (step :: rest) p with h | h | h | h | h
    · obtain ⟨-, ht, -⟩ := h
      rw [ht] at ha
      exact unsubmitted_send w runner sink _ _ _ a ha
    · obtain ⟨-, hs, -⟩ := h; cases hs
    · obtain ⟨-, e', rest', -, ht, -⟩ := h
      rw [ht] at ha
      rcases List.mem_append.mp ha with h | h
      · exact unsubmitted_send w runner sink _ _ _ a h
      · rw [List.mem_singleton.mp h]; rfl
    · obtain ⟨-, f, rest', err, -, -, ht, -⟩ := h
      rw [ht] at ha
      rcases List.mem_append.mp ha with h | h
      · exact unsubmitted_send w runner sink _ _ _ a h
      · simp only [List.mem_cons, List.mem_singleton, List.not_mem_nil, or_false] at h
        rcases h with h | h <;> (rw [h]; rfl)
    · obtain ⟨-, f, rest', next, hs, -, ht, -⟩ := h
      cases hs
      rw [ht] at ha
      rcases List.mem_append.mp ha with h | h
      · rcases List.mem_append.mp h with h | h
        · exact unsubmitted_send w runner sink _ _ _ a h
        · simp only [List.mem_cons, List.mem_singleton, List.not_mem_nil, or_false] at h
          rcases h with h | h <;> (rw [h]; rfl)
      · exact ih next a h

/-- The stages from download on add no submit call to the trace. -/
theorem runAfterPoll_mem (w : World) (runner : Runner) (input : JobInput) (sink : Bool)
    (transcript transcriptPath : String) (analysis : Analysis) (prediction : Prediction)
    (before : List Action) :
    ∀ a ∈ (runAfterPoll w runner input sink transcript transcriptPath analysis prediction
      before).trace, a ∈ before ∨ submitted w runner a = none := by
  have hs : ∀ (stage message : String) (progress : ℚ), ∀ a ∈ send sink stage message progress,
      a ∈ before ∨ submitted w runner a = none :=
    fun stage message progress a ha =>
      Or.inr (unsubmitted_send w runner sink stage message progress a ha)
  have hb : ∀ a ∈ before, a ∈ before ∨ submitted w runner a = none := fun a ha => Or.inl ha
  simp only [runAfterPoll]
  repeat' split
  all_goals
    simp only [List.forall_mem_append, List.forall_mem_singleton]
    repeat' apply And.intro
    all_goals first
      | exact hb
      | exact hs _ _ _
      | exact Or.inr rfl

/-- Two traces without a successful submit call make one. -/
theorem unsubmitted_append {w : World} {runner : Runner} {l₁ l₂ : List Action}
    (h₁ : Unsubmitted w runner l₁) (h₂ : Unsubmitted w runner l₂) :
    Unsubmitted w runner (l₁ ++ l₂) := by
  intro a ha
  rcases List.mem_append.mp ha with h | h
  · exact h₁ a h
  · exact h₂ a h

/-- A call that is no successful submit makes a trace without one. -/
theorem unsubmitted_single (w : World) (runner : Runner) (a : Action)
    (h : submitted w runner a = none) : Unsubmitted w runner [a] := by
  intro x hx
  rw [List.mem_singleton.mp hx]; exact h

/-- Sending the transcript event is no submit call. -/
theorem unsubmitted_sendTranscript (w : World) (runner : Runner) (sink : Bool)
    (stage message transcript transcriptPath : String) (progress : ℚ) :
    Unsubmitted w runner
      (sendTranscript sink stage message transcript transcriptPath progress) := by
  intro a ha
  cases sink
  · simp [sendTranscript] at ha
  · simp only [sendTranscript, if_true, List.mem_singleton] at ha
    rw [ha]; rfl

/-- A run that never got a prediction has no poller to fail. -/
theorem pollAborts_unsubmitted (w : World) (runner : Runner) (sink : Bool)
    (trace : List Action) (returned : Option (Result × Option GoError))
    (h : Unsubmitted w runner trace) :
    PollAborts w runner sink { trace := trace, returned := returned } := by
  intro a ha p q err hsub
  rw [h a ha] at hsub; cases hsub

/-- A run that polled the prediction `prediction` satisfies `PollAborts` as soon
as it returns the poller's error and stops with the poller's trace when the
poller fails. -/
theorem pollAborts_after_submit (w : World) (runner : Runner) (sink : Bool) (r : Ran Result)
    (t : List Action) (s : Action) (prediction : Prediction)
    (ht : Unsubmitted w runner t) (hs : submitted w runner s = some prediction)
    (hmem : ∀ a ∈ r.trace,
      a ∈ t ++ [s] ++ (pollPrediction sink runner.PollInterval w.poll prediction).trace
        ∨ submitted w runner a = none)
    (hres : ∀ q err,
      (pollPrediction sink runner.PollInterval w.poll prediction).returned = some (q, some err) →
      r.returned = some (Result.zero, some err) ∧
        r.trace = t ++ [s] ++ (pollPrediction sink runner.PollInterval w.poll prediction).trace) :
    PollAborts w runner sink r := by
  intro a ha p q err hsub hpoll
  rcases hmem a ha with h | h
  · rcases List.mem_append.mp h with h | h
    · rcases List.mem_append.mp h with h | h
      · rw [ht a h] at hsub; cases hsub
      · rw [List.mem_singleton.mp h, hs] at hsub
        cases hsub
        obtain ⟨h1, h2⟩ := hres q err hpoll
        refine ⟨h1, t, ?_⟩
        rw [h2, List.mem_singleton.mp h]
        simp
    · rw [unsubmitted_poll w runner sink runner.PollInterval w.poll prediction a h] at hsub
      cases hsub
  · rw [h] at hsub; cases hsub

/-- From the analyze stage on, a failing poller ends the run. -/
theorem runAfterTranscribe_pollAborts (w : World) (runner : Runner) (client : ReplicateClient)
    (input : JobInput) (sink : Bool) (enhancedPath transcript transcriptPath : String)
    (before : List Action) (hrep : runner.Replicate = some client)
    (hb : Unsubmitted w runner before) :
    PollAborts w runner sink
      (runAfterTranscribe w runner client input sink enhancedPath transcript transcriptPath
        before) := by
  have han := unsubmitted_append (unsubmitted_append hb
    (unsubmitted_send w runner sink "analyze" "Analyzing audio" 0.36))
    (unsubmitted_single w runner
      (.analyze runner.FFmpegPath input.AudioPath) rfl)
  cases ha : w.analyze runner.FFmpegPath input.AudioPath with
  | error err =>
    have hr : runAfterTranscribe w runner client input sink enhancedPath transcript
        transcriptPath before =
          { trace := before ++ send sink "analyze" "Analyzing audio" 0.36
              ++ [.analyze runner.FFmpegPath input.AudioPath],
            returned := some (Result.zero, some err) } := by
      simp [runAfterTranscribe, ha]
    rw [hr]
    exact pollAborts_unsubmitted w runner sink _ _ han
  | ok analysis =>
    have hsb := unsubmitted_append han
      (unsubmitted_send w runner sink "submit" "Submitting to Replicate" 0.4)
    cases hsub : w.submitPrediction client
        (predictionRequest (buildPrompt input enhancedPath transcript analysis) input)
        runner.PreferWait with
    | error err =>
      have hr : runAfterTranscribe w runner client input sink enhancedPath transcript
          transcriptPath before =
            { trace := before ++ send sink "analyze" "Analyzing audio" 0.36
                ++ [.analyze runner.FFmpegPath input.AudioPath]
                ++ send sink "submit" "Submitting to Replicate" 0.4
                ++ [.submitPrediction (predictionRequest
                    (buildPrompt input enhancedPath transcript analysis) input)
                    runner.PreferWait],
              returned := some (Result.zero, some err) } := by
        simp [runAfterTranscribe, ha, hsub]
      rw [hr]
      exact pollAborts_unsubmitted w runner sink _ _
        (unsubmitted_append hsb (unsubmitted_single w runner _ (by simp [submitted, hrep, hsub])))
    | ok prediction =>
      have hs : submitted w runner (.submitPrediction (predictionRequest
          (buildPrompt input enhancedPath transcript analysis) input) runner.PreferWait) =
          some prediction := by simp [submitted, hrep, hsub]
      cases hp : (pollPrediction sink runner.PollInterval w.poll prediction).returned with
      | none =>
        have hr : runAfterTranscribe w runner client input sink enhancedPath transcript
            transcriptPath before =
              { trace := before ++ send sink "analyze" "Analyzing audio" 0.36
                  ++ [.analyze runner.FFmpegPath input.AudioPath]
                  ++ send sink "submit" "Submitting to Replicate" 0.4
                  ++ [.submitPrediction (predictionRequest
                      (buildPrompt input enhancedPath transcript analysis) input)
                      runner.PreferWait]
                  ++ (pollPrediction sink runner.PollInterval w.poll prediction).trace,
                returned := none } := by
          simp [runAfterTranscribe, ha, hsub, hp]
        rw [hr]
        refine pollAborts_after_submit w runner sink _ _ _ prediction hsb hs
          (fun a h => Or.inl h) ?_
        intro q err hq
        rw [hp] at hq; cases hq
      | some pr =>
        obtain ⟨polled, perr⟩ := pr
        cases perr with
        | some err =>
          have hr : runAfterTranscribe w runner client input sink enhancedPath transcript
              transcriptPath before =
                { trace := before ++ send sink "analyze" "Analyzing audio" 0.36
                    ++ [.analyze runner.FFmpegPath input.AudioPath]
                    ++ send sink "submit" "Submitting to Replicate" 0.4
                    ++ [.submitPrediction (predictionRequest
                        (buildPrompt input enhancedPath transcript analysis) input)
                        runner.PreferWait]
                    ++ (pollPrediction sink runner.PollInterval w.poll prediction).trace,
                  returned := some (Result.zero, some err) } := by
            simp [runAfterTranscribe, ha, hsub, hp]
          rw [hr]
          refine pollAborts_after_submit w runner sink _ _ _ prediction hsb hs
            (fun a h => Or.inl h) ?_
          intro q err' hq
          rw [hp] at hq
          simp only [Option.some.injEq, Prod.mk.injEq] at hq
          rw [← hq.2]
          exact ⟨rfl, rfl⟩
        | none =>
          have hr : runAfterTranscribe w runner client input sink enhancedPath transcript
              transcriptPath before =
                runAfterPoll w runner input sink transcript transcriptPath analysis polled
                  (before ++ send sink "analyze" "Analyzing audio" 0.36
                    ++ [.analyze runner.FFmpegPath input.AudioPath]
                    ++ send sink "submit" "Submitting to Replicate" 0.4
                    ++ [.submitPrediction (predictionRequest
                        (buildPrompt input enhancedPath transcript analysis) input)
                        runner.PreferWait]
                    ++ (pollPrediction sink runner.PollInterval w.poll prediction).trace) := by
            simp [runAfterTranscribe, ha, hsub, hp]
          rw [hr]
          refine pollAborts_after_submit w runner sink _ _ _ prediction hsb hs
            (runAfterPoll_mem w runner input sink transcript transcriptPath analysis polled _) ?_
          intro q err hq
          rw [hp] at hq; cases hq

/-- A failing poller ends the run. -/
theorem run_pollAborts (w : World) (runner : Runner) (input : JobInput) (sink : Bool) :
    PollAborts w runner sink (Run w runner input sink) := by
  cases hrep : runner.Replicate with
  | none =>
    have hr : Run w runner input sink = { trace := [], returned := some (Result.zero,
        some (.errorf "replicate client not configured")) } := by simp [Run, hrep]
    rw [hr]
    exact pollAborts_unsubmitted w runner sink _ _ (by intro a ha; cases ha)
  | some client =>
    have hve := unsubmitted_append (unsubmitted_append
      (unsubmitted_send w runner sink "validate" "Validating audio" 0.05)
      (unsubmitted_single w runner
      (.validateAudioPath input.AudioPath) rfl))
      (unsubmitted_send w runner sink "enhance" "Enhancing audio" 0.2)
    cases hval : w.validateAudioPath input.AudioPath with
    | some err =>
      have hr : Run w runner input sink =
          { trace := send sink "validate" "Validating audio" 0.05
              ++ [.validateAudioPath input.AudioPath],
            returned := some (Result.zero, some err) } := by simp [Run, hrep, hval]
      rw [hr]
      exact pollAborts_unsubmitted w runner sink _ _ (unsubmitted_append
        (unsubmitted_send w runner sink "validate" "Validating audio" 0.05)
        (unsubmitted_single w runner _ rfl))
    | none =>
      cases henh : (match runner.ElevenLabs with
        | none => (([] : List Action), (Except.ok input.AudioPath : Except GoError String))
        | some eleven => ([Action.enhanceAudio input.AudioPath input.OutputDir],
            w.enhanceAudio eleven input.AudioPath input.OutputDir)) with
      | mk enhanceTrace outcome =>
        have hen : Unsubmitted w runner enhanceTrace := by
          cases hel : runner.ElevenLabs with
          | none => rw [hel] at henh; cases henh; intro a ha; cases ha
          | some eleven => rw [hel] at henh; cases henh; exact unsubmitted_single w runner _ rfl
        have hall := unsubmitted_append hve hen
        cases outcome with
        | error err =>
          rw [run_enhance_failed w runner input sink client enhanceTrace err hrep hval henh]
          exact pollAborts_unsubmitted w runner sink _ _ hall
        | ok enhancedPath =>
          rw [run_after_enhance w runner input sink client enhanceTrace enhancedPath hrep hval
            henh]
          cases ht : runner.Transcribe.Enabled with
          | false =>
            simp only [Bool.false_eq_true, if_false]
            exact runAfterTranscribe_pollAborts w runner client input sink enhancedPath "" "" _
              hrep hall
          | true =>
            simp only [if_true]
            have htc := unsubmitted_append (unsubmitted_append hall
              (unsubmitted_send w runner sink "transcribe" "Transcribing audio" 0.3))
              (unsubmitted_single w runner
      (.transcribe input.AudioPath input.OutputDir) rfl)
            cases htr : w.transcribe runner.Transcribe input.AudioPath input.OutputDir with
            | error err => exact pollAborts_unsubmitted w runner sink _ _ htc
            | ok tr =>
              obtain ⟨transcript, transcriptPath⟩ := tr
              exact runAfterTranscribe_pollAborts w runner client input sink enhancedPath
                transcript transcriptPath _ hrep
                (unsubmitted_append htc (unsubmitted_sendTranscript w runner sink "transcribe"
                  "Transcript ready" transcript transcriptPath 0.35))

/-- The events before the done event bear the stage names of the runner, and
none is a done event. -/
theorem staged_events (transcribe : Bool) (ready : Event) (renders : List Event)
    (hstage : ready.Stage = "transcribe")
    (hr : ∀ e ∈ renders, e.Stage = "render" ∧ (e.Progress = 0.4 ∨ e.Progress = 0.6)) :
    ∀ e ∈ earlyEvents transcribe ready ++ lateEvents renders,
      e.Stage ∈ eventStages ∧ e.Stage ≠ "done" := by
  intro e he
  simp only [earlyEvents, lateEvents, plainEvent, List.mem_append, List.mem_cons,
    List.mem_singleton, List.not_mem_nil, or_false] at he
  rcases he with ((h | h) | h) | (((h | h) | h) | h)
  · rw [h]; decide
  · rw [h]; decide
  · cases transcribe
    · simp at h
    · simp only [if_true, List.mem_cons, List.mem_singleton, List.not_mem_nil, or_false] at h
      rcases h with h | h
      · rw [h]; decide
      · rw [h, hstage]; decide
  · rw [h]; decide
  · rw [h]; decide
  · rw [(hr e h).1]; decide
  · rw [h]; decide

/-! ## Lemmas for the later claims -/

/-- Counting the fetches of two traces put together. -/
theorem fetchCount_append (a b : List Action) :
    fetchCount (a ++ b) = fetchCount a + fetchCount b := by
  induction a with
  | nil => simp [fetchCount]
  | cons x rest ih =>
    cases x <;> simp [fetchCount, ih]
    omega

/-- Sending an event is no fetch. -/
theorem fetchCount_send (sink : Bool) (stage message : String) (progress : ℚ) :
    fetchCount (send sink stage message progress) = 0 := by
  cases sink <;> rfl

/-- A pending status, spelled in lower case, is classified as pending. -/
theorem classify_pending (status : String) (h : status ∈ pendingStatuses) :
    classify (toLower status) = .pending := by
  simp only [pendingStatuses, List.mem_cons, List.mem_singleton, List.not_mem_nil,
    or_false] at h
  rcases h with h | h | h | h <;> rw [h] <;> decide

/-- One pass of the loop on a pending prediction, when the wait elapses and the
fetch answers `q`. -/
theorem pollPrediction_fetched (sink : Bool) (interval : Int) (rest : List PollStep)
    (p q : Prediction) (fetch : String → Except GoError Prediction)
    (hc : classify (toLower p.Status) = .pending) (hf : fetch p.ID = .ok q) :
    pollPrediction sink interval (.elapsed fetch :: rest) p =
      { trace := send sink "render" ("Rendering (" ++ p.Status ++ ")")
            (renderProgress (toLower p.Status))
          ++ [.wait (effectiveInterval interval), .fetchPrediction p.ID]
          ++ (pollPrediction sink interval rest q).trace,
        returned := (pollPrediction sink interval rest q).returned } := by
  simp [pollPrediction, pollIteration, hc, hf]

/-- The poller on a queue of pending answers followed by a last answer: it
fetches once per answer and goes on with the last one. -/
theorem poll_reports (sink : Bool) (interval : Int) (rest : List PollStep)
    (qs : List Prediction) :
    ∀ (p final : Prediction), p.Status ∈ pendingStatuses →
      (∀ q ∈ qs, q.Status ∈ pendingStatuses) →
      ∃ before,
        (pollPrediction sink interval (reports (qs ++ [final]) ++ rest) p).trace =
            before ++ (pollPrediction sink interval rest final).trace ∧
          (pollPrediction sink interval (reports (qs ++ [final]) ++ rest) p).returned =
            (pollPrediction sink interval rest final).returned ∧
          fetchCount before = qs.length + 1 ∧
          events before = (if sink then events before else []) ∧
          (events before).length = (if sink then qs.length + 1 else 0) := by
  induction qs with
  | nil =>
    intro p final hp _
    have hc := classify_pending p.Status hp
    refine ⟨send sink "render" ("Rendering (" ++ p.Status ++ ")")
        (renderProgress (toLower p.Status))
      ++ [.wait (effectiveInterval interval), .fetchPrediction p.ID], ?_, ?_, ?_, ?_, ?_⟩
    · simp only [reports, List.nil_append, List.map_cons, List.map_nil, List.singleton_append]
      rw [pollPrediction_fetched sink interval rest p final _ hc rfl]
    · simp only [reports, List.nil_append, List.map_cons, List.map_nil, List.singleton_append]
      rw [pollPrediction_fetched sink interval rest p final _ hc rfl]
    · simp [fetchCount_append, fetchCount_send, fetchCount]
    · cases sink <;> simp [events_append, send, events]
    · cases sink <;> simp [events_append, send, events]
  | cons q qs ih =>
    intro p final hp hq
    have hc := classify_pending p.Status hp
    obtain ⟨before, h1, h2, h3, h4, h5⟩ := ih q final (hq q (List.mem_cons_self q qs))
      (fun x hx => hq x (List.mem_cons_of_mem q hx))
    refine ⟨send sink "render" ("Rendering (" ++ p.Status ++ ")")
        (renderProgress (toLower p.Status))
      ++ [.wait (effectiveInterval interval), .fetchPrediction p.ID] ++ before, ?_, ?_, ?_, ?_, ?_⟩
    · have hs : reports (q :: qs ++ [final]) ++ rest =
          .elapsed (fun _ => Except.ok q) :: (reports (qs ++ [final]) ++ rest) := by
        simp [reports]
      rw [hs, pollPrediction_fetched sink interval _ p q _ hc rfl, h1]
      simp
    · have hs : reports (q :: qs ++ [final]) ++ rest =
          .elapsed (fun _ => Except.ok q) :: (reports (qs ++ [final]) ++ rest) := by
        simp [reports]
      rw [hs, pollPrediction_fetched sink interval _ p q _ hc rfl, h2]
    · simp [fetchCount_append, fetchCount_send, fetchCount, h3]
    · cases sink <;> simp_all [events_append, send, events]
    · cases sink <;> simp_all [events_append, send, events]

/-- The poller on a queue of pending answers only: it fetches once per answer
and is still waiting afterwards. -/
theorem poll_reports_pending (sink : Bool) (interval : Int) (qs : List Prediction) :
    ∀ (p : Prediction), p.Status ∈ pendingStatuses →
      (∀ q ∈ qs, q.Status ∈ pendingStatuses) →
      (pollPrediction sink interval (reports qs) p).returned = none ∧
        fetchCount (pollPrediction sink interval (reports qs) p).trace = qs.length := by
  induction qs with
  | nil =>
    intro p hp _
    have hc := classify_pending p.Status hp
    constructor
    · simp [reports, pollPrediction, pollIteration, hc]
    · simp [reports, pollPrediction, pollIteration, hc, fetchCount_append, fetchCount_send,
        fetchCount]
  | cons q qs ih =>
    intro p hp hq
    have hc := classify_pending p.Status hp
    obtain ⟨h1, h2⟩ := ih q (hq q (List.mem_cons_self q qs))
      (fun x hx => hq x (List.mem_cons_of_mem q hx))
    have hs : reports (q :: qs) = .elapsed (fun _ => Except.ok q) :: reports qs := by
      simp [reports]
    rw [hs, pollPrediction_fetched sink interval _ p q _ hc rfl]
    constructor
    · exact h1
    · simp [fetchCount_append, fetchCount_send, fetchCount, h2]

/-- The single pass of the poller on a prediction reported as succeeded. -/
theorem poll_succeeded (sink : Bool) (interval : Int) (steps : List PollStep)
    (p : Prediction) (h : p.Status = "succeeded") :
    pollPrediction sink interval steps p =
      { trace := send sink "render" ("Rendering (" ++ p.Status ++ ")") 0.4,
        returned := some (p, none) } := by
  have hc : classify (toLower p.Status) = .success := by rw [h]; decide
  rw [pollPrediction_settled sink interval steps p (by rw [hc]; decide)]
  have hp : renderProgress (toLower p.Status) = 0.4 := by
    rw [h]; simp [toLower_succeeded, renderProgress]
  simp [pollIteration, hc, hp]

/-- A property of render events, waits and fetches holds of every action of the
poller. -/
theorem poll_trace_forall (P : Action → Prop) (hemit : ∀ e : Event, e.Stage = "render" → P (.emit e))
    (hwait : ∀ d, P (.wait d)) (hfetch : ∀ id, P (.fetchPrediction id))
    (sink : Bool) (interval : Int) (steps : List PollStep) :
    ∀ (p : Prediction), ∀ a ∈ (pollPrediction sink interval steps p).trace, P a := by
  have hsend : ∀ (p : Prediction), ∀ a ∈ send sink "render" ("Rendering (" ++ p.Status ++ ")")
      (renderProgress (toLower p.Status)), P a := by
    intro p a ha
    cases sink
    · simp [send] at ha
    · simp only [send, if_true, List.mem_singleton] at ha
      rw [ha]; exact hemit _ rfl
  induction steps with
  | nil =>
    intro p a ha
    rcases pollPrediction_pass sink interval [] p with h | h | h | h | h
    · obtain ⟨-, ht, -⟩ := h
      rw [ht] at ha
      exact hsend p a ha
    · obtain ⟨-, -, ht, -⟩ := h
      rw [ht] at ha
      rcases List.mem_append.mp ha with h | h
      · exact hsend p a h
      · rw [List.mem_singleton.mp h]; exact hwait _
    · obtain ⟨-, e', rest, hs, -⟩ := h; cases hs
    · obtain ⟨-, f, rest, err, hs, -⟩ := h; cases hs
    · obtain ⟨-, f, rest, next, hs, -⟩ := h; cases hs
  | cons step rest ih =>
    intro p a ha
    rcases pollPrediction_pass sink interval (step :: rest) p with h | h | h | h | h
    · obtain ⟨-, ht, -⟩ := h
      rw [ht] at ha
      exact hsend p a ha
    · obtain ⟨-, hs, -⟩ := h; cases hs
    · obtain ⟨-, e', rest', -, ht, -⟩ := h
      rw [ht] at ha
      rcases List.mem_append.mp ha with h | h
      · exact hsend p a h
      · rw [List.mem_singleton.mp h]; exact hwait _
    · obtain ⟨-, f, rest', err, -, -, ht, -⟩ := h
      rw [ht] at ha
      rcases List.mem_append.mp ha with h | h
      · exact hsend p a h
      · simp only [List.mem_cons, List.mem_singleton, List.not_mem_nil, or_false] at h
        rcases h with h | h
        · rw [h]; exact hwait _
        · rw [h]; exact hfetch _
    · obtain ⟨-, f, rest', next, hs, -, ht, -⟩ := h
      cases hs
      rw [ht] at ha
      rcases List.mem_append.mp ha with h | h
      · rcases List.mem_append.mp h with h | h
        · exact hsend p a h
        · simp only [List.mem_cons, List.mem_singleton, List.not_mem_nil, or_false] at h
          rcases h with h | h
          · rw [h]; exact hwait _
          · rw [h]; exact hfetch _
      · exact ih next a h

/-- Every action of the poller is a render event, a wait or a fetch. -/
theorem poll_trace_actions (sink : Bool) (interval : Int) (steps : List PollStep)
    (p : Prediction) : ∀ a ∈ (pollPrediction sink interval steps p).trace, pollAction a :=
  poll_trace_forall pollAction (fun _ h => h) (fun _ => trivial) (fun _ => trivial) sink
    interval steps p

/-- The stages from download on add only late actions to the trace. -/
theorem runAfterPoll_late (w : World) (runner : Runner) (input : JobInput) (sink : Bool)
    (transcript transcriptPath : String) (analysis : Analysis) (prediction : Prediction)
    (before : List Action) :
    ∀ a ∈ (runAfterPoll w runner input sink transcript transcriptPath analysis prediction
      before).trace, a ∈ before ∨ lateAction runner input a := by
  have hs : ∀ (stage message : String) (progress : ℚ), stage = "download" ∨ stage = "done" →
      ∀ a ∈ send sink stage message progress, a ∈ before ∨ lateAction runner input a := by
    intro stage message progress hst a ha
    cases sink
    · simp [send] at ha
    · simp only [send, if_true, List.mem_singleton] at ha
      rw [ha]; exact Or.inr hst
  have hb : ∀ a ∈ before, a ∈ before ∨ lateAction runner input a := fun a ha => Or.inl ha
  simp only [runAfterPoll]
  repeat' split
  all_goals
    simp only [List.forall_mem_append, List.forall_mem_singleton]
    repeat' apply And.intro
    all_goals first
      | exact hb
      | exact hs _ _ _ (Or.inl rfl)
      | exact hs _ _ _ (Or.inr rfl)
      | (refine Or.inr ?_; simp [lateAction, *])

/-- Two early traces make one. -/
theorem early_append {w : World} {runner : Runner} {input : JobInput} {l₁ l₂ : List Action}
    (h₁ : Early w runner input l₁) (h₂ : Early w runner input l₂) :
    Early w runner input (l₁ ++ l₂) := by
  intro a ha
  rcases List.mem_append.mp ha with h | h
  · exact h₁ a h
  · exact h₂ a h

/-- An early action makes an early trace. -/
theorem early_single (w : World) (runner : Runner) (input : JobInput) (a : Action)
    (h : earlyAction w runner input a) : Early w runner input [a] := by
  intro x hx
  rw [List.mem_singleton.mp hx]; exact h

/-- The events of the first five stages are early actions. -/
theorem early_send (w : World) (runner : Runner) (input : JobInput) (sink : Bool)
    (stage message : String) (progress : ℚ)
    (h : stage ∈ ["validate", "enhance", "transcribe", "analyze", "submit"]) :
    Early w runner input (send sink stage message progress) := by
  intro a ha
  cases sink
  · simp [send] at ha
  · simp only [send, if_true, List.mem_singleton] at ha
    rw [ha]; exact h

/-- The transcript event is an early action. -/
theorem early_sendTranscript (w : World) (runner : Runner) (input : JobInput) (sink : Bool)
    (message transcript transcriptPath : String) (progress : ℚ) :
    Early w runner input
      (sendTranscript sink "transcribe" message transcript transcriptPath progress) := by
  intro a ha
  cases sink
  · simp [sendTranscript] at ha
  · simp only [sendTranscript, if_true, List.mem_singleton] at ha
    rw [ha]; simp [earlyAction]

/-- From the analyze stage on, a run goes one of the two ways of `Structured`. -/
theorem runAfterTranscribe_structured (w : World) (runner : Runner) (client : ReplicateClient)
    (input : JobInput) (sink : Bool) (enhancedPath transcript transcriptPath : String)
    (before : List Action) (hrep : runner.Replicate = some client)
    (hb : Early w runner input before)
    (he : runner.ElevenLabs = none → enhancedPath = input.AudioPath) :
    Structured w runner input sink
      (runAfterTranscribe w runner client input sink enhancedPath transcript transcriptPath
        before) := by
  have han := early_append (early_append hb
    (early_send w runner input sink "analyze" "Analyzing audio" 0.36 (by decide)))
    (early_single w runner input (.analyze runner.FFmpegPath input.AudioPath) ⟨rfl, rfl⟩)
  cases ha : w.analyze runner.FFmpegPath input.AudioPath with
  | error err =>
    have hr : runAfterTranscribe w runner client input sink enhancedPath transcript
        transcriptPath before =
          { trace := before ++ send sink "analyze" "Analyzing audio" 0.36
              ++ [.analyze runner.FFmpegPath input.AudioPath],
            returned := some (Result.zero, some err) } := by
      simp [runAfterTranscribe, ha]
    rw [hr]
    exact Or.inl ⟨⟨err, rfl⟩, han⟩
  | ok analysis =>
    have hsb := early_append han
      (early_send w runner input sink "submit" "Submitting to Replicate" 0.4 (by decide))
    have hshape : SubmitShape runner input
        (predictionRequest (buildPrompt input enhancedPath transcript analysis) input)
        runner.PreferWait := ⟨rfl, enhancedPath, transcript, analysis, rfl, he⟩
    cases hsub : w.submitPrediction client
        (predictionRequest (buildPrompt input enhancedPath transcript analysis) input)
        runner.PreferWait with
    | error err =>
      have hr : runAfterTranscribe w runner client input sink enhancedPath transcript
          transcriptPath before =
            { trace := before ++ send sink "analyze" "Analyzing audio" 0.36
                ++ [.analyze runner.FFmpegPath input.AudioPath]
                ++ send sink "submit" "Submitting to Replicate" 0.4
                ++ [.submitPrediction (predictionRequest
                    (buildPrompt input enhancedPath transcript analysis) input)
                    runner.PreferWait],
              returned := some (Result.zero, some err) } := by
        simp [runAfterTranscribe, ha, hsub]
      rw [hr]
      exact Or.inl ⟨⟨err, rfl⟩, early_append hsb (early_single w runner input _
        ⟨by simp [submitted, hrep, hsub], hshape⟩)⟩
    | ok prediction =>
      have hs : submitted w runner (.submitPrediction (predictionRequest
          (buildPrompt input enhancedPath transcript analysis) input) runner.PreferWait) =
          some prediction := by simp [submitted, hrep, hsub]
      refine Or.inr ⟨_, _, prediction, transcript, transcriptPath, analysis, hsb, hshape, hs, ?_⟩
      cases hp : (pollPrediction sink runner.PollInterval w.poll prediction).returned with
      | none =>
        refine Or.inl ⟨rfl, ?_⟩
        simp [runAfterTranscribe, ha, hsub, hp]
      | some pr =>
        obtain ⟨polled, perr⟩ := pr
        cases perr with
        | some err =>
          refine Or.inr (Or.inl ⟨polled, err, rfl, ?_⟩)
          simp [runAfterTranscribe, ha, hsub, hp]
        | none =>
          refine Or.inr (Or.inr ⟨polled, rfl, ?_⟩)
          simp [runAfterTranscribe, ha, hsub, hp]

/-- A run goes one of the two ways of `Structured`. -/
theorem run_structured (w : World) (runner : Runner) (input : JobInput) (sink : Bool) :
    Structured w runner input sink (Run w runner input sink) := by
  cases hrep : runner.Replicate with
  | none =>
    have hr : Run w runner input sink = { trace := [], returned := some (Result.zero,
        some (.errorf "replicate client not configured")) } := by simp [Run, hrep]
    rw [hr]
    exact Or.inl ⟨⟨_, rfl⟩, by intro a ha; cases ha⟩
  | some client =>
    have hv := early_append
      (early_send w runner input sink "validate" "Validating audio" 0.05 (by decide))
      (early_single w runner input (.validateAudioPath input.AudioPath) rfl)
    cases hval : w.validateAudioPath input.AudioPath with
    | some err =>
      have hr : Run w runner input sink =
          { trace := send sink "validate" "Validating audio" 0.05
              ++ [.validateAudioPath input.AudioPath],
            returned := some (Result.zero, some err) } := by simp [Run, hrep, hval]
      rw [hr]
      exact Or.inl ⟨⟨err, rfl⟩, hv⟩
    | none =>
      have hve := early_append hv
        (early_send w runner input sink "enhance" "Enhancing audio" 0.2 (by decide))
      cases henh : (match runner.ElevenLabs with
        | none => (([] : List Action), (Except.ok input.AudioPath : Except GoError String))
        | some eleven => ([Action.enhanceAudio input.AudioPath input.OutputDir],
            w.enhanceAudio eleven input.AudioPath input.OutputDir)) with
      | mk enhanceTrace outcome =>
        have hen : Early w runner input enhanceTrace ∧
            (runner.ElevenLabs = none → outcome = .ok input.AudioPath) := by
          cases hel : runner.ElevenLabs with
          | none =>
            rw [hel] at henh; cases henh
            exact ⟨(by intro a ha; cases ha), fun _ => rfl⟩
          | some eleven =>
            rw [hel] at henh; cases henh
            exact ⟨early_single w runner input _ ⟨rfl, rfl, by rw [hel]; simp⟩,
              fun h => by cases h⟩
        have hall := early_append hve hen.1
        cases outcome with
        | error err =>
          rw [run_enhance_failed w runner input sink client enhanceTrace err hrep hval henh]
          exact Or.inl ⟨⟨err, rfl⟩, hall⟩
        | ok enhancedPath =>
          have he : runner.ElevenLabs = none → enhancedPath = input.AudioPath := by
            intro h
            have := hen.2 h
            cases this; rfl
          rw [run_after_enhance w runner input sink client enhanceTrace enhancedPath hrep hval
            henh]
          cases ht : runner.Transcribe.Enabled with
          | false =>
            simp only [Bool.false_eq_true, if_false]
            exact runAfterTranscribe_structured w runner client input sink enhancedPath "" "" _
              hrep hall he
          | true =>
            simp only [if_true]
            have htc := early_append (early_append hall
              (early_send w runner input sink "transcribe" "Transcribing audio" 0.3
                (by decide)))
              (early_single w runner input (.transcribe input.AudioPath input.OutputDir)
                ⟨rfl, rfl⟩)
            cases htr : w.transcribe runner.Transcribe input.AudioPath input.OutputDir with
            | error err => exact Or.inl ⟨⟨err, rfl⟩, htc⟩
            | ok tr =>
              obtain ⟨transcript, transcriptPath⟩ := tr
              exact runAfterTranscribe_structured w runner client input sink enhancedPath
                transcript transcriptPath _ hrep
                (early_append htc (early_sendTranscript w runner input sink
                  "Transcript ready" transcript transcriptPath 0.35)) he

/-- The events of a trace are its emit actions. -/
theorem mem_events (e : Event) (l : List Action) : e ∈ events l ↔ .emit e ∈ l := by
  induction l with
  | nil => simp [events]
  | cons x rest ih => cases x <;> simp [events, ih]

/-- An early action is no successful submit. -/
theorem submitted_early (w : World) (runner : Runner) (input : JobInput) (a : Action)
    (h : earlyAction w runner input a) : submitted w runner a = none := by
  cases a <;> first
    | rfl
    | exact h.1

/-- An action of the poller is no submit. -/
theorem submitted_poll (w : World) (runner : Runner) (a : Action) (h : pollAction a) :
    submitted w runner a = none := by
  cases a <;> first
    | rfl
    | exact absurd h id

/-- A late action is no submit. -/
theorem submitted_late (w : World) (runner : Runner) (input : JobInput) (a : Action)
    (h : lateAction runner input a) : submitted w runner a = none := by
  cases a <;> first
    | rfl
    | exact absurd h id

/-- What the actions of a run are: early actions, one successful submit, actions
of the poller, late actions. -/
theorem run_actions (w : World) (runner : Runner) (input : JobInput) (sink : Bool) :
    ∀ a ∈ (Run w runner input sink).trace,
      earlyAction w runner input a ∨
        (∃ request, a = .submitPrediction request runner.PreferWait ∧
          SubmitShape runner input request runner.PreferWait) ∨
        pollAction a ∨ lateAction runner input a := by
  intro a ha
  have hmid : ∀ (early : List Action) (request : PredictionRequest) (p : Prediction),
      Early w runner input early → SubmitShape runner input request runner.PreferWait →
      a ∈ early ++ .submitPrediction request runner.PreferWait ::
        (pollPrediction sink runner.PollInterval w.poll p).trace →
      earlyAction w runner input a ∨
        (∃ request, a = .submitPrediction request runner.PreferWait ∧
          SubmitShape runner input request runner.PreferWait) ∨
        pollAction a ∨ lateAction runner input a := by
    intro early request p hearly hshape hmem
    rcases List.mem_append.mp hmem with h | h
    · exact Or.inl (hearly a h)
    · rcases List.mem_cons.mp h with h | h
      · exact Or.inr (Or.inl ⟨request, h, hshape⟩)
      · exact Or.inr (Or.inr (Or.inl (poll_trace_actions sink _ _ p a h)))
  rcases run_structured w runner input sink with ⟨-, hearly⟩ | h
  · exact Or.inl (hearly a ha)
  · obtain ⟨early, request, p, transcript, transcriptPath, analysis, hearly, hshape, -, h⟩ := h
    rcases h with ⟨-, hr⟩ | ⟨q, err, -, hr⟩ | ⟨q, -, hr⟩
    · rw [hr] at ha; exact hmid early request p hearly hshape ha
    · rw [hr] at ha; exact hmid early request p hearly hshape ha
    · rw [hr] at ha
      rcases runAfterPoll_late w runner input sink transcript transcriptPath analysis q _ a ha
        with h | h
      · exact hmid early request p hearly hshape h
      · exact Or.inr (Or.inr (Or.inr h))

/-- A run whose poller returned `q` without error goes on with `runAfterPoll`
on `q`, after a trace of early actions, the submit call and the trace of the
poller. -/
theorem run_polled (w : World) (runner : Runner) (input : JobInput) (sink : Bool) :
    ∀ a ∈ (Run w runner input sink).trace, ∀ p q, submitted w runner a = some p →
      (pollPrediction sink runner.PollInterval w.poll p).returned = some (q, none) →
      ∃ early transcript transcriptPath analysis,
        Early w runner input early ∧
          Run w runner input sink =
            runAfterPoll w runner input sink transcript transcriptPath analysis q
              (early ++ a :: (pollPrediction sink runner.PollInterval w.poll p).trace) := by
  intro a ha p q hsub hpoll
  rcases run_structured w runner input sink with ⟨-, hearly⟩ | h
  · rw [submitted_early w runner input a (hearly a ha)] at hsub; cases hsub
  · obtain ⟨early, request, p', transcript, transcriptPath, analysis, hearly, hshape, hs, h⟩ := h
    have hmid : a ∈ early ++ .submitPrediction request runner.PreferWait ::
        (pollPrediction sink runner.PollInterval w.poll p').trace →
        a = .submitPrediction request runner.PreferWait ∧ p' = p := by
      intro hmem
      rcases List.mem_append.mp hmem with h | h
      · rw [submitted_early w runner input a (hearly a h)] at hsub; cases hsub
      · rcases List.mem_cons.mp h with heq | hin
        · rw [heq, hs] at hsub
          exact ⟨heq, Option.some.inj hsub⟩
        · rw [submitted_poll w runner a (poll_trace_actions sink _ _ p' a hin)] at hsub
          cases hsub
    rcases h with ⟨hnone, hr⟩ | ⟨q', err, herr, hr⟩ | ⟨q', hq, hr⟩
    · rw [hr] at ha
      obtain ⟨-, hp⟩ := hmid ha
      rw [hp, hpoll] at hnone; cases hnone
    · rw [hr] at ha
      obtain ⟨-, hp⟩ := hmid ha
      rw [hp, hpoll] at herr; cases herr
    · have hin : a ∈ early ++ .submitPrediction request runner.PreferWait ::
          (pollPrediction sink runner.PollInterval w.poll p').trace := by
        rw [hr] at ha
        rcases runAfterPoll_late w runner input sink transcript transcriptPath analysis q' _ a
          ha with h | h
        · exact h
        · rw [submitted_late w runner input a h] at hsub; cases hsub
      obtain ⟨ha', hp⟩ := hmid hin
      subst hp
      rw [hpoll] at hq
      cases hq
      exact ⟨early, transcript, transcriptPath, analysis, hearly, by rw [hr, ha']⟩

/-! ## Lemmas on the prompt -/

/-- The runes of `String.intercalate.go`. -/
theorem intercalate_go_data (sep : String) (parts : List String) :
    ∀ acc : String, (String.intercalate.go acc sep parts).data =
      acc.data ++ (parts.map (fun a => sep.data ++ a.data)).flatten := by
  induction parts with
  | nil => intro acc; simp [String.intercalate.go]
  | cons a rest ih =>
    intro acc
    simp [String.intercalate.go, ih, String.data_append, List.append_assoc]

/-- The runes of a joined list that has a head. -/
theorem join_cons_data (a : String) (rest : List String) (sep : String) :
    (join (a :: rest) sep).data =
      a.data ++ (rest.map (fun x => sep.data ++ x.data)).flatten := by
  simp [join, String.intercalate, intercalate_go_data]

/-- A joined list starts with its first element. -/
theorem join_startsWith (a : String) (rest : List String) (sep : String) :
    StartsWith (join (a :: rest) sep) a := by
  unfold StartsWith
  rw [join_cons_data]
  exact List.prefix_append _ _

/-- Every element of a joined list occurs in the result. -/
theorem join_contains (parts : List String) (sep x : String) (h : x ∈ parts) :
    Contains (join parts sep) x := by
  unfold Contains
  cases parts with
  | nil => cases h
  | cons a rest =>
    rw [join_cons_data]
    rcases List.mem_cons.mp h with h | h
    · rw [h]; exact (List.prefix_append _ _).isInfix
    · refine List.IsInfix.trans ?_ (List.suffix_append _ _).isInfix
      obtain ⟨s, t, hst⟩ := List.append_of_mem h
      rw [hst]
      simp only [List.map_append, List.map_cons, List.flatten_append, List.flatten_cons]
      refine ⟨(s.map (fun x => sep.data ++ x.data)).flatten ++ sep.data,
        (t.map (fun x => sep.data ++ x.data)).flatten, ?_⟩
      simp [List.append_assoc]

/-- A joined list ends with its last element. -/
theorem join_endsWith (init : List String) (z sep : String) :
    EndsWith (join (init ++ [z]) sep) z := by
  unfold EndsWith
  cases init with
  | nil => simp [join, String.intercalate, String.intercalate.go]
  | cons a rest =>
    rw [List.cons_append, join_cons_data]
    simp only [List.map_append, List.map_cons, List.map_nil, List.flatten_append,
      List.flatten_cons, List.flatten_nil, List.append_nil]
    refine ⟨a.data ++ ((rest.map (fun x => sep.data ++ x.data)).flatten ++ sep.data), ?_⟩
    simp [List.append_assoc]

/-- What occurs in an occurrence occurs in the whole. -/
theorem contains_trans {s t u : String} (h₁ : Contains s t) (h₂ : Contains t u) :
    Contains s u :=
  List.IsInfix.trans h₂ h₁

/-- A string occurs in what is put before it. -/
theorem contains_append_right (a b : String) : Contains (a ++ b) b := by
  unfold Contains
  rw [String.data_append]
  exact (List.suffix_append _ _).isInfix

/-- The prompt is the join of the fragments. -/
theorem buildPrompt_eq_join (input : JobInput) (enhancedPath transcript : String)
    (analysis : Analysis) :
    buildPrompt input enhancedPath transcript analysis =
      join (promptFragments input enhancedPath transcript analysis) ", " := by
  unfold buildPrompt promptFragments styleFragment aspectFragment lyricsFragment
    transcriptFragment audioSourceFragment
  by_cases h1 : input.StylePreset = "" <;> by_cases h2 : input.AspectRatio = "" <;>
    by_cases h3 : trimSpace input.Lyrics = "" <;> by_cases h4 : trimSpace transcript = "" <;>
    by_cases h5 : enhancedPath = "" <;> simp [h1, h2, h3, h4, h5]

/-- A tempo of at most 90 is not a tempo of at least 120. -/
theorem not_ge_120_of_le_90 (x : Float64) (h : x.le (.fin 90) = true) :
    x.ge (.fin 120) = false := by
  cases x with
  | nan => rfl
  | negInf => rfl
  | posInf => simp [Float64.le, Float64.ge] at h
  | fin a =>
    simp only [Float64.le, Float64.ge, decide_eq_true_eq] at h
    simp only [Float64.ge, decide_eq_false_iff_not, not_le]
    linarith

/-- The mood fragments when the tempo is at least 120. -/
theorem vibe_fast (analysis : Analysis) (h : analysis.BPM.ge (.fin 120) = true) :
    "fast paced" ∈ vibeFromAnalysis analysis := by
  simp [vibeFromAnalysis, h]

/-- The mood fragments when the tempo is in (0, 90]. -/
theorem vibe_slow (analysis : Analysis) (h₁ : analysis.BPM.gt (.fin 0) = true)
    (h₂ : analysis.BPM.le (.fin 90) = true) :
    "slow motion" ∈ vibeFromAnalysis analysis := by
  simp [vibeFromAnalysis, not_ge_120_of_le_90 _ h₂, h₁, h₂]

/-- A mood fragment is a fragment of the prompt. -/
theorem vibe_in_prompt (input : JobInput) (enhancedPath transcript : String)
    (analysis : Analysis) (x : String) (h : x ∈ vibeFromAnalysis analysis) :
    Contains (buildPrompt input enhancedPath transcript analysis) x := by
  rw [buildPrompt_eq_join]
  apply join_contains
  simp [promptFragments, h]

/-- The loudness fragments hold neither tempo word. -/
theorem vibe_without_tempo (analysis : Analysis) (h₁ : analysis.BPM.ge (.fin 120) = false)
    (h₂ : (analysis.BPM.gt (.fin 0) && analysis.BPM.le (.fin 90)) = false) :
    ∀ f ∈ vibeFromAnalysis analysis, ¬ Contains f "fast paced" ∧ ¬ Contains f "slow motion" := by
  intro f hf
  simp only [vibeFromAnalysis, h₁, h₂, Bool.false_eq_true, if_false, List.nil_append] at hf
  split at hf
  · simp only [List.mem_cons, List.mem_singleton, List.not_mem_nil, or_false] at hf
    rcases hf with h | h | h <;> rw [h] <;> decide
  · split at hf
    · simp only [List.mem_cons, List.mem_singleton, List.not_mem_nil, or_false] at hf
      rcases hf with h | h | h <;> rw [h] <;> decide
    · cases hf

/-- A loudness of at most -25 is negative. -/
theorem lt_zero_of_le_neg25 (x : Float64) (h : x.le (.fin (-25)) = true) :
    x.lt (.fin 0) = true := by
  cases x with
  | nan => simp [Float64.le, Float64.ge] at h
  | negInf => rfl
  | posInf => simp [Float64.le, Float64.ge] at h
  | fin a =>
    simp only [Float64.le, Float64.ge, decide_eq_true_eq] at h
    simp only [Float64.lt, Float64.gt, decide_eq_true_eq]
    linarith

/-- The tempo fragments are neither "intense" nor "minimalist". -/
theorem tempo_fragments_not_loud (analysis : Analysis) (x : String)
    (hx : x = "intense" ∨ x = "minimalist")
    (h : x ∈ (if analysis.BPM.ge (.fin 120) then ["fast paced", "dynamic cuts", "high energy"]
      else if analysis.BPM.gt (.fin 0) && analysis.BPM.le (.fin 90) then
        ["slow motion", "smooth transitions", "ambient"]
      else ([] : List String))) : False := by
  split at h
  · rcases hx with hx | hx <;> rw [hx] at h <;> simp at h
  · split at h
    · rcases hx with hx | hx <;> rw [hx] at h <;> simp at h
    · cases h

/-- Every lower-case form of the case tables is left unchanged by `unicode.ToLower`. -/
theorem lowerRanges_settled : lowerRanges.all (fun r => r.settled) = true := by decide!

/-- No run of the case tables holds white space, nor does its lower-case form. -/
theorem lowerRanges_spaceFree : lowerRanges.all (fun r => r.spaceFree) = true := by decide!

/-- The code point of `Char.ofNat` on a Unicode scalar value. -/
theorem toNat_ofNat_valid (m : Nat) (h : m < 0xD800 ∨ (0xDFFF < m ∧ m < 0x110000)) :
    (Char.ofNat m).toNat = m := by
  have hv : m.isValidChar := h
  simp only [Char.ofNat, hv, dite_true, Char.ofNatAux, Char.toNat]
  rfl

/-- The two ways `unicode.ToLower` goes above ASCII: no run covers the code point, which
is kept, or the first run that covers it gives the form. -/
theorem unicodeToLower_cases (n : Nat) :
    (unicodeToLower n = n ∧ ∀ q ∈ lowerRanges, q.covers n = false) ∨
    ∃ r ∈ lowerRanges, r.covers n = true ∧ unicodeToLower n = r.target + (n - r.lo) := by
  unfold unicodeToLower
  cases h : lowerRanges.find? (fun r => r.covers n) with
  | none =>
    left
    refine ⟨rfl, ?_⟩
    intro q hq
    have := List.find?_eq_none.mp h q hq
    simpa using this
  | some r =>
    right
    have hc := List.find?_some h
    exact ⟨r, List.mem_of_find?_eq_some h, hc, rfl⟩

/-- What the test `separated` ensures. -/
theorem separated_sound (r q : CaseRange) (n : Nat) (hs : r.separated q = true)
    (hr : r.covers n = true) : q.covers (r.target + (n - r.lo)) = false := by
  obtain ⟨lo, hi, alt, t⟩ := r
  obtain ⟨lo2, hi2, alt2, t2⟩ := q
  cases alt <;> cases alt2 <;>
    simp only [CaseRange.separated, CaseRange.covers, CaseRange.last, Bool.or_eq_true,
      Bool.and_eq_true, decide_eq_true_eq, Bool.not_true, Bool.not_false, Bool.false_or,
      Bool.true_or, Bool.or_false, Bool.or_true, Bool.and_true, Bool.and_false, beq_iff_eq,
      Bool.false_eq_true, or_false, false_or, and_true, true_and, false_and, and_false,
      Bool.and_eq_false_iff, Bool.or_eq_false_iff, decide_eq_false_iff_not, not_le,
      beq_eq_false_iff_ne, ne_eq, Bool.true_eq_false, not_false_eq_true] at hs hr ⊢ <;>
    omega

/-- A lower-case form of the tables is an ASCII rune that is no capital letter, or a
scalar value above ASCII that no run covers. -/
theorem settled_sound (r : CaseRange) (n : Nat) (hr : r ∈ lowerRanges)
    (hc : r.covers n = true) :
    (r.target + (n - r.lo) < 128 ∧ ¬ (65 ≤ r.target + (n - r.lo) ∧ r.target + (n - r.lo) ≤ 90)) ∨
    (128 ≤ r.target + (n - r.lo) ∧
      (r.target + (n - r.lo) < 0xD800 ∨
        (0xDFFF < r.target + (n - r.lo) ∧ r.target + (n - r.lo) < 0x110000)) ∧
      ∀ q ∈ lowerRanges, q.covers (r.target + (n - r.lo)) = false) := by
  have hs := List.all_eq_true.mp lowerRanges_settled r hr
  simp only [CaseRange.settled, Bool.or_eq_true, Bool.and_eq_true, decide_eq_true_eq,
    List.all_eq_true] at hs
  have hcov := hc
  simp only [CaseRange.covers, Bool.and_eq_true, decide_eq_true_eq] at hcov
  simp only [CaseRange.last] at hs
  rcases hs with hs | ⟨⟨h128, hvalid⟩, hsep⟩
  · left; omega
  · right
    refine ⟨by omega, by omega, ?_⟩
    intro q hq
    exact separated_sound r q n (hsep q hq) hc

/-- A rune within a stretch without white space is no white space. -/
theorem inGap_sound (a b : Nat) (h : inGap a b = true) (c : Char) (h₁ : a ≤ c.toNat)
    (h₂ : c.toNat ≤ b) : isSpace c = false := by
  simp only [inGap, spaceGaps, List.any_cons, List.any_nil, Bool.or_false, Bool.or_eq_true,
    Bool.and_eq_true, decide_eq_true_eq] at h
  simp only [isSpace, Bool.decide_or, Bool.decide_and, Bool.or_eq_false_iff,
    Bool.and_eq_false_iff, decide_eq_false_iff_not]
  rcases h with h | h | h | h | h <;> omega

/-- Neither a rune the tables map nor its lower-case form is white space. -/
theorem spaceFree_sound (r : CaseRange) (n : Nat) (hr : r ∈ lowerRanges)
    (hc : r.covers n = true) (c d : Char) (hcn : c.toNat = n)
    (hd : d.toNat = r.target + (n - r.lo)) : isSpace c = false ∧ isSpace d = false := by
  have hs := List.all_eq_true.mp lowerRanges_spaceFree r hr
  simp only [CaseRange.spaceFree, CaseRange.last, Bool.and_eq_true] at hs
  simp only [CaseRange.covers, Bool.and_eq_true, decide_eq_true_eq] at hc
  exact ⟨inGap_sound _ _ hs.1 c (by omega) (by omega),
    inGap_sound _ _ hs.2 d (by omega) (by omega)⟩

/-- Lowering a rune twice is lowering it once. -/
theorem toLowerRune_idem (c : Char) : toLowerRune (toLowerRune c) = toLowerRune c := by
  by_cases h : c.toNat < 128
  · by_cases hu : 65 ≤ c.toNat ∧ c.toNat ≤ 90
    · have h2 : (Char.ofNat (c.toNat + 32)).toNat = c.toNat + 32 :=
        toNat_ofNat_valid _ (by omega)
      have e1 : toLowerRune c = Char.ofNat (c.toNat + 32) := by simp [toLowerRune, h, hu]
      rw [e1]
      have h3 : (Char.ofNat (c.toNat + 32)).toNat < 128 := by omega
      have h4 : ¬ (65 ≤ (Char.ofNat (c.toNat + 32)).toNat ∧
          (Char.ofNat (c.toNat + 32)).toNat ≤ 90) := by omega
      simp only [toLowerRune, h3, h4, if_true, if_false]
    · have e1 : toLowerRune c = c := by simp [toLowerRune, h, hu]
      rw [e1, e1]
  · have e1 : toLowerRune c = Char.ofNat (unicodeToLower c.toNat) := by simp [toLowerRune, h]
    rcases unicodeToLower_cases c.toNat with ⟨hfix, -⟩ | ⟨r, hr, hc, hval⟩
    · rw [e1, hfix, Char.ofNat_toNat, e1, hfix, Char.ofNat_toNat]
    · rw [e1, hval]
      rcases settled_sound r c.toNat hr hc with ⟨hlt, hnu⟩ | ⟨hge, hvalid, hfree⟩
      · have h2 := toNat_ofNat_valid (r.target + (c.toNat - r.lo)) (by omega)
        simp only [toLowerRune, h2, hlt, hnu, if_true, if_false]
      · have h2 := toNat_ofNat_valid (r.target + (c.toNat - r.lo)) hvalid
        have hn : ¬ (r.target + (c.toNat - r.lo) < 128) := by omega
        simp only [toLowerRune, h2]
        rw [if_neg hn]
        rcases unicodeToLower_cases (r.target + (c.toNat - r.lo)) with ⟨hfix, -⟩ | ⟨q, hq, hqc, -⟩
        · rw [hfix]
        · rw [hfree q hq] at hqc; cases hqc

/-- Lowering a rune does not change whether it is white space. -/
theorem isSpace_toLowerRune (c : Char) : isSpace (toLowerRune c) = isSpace c := by
  by_cases h : c.toNat < 128
  · by_cases hu : 65 ≤ c.toNat ∧ c.toNat ≤ 90
    · have h2 : (Char.ofNat (c.toNat + 32)).toNat = c.toNat + 32 :=
        toNat_ofNat_valid _ (by omega)
      have e1 : toLowerRune c = Char.ofNat (c.toNat + 32) := by simp [toLowerRune, h, hu]
      rw [e1]
      have hl : isSpace (Char.ofNat (c.toNat + 32)) = false := by
        simp only [isSpace, h2, Bool.decide_or, Bool.decide_and, Bool.or_eq_false_iff,
          Bool.and_eq_false_iff, decide_eq_false_iff_not]
        omega
      have hr : isSpace c = false := by
        simp only [isSpace, Bool.decide_or, Bool.decide_and, Bool.or_eq_false_iff,
          Bool.and_eq_false_iff, decide_eq_false_iff_not]
        omega
      rw [hl, hr]
    · have e1 : toLowerRune c = c := by simp [toLowerRune, h, hu]
      rw [e1]
  · have e1 : toLowerRune c = Char.ofNat (unicodeToLower c.toNat) := by simp [toLowerRune, h]
    rcases unicodeToLower_cases c.toNat with ⟨hfix, -⟩ | ⟨r, hr, hc, hval⟩
    · rw [e1, hfix, Char.ofNat_toNat]
    · rw [e1, hval]
      have hv : r.target + (c.toNat - r.lo) < 0xD800 ∨
          (0xDFFF < r.target + (c.toNat - r.lo) ∧ r.target + (c.toNat - r.lo) < 0x110000) := by
        rcases settled_sound r c.toNat hr hc with ⟨hlt, -⟩ | ⟨-, hvalid, -⟩
        · omega
        · exact hvalid
      have h2 := toNat_ofNat_valid _ hv
      obtain ⟨hsc, hsd⟩ := spaceFree_sound r c.toNat hr hc c _ rfl h2
      rw [hsc, hsd]

/-- Lowering a string twice is lowering it once. -/
theorem toLower_idem (s : String) : toLower (toLower s) = toLower s := by
  have h : (toLowerRune ∘ toLowerRune) = toLowerRune := funext toLowerRune_idem
  simp [toLower, h]

/-- Dropping leading white space and lowering can be done in either order. -/
theorem dropWhile_isSpace_map (l : List Char) :
    (l.map toLowerRune).dropWhile isSpace = (l.dropWhile isSpace).map toLowerRune := by
  rw [List.dropWhile_map]
  have : (isSpace ∘ toLowerRune) = isSpace := funext isSpace_toLowerRune
  rw [this]

/-- Trimming and lowering can be done in either order. -/
theorem trimSpace_toLower (s : String) : trimSpace (toLower s) = toLower (trimSpace s) := by
  simp only [trimSpace, toLower]
  rw [dropWhile_isSpace_map, ← List.map_reverse, dropWhile_isSpace_map, List.map_reverse]

/-- Trimming a list of runes at both ends twice is trimming it once. -/
theorem trim_fixed (p : Char → Bool) (l : List Char) :
    ((((l.dropWhile p).reverse.dropWhile p).reverse.dropWhile p).reverse.dropWhile p).reverse
      = ((l.dropWhile p).reverse.dropWhile p).reverse := by
  obtain ⟨x, hx⟩ := List.dropWhile_suffix p (l := (l.dropWhile p).reverse)
  have hd : l.dropWhile p = ((l.dropWhile p).reverse.dropWhile p).reverse ++ x.reverse := by
    have h := congrArg List.reverse hx
    rw [List.reverse_append, List.reverse_reverse] at h
    exact h.symm
  have hA : (((l.dropWhile p).reverse.dropWhile p).reverse).dropWhile p =
      ((l.dropWhile p).reverse.dropWhile p).reverse := by
    cases ht : ((l.dropWhile p).reverse.dropWhile p).reverse with
    | nil => rfl
    | cons a rest =>
      rw [ht] at hd
      have hne : l.dropWhile p ≠ [] := by rw [hd]; simp
      have hh := List.head_dropWhile_not p l hne
      have ha : (l.dropWhile p).head hne = a := by simp [hd]
      rw [ha] at hh
      exact List.dropWhile_cons_of_neg (by simp [hh])
  rw [hA, List.reverse_reverse, List.dropWhile_idempotent]

/-- Trimming a string twice is trimming it once. -/
theorem trimSpace_idem (s : String) : trimSpace (trimSpace s) = trimSpace s := by
  simp only [trimSpace]
  rw [trim_fixed]

/-- The mood fragments of the zero analysis: a max loudness of 0 counts as intense. -/
theorem vibe_zero :
    vibeFromAnalysis Analysis.zero = ["intense", "vibrant colors", "high contrast"] := by
  simp [vibeFromAnalysis, Analysis.zero, Float64.ge, Float64.gt, Float64.le, Float64.lt]

/-- What the enhancement call answers does not matter from the analyze stage on. -/
theorem runAfterTranscribe_withEnhanced (w : World) (path : String) (runner : Runner)
    (client : ReplicateClient) (input : JobInput) (sink : Bool)
    (enhancedPath transcript transcriptPath : String) (before : List Action) :
    runAfterTranscribe (withEnhanced w path) runner client input sink enhancedPath transcript
        transcriptPath before =
      runAfterTranscribe w runner client input sink enhancedPath transcript transcriptPath
        before := rfl

/-- From the analyze stage on, the enhanced path matters through the prompt only. -/
theorem runAfterTranscribe_congr (w : World) (runner : Runner) (client : ReplicateClient)
    (input : JobInput) (sink : Bool) (e₁ e₂ transcript transcriptPath : String)
    (before : List Action)
    (h : ∀ analysis, buildPrompt input e₁ transcript analysis =
      buildPrompt input e₂ transcript analysis) :
    runAfterTranscribe w runner client input sink e₁ transcript transcriptPath before =
      runAfterTranscribe w runner client input sink e₂ transcript transcriptPath before := by
  simp only [runAfterTranscribe, h]

/-- The enhanced path enters the prompt through the audio-source fragment only. -/
theorem buildPrompt_audioSource (input : JobInput) (e₁ e₂ transcript : String)
    (analysis : Analysis) (h : audioSourceFragment e₁ = audioSourceFragment e₂) :
    buildPrompt input e₁ transcript analysis = buildPrompt input e₂ transcript analysis := by
  rw [buildPrompt_eq_join, buildPrompt_eq_join]
  simp only [promptFragments, h]

/-- Two runs that differ only in the path the enhancement call returns are the
same when the two paths give the same audio-source fragment. -/
theorem run_withEnhanced (w : World) (runner : Runner) (input : JobInput) (sink : Bool)
    (e₁ e₂ : String) (h : audioSourceFragment e₁ = audioSourceFragment e₂) :
    Run (withEnhanced w e₁) runner input sink = Run (withEnhanced w e₂) runner input sink := by
  cases hrep : runner.Replicate with
  | none => simp [Run, hrep]
  | some client =>
    cases hval : w.validateAudioPath input.AudioPath with
    | some err =>
      have h₁ : (withEnhanced w e₁).validateAudioPath input.AudioPath = some err := hval
      have h₂ : (withEnhanced w e₂).validateAudioPath input.AudioPath = some err := hval
      simp [Run, hrep, h₁, h₂]
    | none =>
      have h₁ : (withEnhanced w e₁).validateAudioPath input.AudioPath = none := hval
      have h₂ : (withEnhanced w e₂).validateAudioPath input.AudioPath = none := hval
      cases hel : runner.ElevenLabs with
      | none =>
        rw [run_after_enhance (withEnhanced w e₁) runner input sink client [] input.AudioPath
            hrep h₁ (by rw [hel]),
          run_after_enhance (withEnhanced w e₂) runner input sink client [] input.AudioPath
            hrep h₂ (by rw [hel])]
        rfl
      | some eleven =>
        rw [run_after_enhance (withEnhanced w e₁) runner input sink client
            [.enhanceAudio input.AudioPath input.OutputDir] e₁ hrep h₁ (by rw [hel]; rfl),
          run_after_enhance (withEnhanced w e₂) runner input sink client
            [.enhanceAudio input.AudioPath input.OutputDir] e₂ hrep h₂ (by rw [hel]; rfl)]
        have hw : ∀ e, (withEnhanced w e).transcribe = w.transcribe := fun _ => rfl
        simp only [hw, runAfterTranscribe_withEnhanced]
        cases runner.Transcribe.Enabled with
        | false =>
          simp only [Bool.false_eq_true, if_false]
          exact runAfterTranscribe_congr w runner client input sink e₁ e₂ "" "" _
            (fun analysis => buildPrompt_audioSource input e₁ e₂ "" analysis h)
        | true =>
          simp only [if_true]
          cases w.transcribe runner.Transcribe input.AudioPath input.OutputDir with
          | error err => rfl
          | ok tr =>
            obtain ⟨transcript, transcriptPath⟩ := tr
            exact runAfterTranscribe_congr w runner client input sink e₁ e₂ transcript
              transcriptPath _
              (fun analysis => buildPrompt_audioSource input e₁ e₂ transcript analysis h)

/-! ## Lemmas on `OutputURL` -/

/-- The loop of `OutputURL` passes over elements that are not strings. -/
theorem firstString_skip (before rest : List Value) (h : ∀ v ∈ before, v.isStr = false) :
    firstString (before ++ rest) = firstString rest := by
  induction before with
  | nil => rfl
  | cons v tail ih =>
    have hv := h v (List.mem_cons_self v tail)
    have ht := ih (fun u hu => h u (List.mem_cons_of_mem v hu))
    cases v <;> first | exact ht | (simp [Value.isStr] at hv)

/-- The loop of `OutputURL` yields the empty string on a list without a string. -/
theorem firstString_none (items : List Value) (h : ∀ v ∈ items, v.isStr = false) :
    firstString items = "" := by
  have hs := firstString_skip items [] h
  rw [List.append_nil] at hs
  exact hs

/-! ## Lemmas on the case of the status -/

/-- One pass of the poll loop on a prediction and on the same prediction with a
lower-cased status: the same actions after the render event, and the same
arm of the `switch`. -/
theorem pollIteration_lower (sink : Bool) (interval : Int) (p : Prediction)
    (step : Option PollStep) (again : Prediction → Ran Prediction) :
    (∃ tail,
      (pollIteration sink interval p step again).trace =
        send sink "render" ("Rendering (" ++ p.Status ++ ")")
          (renderProgress (toLower p.Status)) ++ tail ∧
      (pollIteration sink interval (lowerStatus p) step again).trace =
        send sink "render" ("Rendering (" ++ toLower p.Status ++ ")")
          (renderProgress (toLower p.Status)) ++ tail) ∧
    (classify (toLower p.Status) = .success →
      (pollIteration sink interval p step again).returned = some (p, none) ∧
      (pollIteration sink interval (lowerStatus p) step again).returned =
        some (lowerStatus p, none)) ∧
    (classify (toLower p.Status) = .failure →
      (pollIteration sink interval p step again).returned =
        some (Prediction.zero, some (.errorf "replicate job failed")) ∧
      (pollIteration sink interval (lowerStatus p) step again).returned =
        some (Prediction.zero, some (.errorf "replicate job failed"))) ∧
    (classify (toLower p.Status) = .pending →
      (pollIteration sink interval (lowerStatus p) step again).returned =
        (pollIteration sink interval p step again).returned) ∧
    (classify (toLower p.Status) = .unknown →
      (pollIteration sink interval p step again).returned =
        some (Prediction.zero,
          some (.errorf ("replicate job status unknown: " ++ p.Status))) ∧
      (pollIteration sink interval (lowerStatus p) step again).returned =
        some (Prediction.zero,
          some (.errorf ("replicate job status unknown: " ++ toLower p.Status)))) := by
  simp only [pollIteration, lowerStatus, toLower_idem]
  cases hc : classify (toLower p.Status) with
  | success => exact ⟨⟨[], by simp⟩, by simp⟩
  | failure => exact ⟨⟨[], by simp⟩, by simp⟩
  | unknown => exact ⟨⟨[], by simp⟩, by simp⟩
  | pending =>
    cases step with
    | none => exact ⟨⟨[.wait (effectiveInterval interval)], by simp⟩, by simp⟩
    | some s =>
      cases s with
      | cancelled e => exact ⟨⟨[.wait (effectiveInterval interval)], by simp⟩, by simp⟩
      | elapsed fetch =>
        cases hf : fetch p.ID with
        | error err =>
          exact ⟨⟨[.wait (effectiveInterval interval), .fetchPrediction p.ID], by simp [hf]⟩,
            by simp [hf]⟩
        | ok next =>
          exact ⟨⟨.wait (effectiveInterval interval) :: .fetchPrediction p.ID ::
            (again next).trace, by simp [hf]⟩, by simp [hf]⟩

/-! ## Lemmas on the errors of the subprocess stages -/

/-- An error built without `%w` is no cancellation error and wraps none. -/
theorem errorsIs_errorf (msg : String) (e : CtxErr) :
    errorsIs (.errorf msg) (.ctx e) = false := by
  simp [errorsIs]

/-- An error built with `%w` wraps the cancellation error exactly when its
cause is or wraps it. -/
theorem errorsIs_wrapf (msg : String) (cause : GoError) (e : CtxErr) :
    errorsIs (.wrapf msg cause) (.ctx e) = errorsIs cause (.ctx e) := by
  simp [errorsIs]

/-- The error of `muxAudio` when the ffmpeg subprocess fails. -/
theorem muxAudio_failed (mw : MuxWorld) (pathJoin : String → String → String)
    (ffmpegPath videoPath audioPath outputDir output : String) (cause : GoError)
    (hdir : mw.mkdirAll outputDir = none)
    (hrun : mw.combinedOutput (if ffmpegPath = "" then "ffmpeg" else ffmpegPath)
      (muxArgs videoPath audioPath
        (pathJoin outputDir ("final-" ++ formatInt mw.now.unixNano ++ ".mp4"))) =
      (output, some cause)) :
    muxAudio mw pathJoin ffmpegPath videoPath audioPath outputDir =
      ("", some (.errorf ("ffmpeg mux failed: " ++ trimSpace output))) := by
  simp only [muxArgs] at hrun
  simp only [muxAudio, hdir, hrun]

/-- The error of `Transcribe` when the whisper subprocess fails. -/
theorem transcribeAfterCopy_failed (tw : TranscribeWorld) (pathJoin : String → String → String)
    (config : TranscribeConfig) (workDir workDirAbs outputDir output : String)
    (cause : GoError)
    (hrun : tw.combinedOutput config.DockerPath (whisperArgs config workDirAbs) =
      (output, some cause)) :
    transcribeAfterCopy tw pathJoin config workDir workDirAbs outputDir =
      ("", "", some (.errorf ("whisper transcription failed: " ++ trimSpace output))) := by
  simp only [transcribeAfterCopy, hrun]

/-- The error of `Analyze` when the volume subprocess fails. -/
theorem analyze_failed (aw : AnalyzeWorld) (ffmpegPath inputPath stderr : String)
    (cause : GoError)
    (hrun : aw.run (if ffmpegPath = "" then "ffmpeg" else ffmpegPath) (volumeArgs inputPath) =
      (stderr, some cause)) :
    Analyze aw ffmpegPath inputPath =
      (Analysis.zero, some (.wrapf "volume analysis failed" cause)) := by
  simp only [volumeArgs] at hrun
  simp only [Analyze, hrun]

/-- In a world built with `withAudio` the transcribe stage fails with the error
of `Transcribe`. -/
theorem stageError_transcribe (w : World) (tw : TranscribeWorld) (aw : AnalyzeWorld)
    (runner : Runner) (audioPath outputDir : String) :
    stageError (withAudio w tw aw) runner (.transcribe audioPath outputDir) =
      (Transcribe tw w.filepathJoin runner.Transcribe audioPath outputDir).2.2 := by
  simp only [stageError, withAudio]
  rcases h : Transcribe tw w.filepathJoin runner.Transcribe audioPath outputDir with
    ⟨transcript, transcriptPath, _ | err⟩ <;> rfl

/-- In a world built with `withAudio` the analyze stage fails with the error of
`Analyze`. -/
theorem stageError_analyze (w : World) (tw : TranscribeWorld) (aw : AnalyzeWorld)
    (runner : Runner) (ffmpegPath inputPath : String) :
    stageError (withAudio w tw aw) runner (.analyze ffmpegPath inputPath) =
      (Analyze aw ffmpegPath inputPath).2 := by
  simp only [stageError, withAudio]
  rcases h : Analyze aw ffmpegPath inputPath with ⟨analysis, _ | err⟩ <;> rfl

/-! ## Lemmas on UTF-8 and on the JSON codec -/

theorem decodeRune_ascii (b : Nat) (rest : List Nat) (h : b < 0x80) :
    decodeRune (b :: rest) = (b, 1) := by
  simp [decodeRune, h]

theorem decodeRune_two (p0 b1 : Nat) (r : List Nat) (h0 : 0xC2 ≤ p0) (h0' : p0 ≤ 0xDF)
    (h1 : 0x80 ≤ b1) (h1' : b1 ≤ 0xBF) :
    decodeRune (p0 :: b1 :: r) = (p0 % 32 * 64 + b1 % 64, 2) := by
  have a1 : ¬ (p0 < 0x80) := by omega
  have a2 : ¬ (p0 < 0xC2 ∨ 0xF4 < p0) := by omega
  have a3 : p0 < 0xE0 := by omega
  have a4 : p0 ≠ 0xE0 := by omega
  have a5 : p0 ≠ 0xF0 := by omega
  have a6 : p0 ≠ 0xED := by omega
  have a7 : p0 ≠ 0xF4 := by omega
  have a8 : ¬ ((b1 :: r).length + 1 < 2) := by simp
  have a9 : ¬ (b1 < 0x80 ∨ 0xBF < b1) := by omega
  simp only [decodeRune, a1, a2, a3, a4, a5, a6, a7, a8, a9, if_true, if_false,
    List.getD_cons_zero, le_refl]

theorem decodeRune_three (p0 b1 b2 : Nat) (r : List Nat) (h0 : 0xE0 ≤ p0) (h0' : p0 ≤ 0xEF)
    (h1 : (if p0 = 0xE0 then 0xA0 else 0x80) ≤ b1)
    (h1' : b1 ≤ (if p0 = 0xED then 0x9F else 0xBF))
    (h2 : 0x80 ≤ b2) (h2' : b2 ≤ 0xBF) :
    decodeRune (p0 :: b1 :: b2 :: r) = (p0 % 16 * 4096 + b1 % 64 * 64 + b2 % 64, 3) := by
  have a1 : ¬ (p0 < 0x80) := by omega
  have a2 : ¬ (p0 < 0xC2 ∨ 0xF4 < p0) := by omega
  have a3 : ¬ (p0 < 0xE0) := by omega
  have a3' : p0 < 0xF0 := by omega
  have a5 : p0 ≠ 0xF0 := by omega
  have a7 : p0 ≠ 0xF4 := by omega
  have a8 : ¬ ((b1 :: b2 :: r).length + 1 < 3) := by simp
  have a9 : ¬ (b1 < (if p0 = 0xE0 then 0xA0 else 0x80) ∨
      (if p0 = 0xED then 0x9F else 0xBF) < b1) := by omega
  have a10 : ¬ (b2 < 0x80 ∨ 0xBF < b2) := by omega
  have a11 : ¬ (3 ≤ 2) := by omega
  simp only [decodeRune, a1, a2, a3, a3', a5, a7, a8, a9, a10, a11, if_true, if_false,
    List.getD_cons_zero, List.getD_cons_succ, le_refl]

theorem decodeRune_four (p0 b1 b2 b3 : Nat) (r : List Nat) (h0 : 0xF0 ≤ p0) (h0' : p0 ≤ 0xF4)
    (h1 : (if p0 = 0xF0 then 0x90 else 0x80) ≤ b1)
    (h1' : b1 ≤ (if p0 = 0xF4 then 0x8F else 0xBF))
    (h2 : 0x80 ≤ b2) (h2' : b2 ≤ 0xBF) (h3 : 0x80 ≤ b3) (h3' : b3 ≤ 0xBF) :
    decodeRune (p0 :: b1 :: b2 :: b3 :: r) =
      (p0 % 8 * 262144 + b1 % 64 * 4096 + b2 % 64 * 64 + b3 % 64, 4) := by
  have a1 : ¬ (p0 < 0x80) := by omega
  have a2 : ¬ (p0 < 0xC2 ∨ 0xF4 < p0) := by omega
  have a3 : ¬ (p0 < 0xE0) := by omega
  have a3' : ¬ (p0 < 0xF0) := by omega
  have a4 : p0 ≠ 0xE0 := by omega
  have a6 : p0 ≠ 0xED := by omega
  have a8 : ¬ ((b1 :: b2 :: b3 :: r).length + 1 < 4) := by simp
  have a9 : ¬ (b1 < (if p0 = 0xF0 then 0x90 else 0x80) ∨
      (if p0 = 0xF4 then 0x8F else 0xBF) < b1) := by omega
  have a10 : ¬ (b2 < 0x80 ∨ 0xBF < b2) := by omega
  have a12 : ¬ (b3 < 0x80 ∨ 0xBF < b3) := by omega
  have a11 : ¬ (4 ≤ 2) := by omega
  have a13 : ¬ (4 ≤ 3) := by omega
  simp only [decodeRune, a1, a2, a3, a3', a4, a6, a8, a9, a10, a11, a12, a13, if_true, if_false,
    List.getD_cons_zero, List.getD_cons_succ, le_refl]

theorem decodeRune_cases (b : Nat) (rest : List Nat) (hb : 0x80 ≤ b) :
    decodeRune (b :: rest) = (runeError, 1) ∨
    (∃ b1 r, rest = b1 :: r ∧ 0xC2 ≤ b ∧ b ≤ 0xDF ∧ 0x80 ≤ b1 ∧ b1 ≤ 0xBF) ∨
    (∃ b1 b2 r, rest = b1 :: b2 :: r ∧ 0xE0 ≤ b ∧ b ≤ 0xEF ∧
      (if b = 0xE0 then 0xA0 else 0x80) ≤ b1 ∧ b1 ≤ (if b = 0xED then 0x9F else 0xBF) ∧
      0x80 ≤ b2 ∧ b2 ≤ 0xBF) ∨
    (∃ b1 b2 b3 r, rest = b1 :: b2 :: b3 :: r ∧ 0xF0 ≤ b ∧ b ≤ 0xF4 ∧
      (if b = 0xF0 then 0x90 else 0x80) ≤ b1 ∧ b1 ≤ (if b = 0xF4 then 0x8F else 0xBF) ∧
      0x80 ≤ b2 ∧ b2 ≤ 0xBF ∧ 0x80 ≤ b3 ∧ b3 ≤ 0xBF) := by
  have a1 : ¬ (b < 0x80) := by omega
  by_cases a2 : b < 0xC2 ∨ 0xF4 < b
  · left; simp only [decodeRune, a1, a2, if_true, if_false]
  by_cases s2 : b < 0xE0
  · -- two bytes
    have a4 : b ≠ 0xE0 := by omega
    have a5 : b ≠ 0xF0 := by omega
    have a6 : b ≠ 0xED := by omega
    have a7 : b ≠ 0xF4 := by omega
    rcases rest with _ | ⟨b1, r⟩
    · left; simp [decodeRune, a1, a2, s2]
    · by_cases a9 : b1 < 0x80 ∨ 0xBF < b1
      · left
        simp only [decodeRune, a1, a2, s2, a4, a5, a6, a7, a9, if_true, if_false,
          List.getD_cons_zero, ite_self]
      · right; left
        exact ⟨b1, r, rfl, by omega, by omega, by omega, by omega⟩
  by_cases s3 : b < 0xF0
  · have a5 : b ≠ 0xF0 := by omega
    have a7 : b ≠ 0xF4 := by omega
    rcases rest with _ | ⟨b1, _ | ⟨b2, r⟩⟩
    · left; simp [decodeRune, a1, a2, s2, s3]
    · left; simp [decodeRune, a1, a2, s2, s3]
    · by_cases a9 : b1 < (if b = 0xE0 then 0xA0 else 0x80) ∨
          (if b = 0xED then 0x9F else 0xBF) < b1
      · left
        simp only [decodeRune, a1, a2, s2, s3, a5, a7, a9, if_true, if_false,
          List.getD_cons_zero, ite_self]
      · by_cases a10 : b2 < 0x80 ∨ 0xBF < b2
        · left
          have a11 : ¬ (3 ≤ 2) := by omega
          simp only [decodeRune, a1, a2, s2, s3, a5, a7, a9, a10, a11, if_true, if_false,
            List.getD_cons_zero, List.getD_cons_succ, ite_self]
        · right; right; left
          exact ⟨b1, b2, r, rfl, by omega, by omega, by omega, by omega, by omega, by omega⟩
  · have a4 : b ≠ 0xE0 := by omega
    have a6 : b ≠ 0xED := by omega
    rcases rest with _ | ⟨b1, _ | ⟨b2, _ | ⟨b3, r⟩⟩⟩
    · left; simp [decodeRune, a1, a2, s2, s3]
    · left; simp [decodeRune, a1, a2, s2, s3]
    · left; simp [decodeRune, a1, a2, s2, s3]
    · by_cases a9 : b1 < (if b = 0xF0 then 0x90 else 0x80) ∨
          (if b = 0xF4 then 0x8F else 0xBF) < b1
      · left
        simp only [decodeRune, a1, a2, s2, s3, a4, a6, a9, if_true, if_false,
          List.getD_cons_zero, ite_self]
      · by_cases a10 : b2 < 0x80 ∨ 0xBF < b2
        · left
          have a11 : ¬ (4 ≤ 2) := by omega
          simp only [decodeRune, a1, a2, s2, s3, a4, a6, a9, a10, a11, if_true, if_false,
            List.getD_cons_zero, List.getD_cons_succ, ite_self]
        · by_cases a12 : b3 < 0x80 ∨ 0xBF < b3
          · left
            have a11 : ¬ (4 ≤ 2) := by omega
            have a13 : ¬ (4 ≤ 3) := by omega
            simp only [decodeRune, a1, a2, s2, s3, a4, a6, a9, a10, a11, a12, a13, if_true,
              if_false, List.getD_cons_zero, List.getD_cons_succ, ite_self]
          · right; right; right
            exact ⟨b1, b2, b3, r, rfl, by omega, by omega, by omega, by omega, by omega,
              by omega, by omega, by omega⟩

theorem encodeRune_two (p0 b1 : Nat) (h0 : 0xC2 ≤ p0) (h0' : p0 ≤ 0xDF)
    (h1 : 0x80 ≤ b1) (h1' : b1 ≤ 0xBF) :
    encodeRune (p0 % 32 * 64 + b1 % 64) = [p0, b1] := by
  have e0 : p0 % 32 = p0 - 0xC0 := by omega
  have e1 : b1 % 64 = b1 - 0x80 := by omega
  have c1 : ¬ (p0 % 32 * 64 + b1 % 64 < 0x80) := by omega
  have c2 : p0 % 32 * 64 + b1 % 64 < 0x800 := by omega
  simp only [encodeRune, c1, c2, if_true, if_false, List.cons.injEq, and_true]
  constructor <;> omega

theorem encodeRune_three (p0 b1 b2 : Nat) (h0 : 0xE0 ≤ p0) (h0' : p0 ≤ 0xEF)
    (h1 : (if p0 = 0xE0 then 0xA0 else 0x80) ≤ b1)
    (h1' : b1 ≤ (if p0 = 0xED then 0x9F else 0xBF))
    (h2 : 0x80 ≤ b2) (h2' : b2 ≤ 0xBF) :
    encodeRune (p0 % 16 * 4096 + b1 % 64 * 64 + b2 % 64) = [p0, b1, b2] := by
  have hb1 : 0x80 ≤ b1 ∧ b1 ≤ 0xBF := by split_ifs at h1 h1' <;> omega
  have e0 : p0 % 16 = p0 - 0xE0 := by omega
  have e1 : b1 % 64 = b1 - 0x80 := by omega
  have e2 : b2 % 64 = b2 - 0x80 := by omega
  have c1 : ¬ (p0 % 16 * 4096 + b1 % 64 * 64 + b2 % 64 < 0x80) := by
    split_ifs at h1 <;> omega
  have c2 : ¬ (p0 % 16 * 4096 + b1 % 64 * 64 + b2 % 64 < 0x800) := by
    split_ifs at h1 <;> omega
  have c3 : ¬ (0x10FFFF < p0 % 16 * 4096 + b1 % 64 * 64 + b2 % 64 ∨
      (0xD800 ≤ p0 % 16 * 4096 + b1 % 64 * 64 + b2 % 64 ∧
        p0 % 16 * 4096 + b1 % 64 * 64 + b2 % 64 ≤ 0xDFFF)) := by
    split_ifs at h1' <;> omega
  have c4 : p0 % 16 * 4096 + b1 % 64 * 64 + b2 % 64 < 0x10000 := by omega
  simp only [encodeRune, c1, c2, c3, c4, if_true, if_false, List.cons.injEq, and_true]
  refine ⟨?_, ?_, ?_⟩ <;> omega

theorem encodeRune_four (p0 b1 b2 b3 : Nat) (h0 : 0xF0 ≤ p0) (h0' : p0 ≤ 0xF4)
    (h1 : (if p0 = 0xF0 then 0x90 else 0x80) ≤ b1)
    (h1' : b1 ≤ (if p0 = 0xF4 then 0x8F else 0xBF))
    (h2 : 0x80 ≤ b2) (h2' : b2 ≤ 0xBF) (h3 : 0x80 ≤ b3) (h3' : b3 ≤ 0xBF) :
    encodeRune (p0 % 8 * 262144 + b1 % 64 * 4096 + b2 % 64 * 64 + b3 % 64) =
      [p0, b1, b2, b3] := by
  have hb1 : 0x80 ≤ b1 ∧ b1 ≤ 0xBF := by split_ifs at h1 h1' <;> omega
  have e0 : p0 % 8 = p0 - 0xF0 := by omega
  have e1 : b1 % 64 = b1 - 0x80 := by omega
  have e2 : b2 % 64 = b2 - 0x80 := by omega
  have e3 : b3 % 64 = b3 - 0x80 := by omega
  have c4 : ¬ (p0 % 8 * 262144 + b1 % 64 * 4096 + b2 % 64 * 64 + b3 % 64 < 0x10000) := by
    split_ifs at h1 <;> omega
  have c1 : ¬ (p0 % 8 * 262144 + b1 % 64 * 4096 + b2 % 64 * 64 + b3 % 64 < 0x80) := by omega
  have c2 : ¬ (p0 % 8 * 262144 + b1 % 64 * 4096 + b2 % 64 * 64 + b3 % 64 < 0x800) := by omega
  have c3 : ¬ (0x10FFFF < p0 % 8 * 262144 + b1 % 64 * 4096 + b2 % 64 * 64 + b3 % 64 ∨
      (0xD800 ≤ p0 % 8 * 262144 + b1 % 64 * 4096 + b2 % 64 * 64 + b3 % 64 ∧
        p0 % 8 * 262144 + b1 % 64 * 4096 + b2 % 64 * 64 + b3 % 64 ≤ 0xDFFF)) := by
    split_ifs at h1' <;> omega
  simp only [encodeRune, c1, c2, c3, c4, if_true, if_false, List.cons.injEq, and_true]
  refine ⟨?_, ?_, ?_, ?_⟩ <;> omega

theorem readString_skip (l X : List Nat) : readString l.length (l ++ X) = readString 0 X := by
  induction l with
  | nil => rfl
  | cons a l ih => exact ih

theorem hexValue_hexDigit (n : Nat) (h : n < 16) : hexValue (hexDigit n) = some n := by
  interval_cases n <;> rfl

theorem getu4_escape (a b c d : Nat) (X : List Nat) (ha : a < 16) (hb : b < 16) (hc : c < 16)
    (hd : d < 16) :
    getu4 (0x5C :: 0x75 :: hexDigit a :: hexDigit b :: hexDigit c :: hexDigit d :: X) =
      some (((a * 16 + b) * 16 + c) * 16 + d) := by
  simp [getu4, hexValue_hexDigit, ha, hb, hc, hd]

theorem readString_escape (r : Nat) (a b c d : Nat) (X : List Nat) (ha : a < 16) (hb : b < 16)
    (hc : c < 16) (hd : d < 16) (hr : ((a * 16 + b) * 16 + c) * 16 + d = r)
    (hs : ¬ (0xD800 ≤ r ∧ r < 0xE000)) :
    readString 0 (0x5C :: 0x75 :: hexDigit a :: hexDigit b :: hexDigit c :: hexDigit d :: X) =
      prepend (encodeRune r) (readString 0 X) := by
  have hg := getu4_escape a b c d X ha hb hc hd
  rw [hr] at hg
  have hskip := readString_skip [hexDigit a, hexDigit b, hexDigit c, hexDigit d] X
  simp only [List.length_cons, List.length_nil, List.cons_append, List.nil_append] at hskip
  rw [readString]
  simp only [List.getD_cons_zero, hg, hs, if_false]
  simp only [readString] at hskip ⊢
  simp [hskip]

theorem readString_plain (b : Nat) (X : List Nat) (h1 : b ≠ 0x22) (h2 : b ≠ 0x5C)
    (h3 : ¬ b < 0x20) (h4 : b < 0x80) :
    readString 0 (b :: X) = prepend [b] (readString 0 X) := by
  rw [readString]
  simp only [h1, h2, h3, h4, if_true, if_false]

theorem readString_short (b e : Nat) (X : List Nat)
    (h : (e = 0x22 ∧ b = 0x22) ∨ (e = 0x5C ∧ b = 0x5C) ∨ (e = 0x62 ∧ b = 8) ∨
      (e = 0x66 ∧ b = 12) ∨ (e = 0x6E ∧ b = 10) ∨ (e = 0x72 ∧ b = 13) ∨ (e = 0x74 ∧ b = 9)) :
    readString 0 (0x5C :: e :: X) = prepend [b] (readString 0 X) := by
  have hskip := readString_skip [e] X
  simp only [List.length_cons, List.length_nil, List.cons_append, List.nil_append] at hskip
  rw [readString]
  rcases h with ⟨rfl, rfl⟩ | ⟨rfl, rfl⟩ | ⟨rfl, rfl⟩ | ⟨rfl, rfl⟩ | ⟨rfl, rfl⟩ | ⟨rfl, rfl⟩ |
    ⟨rfl, rfl⟩ <;> simp [hskip]

theorem readString_ascii (b : Nat) (X : List Nat) (hb : b < 0x80) :
    readString 0 ((if htmlSafe b then [b] else escapeByte b) ++ X) =
      prepend [b] (readString 0 X) := by
  by_cases hs : htmlSafe b = true
  · simp only [hs, if_true, List.cons_append, List.nil_append]
    simp only [htmlSafe, Bool.and_eq_true, decide_eq_true_eq, bne_iff_ne, ne_eq] at hs
    exact readString_plain b X (by omega) (by omega) (by omega) hb
  · simp only [hs, if_false]
    simp only [htmlSafe, Bool.and_eq_true, decide_eq_true_eq, bne_iff_ne, ne_eq, not_and,
      not_not] at hs
    unfold escapeByte
    by_cases c1 : b = 0x5C ∨ b = 0x22
    · simp only [c1, if_true, List.cons_append, List.nil_append]
      exact readString_short b b X (by omega)
    by_cases c2 : b = 8
    · simp only [c1, c2, if_true, if_false, List.cons_append, List.nil_append]
      exact readString_short 8 _ X (by omega)
    by_cases c3 : b = 12
    · simp only [c1, c2, c3, if_true, if_false, List.cons_append, List.nil_append]
      exact readString_short 12 _ X (by omega)
    by_cases c4 : b = 10
    · simp only [c1, c2, c3, c4, if_true, if_false, List.cons_append, List.nil_append]
      exact readString_short 10 _ X (by omega)
    by_cases c5 : b = 13
    · simp only [c1, c2, c3, c4, c5, if_true, if_false, List.cons_append, List.nil_append]
      exact readString_short 13 _ X (by omega)
    by_cases c6 : b = 9
    · simp only [c1, c2, c3, c4, c5, c6, if_true, if_false, List.cons_append, List.nil_append]
      exact readString_short 9 _ X (by omega)
    simp only [c1, c2, c3, c4, c5, c6, if_false, List.cons_append, List.nil_append]
    have h0 : hexDigit 0 = 0x30 := rfl
    have he : encodeRune b = [b] := by simp [encodeRune, hb]
    have := readString_escape b 0 0 (b / 16) (b % 16) X (by omega) (by omega) (by omega)
      (by omega) (by omega) (by omega)
    rw [h0, he] at this
    exact this

theorem decodeRune_valid (b : Nat) (rest : List Nat) (hb : ¬ b < 0x80)
    (hv : ¬ ((decodeRune (b :: rest)).1 = runeError ∧ (decodeRune (b :: rest)).2 = 1)) :
    ∃ tail r, rest = tail ++ r ∧ (decodeRune (b :: rest)).2 = tail.length + 1 ∧
      encodeRune (decodeRune (b :: rest)).1 = b :: tail ∧
      ∀ X, decodeRune (b :: (tail ++ X)) = decodeRune (b :: rest) := by
  rcases decodeRune_cases b rest (by omega) with h | ⟨b1, r, rfl, h0, h0', h1, h1'⟩ |
    ⟨b1, b2, r, rfl, h0, h0', h1, h1', h2, h2'⟩ |
    ⟨b1, b2, b3, r, rfl, h0, h0', h1, h1', h2, h2', h3, h3'⟩
  · rw [h] at hv; exact absurd ⟨rfl, rfl⟩ hv
  · refine ⟨[b1], r, rfl, ?_, ?_, ?_⟩
    · rw [decodeRune_two b b1 r h0 h0' h1 h1']; rfl
    · rw [decodeRune_two b b1 r h0 h0' h1 h1']; exact encodeRune_two b b1 h0 h0' h1 h1'
    · intro X
      rw [decodeRune_two b b1 r h0 h0' h1 h1']
      exact decodeRune_two b b1 X h0 h0' h1 h1'
  · refine ⟨[b1, b2], r, rfl, ?_, ?_, ?_⟩
    · rw [decodeRune_three b b1 b2 r h0 h0' h1 h1' h2 h2']; rfl
    · rw [decodeRune_three b b1 b2 r h0 h0' h1 h1' h2 h2']
      exact encodeRune_three b b1 b2 h0 h0' h1 h1' h2 h2'
    · intro X
      rw [decodeRune_three b b1 b2 r h0 h0' h1 h1' h2 h2']
      exact decodeRune_three b b1 b2 X h0 h0' h1 h1' h2 h2'
  · refine ⟨[b1, b2, b3], r, rfl, ?_, ?_, ?_⟩
    · rw [decodeRune_four b b1 b2 b3 r h0 h0' h1 h1' h2 h2' h3 h3']; rfl
    · rw [decodeRune_four b b1 b2 b3 r h0 h0' h1 h1' h2 h2' h3 h3']
      exact encodeRune_four b b1 b2 b3 h0 h0' h1 h1' h2 h2' h3 h3'
    · intro X
      rw [decodeRune_four b b1 b2 b3 r h0 h0' h1 h1' h2 h2' h3 h3']
      exact decodeRune_four b b1 b2 b3 X h0 h0' h1 h1' h2 h2' h3 h3'

theorem quote_round_trip (t : List Nat) (s : List Nat) :
    ∀ k, readString 0 (quoteLoop k s ++ 0x22 :: t) = some (coerceLoop k s, t) := by
  induction s with
  | nil =>
    intro k
    cases k <;> simp [quoteLoop, coerceLoop, readString]
  | cons b rest ih =>
    intro k
    cases k with
    | succ k => simpa [quoteLoop, coerceLoop] using ih k
    | zero =>
      by_cases hb : b < 0x80
      · have hd := decodeRune_ascii b rest hb
        have hq : quoteLoop 0 (b :: rest) =
            (if htmlSafe b then [b] else escapeByte b) ++ quoteLoop 0 rest := by
          rw [quoteLoop]; simp only [hb, if_true]
        have hne : b ≠ runeError := by
          simp only [runeError]; omega
        have hc : coerceLoop 0 (b :: rest) = b :: coerceLoop 0 rest := by
          rw [coerceLoop]; simp [hd, hne]
        rw [hq, hc, List.append_assoc, readString_ascii b _ hb, ih 0]
        rfl
      · by_cases hinv : (decodeRune (b :: rest)).1 = runeError ∧ (decodeRune (b :: rest)).2 = 1
        · have hq : quoteLoop 0 (b :: rest) =
              [0x5C, 0x75, 0x66, 0x66, 0x66, 0x64] ++ quoteLoop 0 rest := by
            rw [quoteLoop]; simp only [hb, hinv, and_self, if_true, if_false]
          have hc : coerceLoop 0 (b :: rest) = [0xEF, 0xBF, 0xBD] ++ coerceLoop 0 rest := by
            rw [coerceLoop]; simp only [hinv, and_self, if_true]
          have hr := readString_escape 0xFFFD 15 15 15 13 (quoteLoop 0 rest ++ 0x22 :: t)
            (by omega) (by omega) (by omega) (by omega) (by rfl) (by omega)
          have e : encodeRune 0xFFFD = [0xEF, 0xBF, 0xBD] := by decide
          have h15 : hexDigit 15 = 0x66 := rfl
          have h13 : hexDigit 13 = 0x64 := rfl
          rw [e, h15, h13, ih 0] at hr
          rw [hq, hc, List.append_assoc]
          exact hr
        · obtain ⟨tail, r, hrest, hsize, henc, hpre⟩ := decodeRune_valid b rest hb hinv
          have htake : (b :: rest).take (decodeRune (b :: rest)).2 = b :: tail := by
            rw [hsize, hrest]; simp
          have hc : coerceLoop 0 (b :: rest) = (b :: tail) ++ coerceLoop tail.length rest := by
            rw [coerceLoop]; simp only [hinv, if_false, htake]; rw [hsize]; rfl
          have hih := ih tail.length
          by_cases hsep : (decodeRune (b :: rest)).1 = 0x2028 ∨ (decodeRune (b :: rest)).1 = 0x2029
          · have hq : quoteLoop 0 (b :: rest) =
                [0x5C, 0x75, 0x32, 0x30, 0x32, hexDigit ((decodeRune (b :: rest)).1 % 16)]
                  ++ quoteLoop tail.length rest := by
              rw [quoteLoop]; simp only [hb, hinv, hsep, if_true, if_false]; rw [hsize]; rfl
            have hr := readString_escape (decodeRune (b :: rest)).1 2 0 2
              ((decodeRune (b :: rest)).1 % 16) (quoteLoop tail.length rest ++ 0x22 :: t)
              (by omega) (by omega) (by omega) (by omega) (by omega) (by omega)
            have h2 : hexDigit 2 = 0x32 := rfl
            have h0 : hexDigit 0 = 0x30 := rfl
            rw [h2, h0, henc, hih] at hr
            rw [hq, hc, List.append_assoc]
            exact hr
          · have hq : quoteLoop 0 (b :: rest) = (b :: tail) ++ quoteLoop tail.length rest := by
              rw [quoteLoop]; simp only [hb, hinv, hsep, if_false, htake]; rw [hsize]; rfl
            rw [hq, hc]
            have hskip := readString_skip tail (quoteLoop tail.length rest ++ 0x22 :: t)
            have h1 : b ≠ 0x22 := by omega
            have h2 : b ≠ 0x5C := by omega
            have h3 : ¬ b < 0x20 := by omega
            simp only [List.cons_append, List.append_assoc]
            rw [readString]
            simp only [h1, h2, h3, hb, if_false, hpre, henc, hsize, Nat.add_sub_cancel, hskip,
              hih]
            rfl

theorem parseDigits_append (l : List Nat) (c : Nat) :
    parseDigits (l ++ [c]) =
      match parseDigits l with
      | some n => if 48 ≤ c ∧ c ≤ 57 then some (n * 10 + (c - 48)) else none
      | none => none := by
  simp only [parseDigits, List.foldl_append, List.foldl_cons, List.foldl_nil]

theorem parseDigits_decimalLoop (fuel : Nat) :
    ∀ n, n < fuel → parseDigits (decimalLoop fuel n) = some n := by
  induction fuel with
  | zero => intro n h; omega
  | succ fuel ih =>
    intro n h
    by_cases h10 : n < 10
    · simp only [decimalLoop, h10, if_true, parseDigits, List.foldl_cons, List.foldl_nil]
      have : 48 ≤ 48 + n ∧ 48 + n ≤ 57 := by omega
      simp only [this, and_self, if_true, Option.some.injEq]
      omega
    · simp only [decimalLoop, h10, if_false]
      rw [parseDigits_append, ih (n / 10) (by omega)]
      have : 48 ≤ 48 + n % 10 ∧ 48 + n % 10 ≤ 57 := by omega
      simp only [this, and_self, if_true, Option.some.injEq]
      omega

theorem decimalLoop_digits (fuel : Nat) :
    ∀ n, ∀ c ∈ decimalLoop fuel n, 48 ≤ c ∧ c ≤ 57 := by
  induction fuel with
  | zero => intro n c h; simp [decimalLoop] at h
  | succ fuel ih =>
    intro n c h
    by_cases h10 : n < 10
    · simp only [decimalLoop, h10, if_true, List.mem_singleton] at h
      omega
    · simp only [decimalLoop, h10, if_false, List.mem_append, List.mem_singleton] at h
      rcases h with h | h
      · exact ih _ c h
      · omega

theorem decimalLoop_ne_nil (fuel n : Nat) : decimalLoop (fuel + 1) n ≠ [] := by
  by_cases h10 : n < 10 <;> simp [decimalLoop, h10]

theorem decimalLoop_state (fuel : Nat) (st : NumState) (hst : st = .start ∨ st = .sign) :
    ∀ n, n < fuel →
      (decimalLoop fuel n).foldl numStep st = if n = 0 then .zero else .int := by
  induction fuel with
  | zero => intro n h; omega
  | succ fuel ih =>
    intro n h
    by_cases h10 : n < 10
    · simp only [decimalLoop, h10, if_true, List.foldl_cons, List.foldl_nil]
      by_cases h0 : n = 0
      · subst h0
        rcases hst with rfl | rfl <;> simp [numStep]
      · have d : 48 ≤ 48 + n ∧ 48 + n ≤ 57 := by omega
        have e1 : 48 + n ≠ 45 := by omega
        have e2 : 48 + n ≠ 48 := by omega
        rcases hst with rfl | rfl <;> simp [numStep, d, e1, e2, h0]
    · have hn0 : n ≠ 0 := by omega
      have hq0 : n / 10 ≠ 0 := by omega
      simp only [decimalLoop, h10, if_false, List.foldl_append, List.foldl_cons, List.foldl_nil]
      rw [ih (n / 10) (by omega)]
      have d : 48 ≤ 48 + n % 10 ∧ 48 + n % 10 ≤ 57 := by omega
      simp [numStep, d, hn0, hq0]

theorem parseInt_appendInt (i : Int) : parseInt (appendInt i) = some i := by
  have hd := parseDigits_decimalLoop (i.natAbs + 1) i.natAbs (by omega)
  have hne := decimalLoop_ne_nil i.natAbs i.natAbs
  by_cases h : i < 0
  · have e : (-(i.natAbs : Int)) = i := by omega
    have hp : parseInt (0x2D :: decimalLoop (i.natAbs + 1) i.natAbs) =
        (parseDigits (decimalLoop (i.natAbs + 1) i.natAbs)).map (fun n => -(n : Int)) := by
      simp [parseInt, hne]
    simp only [appendInt, h, if_true]
    rw [hp, hd]
    show some (-(i.natAbs : Int)) = some i
    rw [e]
  · have e : ((i.natAbs : Nat) : Int) = i := by omega
    obtain ⟨c, l, hl⟩ := List.exists_cons_of_ne_nil hne
    have hc := decimalLoop_digits (i.natAbs + 1) i.natAbs c (by rw [hl]; simp)
    have e1 : c ≠ 0x2D := by omega
    have e2 : c ≠ 0x2B := by omega
    have hp : parseInt (c :: l) = (parseDigits (c :: l)).map (fun n => (n : Int)) := by
      simp [parseInt, e1, e2]
    simp only [appendInt, h, if_false]
    rw [hl] at hd ⊢
    rw [hp, hd]
    show some ((i.natAbs : Nat) : Int) = some i
    rw [e]

theorem appendInt_wellFormed (i : Int) : (JSONScalar.num (appendInt i)).wellFormed = true := by
  have hdig := decimalLoop_digits (i.natAbs + 1) i.natAbs
  simp only [JSONScalar.wellFormed, Bool.and_eq_true, List.all_eq_true, validNumber]
  by_cases h : i < 0
  · simp only [appendInt, h, if_true, List.mem_cons, List.foldl_cons]
    constructor
    · rintro c (rfl | hc)
      · rfl
      · have := hdig c hc
        simp [isNumberByte, this.1, this.2]
    · have e : numStep .start 0x2D = .sign := by simp [numStep]
      rw [e, decimalLoop_state _ .sign (Or.inr rfl) _ (by omega)]
      split_ifs <;> rfl
  · simp only [appendInt, h, if_false]
    constructor
    · intro c hc
      have := hdig c hc
      simp [isNumberByte, this.1, this.2]
    · rw [decimalLoop_state _ .start (Or.inl rfl) _ (by omega)]
      split_ifs <;> rfl

theorem skipSpace_cons (c : Nat) (X : List Nat) (h : isSpaceByte c = false) :
    skipSpace (c :: X) = c :: X := by
  simp [skipSpace, List.dropWhile, h]

theorem wellFormed_num (literal : List Nat) (h : (JSONScalar.num literal).wellFormed = true) :
    ∃ c l, literal = c :: l ∧ isNumberByte c = true ∧ (∀ x ∈ literal, isNumberByte x = true) ∧
      validNumber literal = true := by
  simp only [JSONScalar.wellFormed, Bool.and_eq_true, List.all_eq_true] at h
  cases literal with
  | nil => simp [validNumber, NumState.accepts] at h
  | cons c l => exact ⟨c, l, rfl, h.1 c (by simp), h.1, h.2⟩

theorem text_head (v : JSONScalar) (hv : v.wellFormed = true) :
    ∃ c l, v.text = c :: l ∧ isSpaceByte c = false := by
  cases v with
  | str s => exact ⟨0x22, quoteLoop 0 s ++ [0x22], by simp [JSONScalar.text, appendString], rfl⟩
  | num literal =>
    obtain ⟨c, l, hl, hc, -, -⟩ := wellFormed_num literal hv
    refine ⟨c, l, hl, ?_⟩
    simp only [isNumberByte, Bool.or_eq_true, Bool.and_eq_true, decide_eq_true_eq,
      beq_iff_eq] at hc
    simp only [isSpaceByte, Bool.or_eq_false_iff, beq_eq_false_iff_ne, ne_eq]
    omega

theorem readValue_text (v : JSONScalar) (hv : v.wellFormed = true) (d : Nat) (Y : List Nat)
    (hd : isNumberByte d = false) :
    readValue (v.text ++ d :: Y) = some (v.coerced, d :: Y) := by
  cases v with
  | str s =>
    have h := quote_round_trip (d :: Y) s 0
    simp only [JSONScalar.text, appendString, List.cons_append, List.append_assoc,
      List.singleton_append, List.nil_append, readValue, List.headD_cons, if_true,
      List.tail_cons, h, Option.map_some', JSONScalar.coerced, coerceUTF8]
  | num literal =>
    obtain ⟨c, l, hl, hc, hall, hvalid⟩ := wellFormed_num literal hv
    have hne : c ≠ 0x22 := by
      simp only [isNumberByte, Bool.or_eq_true, Bool.and_eq_true, decide_eq_true_eq,
        beq_iff_eq] at hc
      omega
    have htake : (literal ++ d :: Y).takeWhile isNumberByte = literal := by
      rw [List.takeWhile_append_of_pos hall]
      simp [List.takeWhile, hd]
    have hdrop : (literal ++ d :: Y).dropWhile isNumberByte = d :: Y := by
      rw [List.dropWhile_append_of_pos hall]
      simp [List.dropWhile, hd]
    have hhead : (literal ++ d :: Y).headD 0 = c := by rw [hl]; rfl
    simp only [JSONScalar.text, readValue, hhead, hne, if_false, htake, hvalid, if_true, hdrop,
      JSONScalar.coerced]

theorem readMembers_step (m : List Nat × JSONScalar) (hv : m.2.wellFormed = true) (d : Nat)
    (Y : List Nat) (hd : d = 0x2C ∨ d = 0x7D) (fuel : Nat) :
    readMembers (fuel + 1) (memberText m ++ d :: Y) =
      if d = 0x2C then
        (readMembers fuel Y).map (fun rest => (coerceUTF8 m.1, m.2.coerced) :: rest)
      else if skipSpace Y = [] then some [(coerceUTF8 m.1, m.2.coerced)] else none := by
  obtain ⟨c, l, htext, hc⟩ := text_head m.2 hv
  have hdn : isNumberByte d = false := by rcases hd with rfl | rfl <;> rfl
  have hds : isSpaceByte d = false := by rcases hd with rfl | rfl <;> rfl
  have h1 : skipSpace (memberText m ++ d :: Y) =
      0x22 :: (quoteLoop 0 m.1 ++ 0x22 :: (0x3A :: (m.2.text ++ d :: Y))) := by
    simp only [memberText, appendString, List.cons_append, List.append_assoc,
      List.singleton_append]
    exact skipSpace_cons _ _ rfl
  have h2 := quote_round_trip (0x3A :: (m.2.text ++ d :: Y)) m.1 0
  have h3 : skipSpace (0x3A :: (m.2.text ++ d :: Y)) = 0x3A :: (m.2.text ++ d :: Y) :=
    skipSpace_cons _ _ rfl
  have h4 : skipSpace (m.2.text ++ d :: Y) = m.2.text ++ d :: Y := by
    rw [htext]; exact skipSpace_cons _ _ hc
  have h5 := readValue_text m.2 hv d Y hdn
  have h6 : skipSpace (d :: Y) = d :: Y := skipSpace_cons _ _ hds
  rw [readMembers]
  simp only [h1, List.headD_cons, List.tail_cons, ne_eq, not_true_eq_false, if_false, h2, h3, h4,
    h5, h6, coerceUTF8]
  rcases hd with rfl | rfl <;> simp

theorem readMembers_join (members : List (List Nat × JSONScalar)) :
    (∀ m ∈ members, m.2.wellFormed = true) → members ≠ [] →
    ∀ fuel, members.length ≤ fuel →
      readMembers fuel (joinMembers (members.map memberText) ++ [0x7D, 0x0A]) =
        some (members.map (fun m => (coerceUTF8 m.1, m.2.coerced))) := by
  induction members with
  | nil => intro _ h; exact absurd rfl h
  | cons m rest ih =>
    intro hwf _ fuel hfuel
    cases fuel with
    | zero => simp at hfuel
    | succ fuel =>
      cases rest with
      | nil =>
        simp only [List.map_cons, List.map_nil, joinMembers]
        rw [readMembers_step m (hwf m (by simp)) 0x7D [0x0A] (Or.inr rfl) fuel]
        simp [skipSpace, List.dropWhile, isSpaceByte]
      | cons n rest =>
        have hrest := ih (fun x hx => hwf x (List.mem_cons_of_mem m hx)) (by simp) fuel
          (by simpa using hfuel)
        simp only [List.map_cons, joinMembers, List.append_assoc, List.cons_append] at hrest ⊢
        rw [readMembers_step m (hwf m (by simp)) 0x2C _ (Or.inl rfl) fuel, hrest]
        simp

theorem encodeObject_length (members : List (List Nat × JSONScalar)) :
    members.length ≤ (encodeObject members).length := by
  have h : ∀ l : List (List Nat × JSONScalar),
      l.length ≤ (joinMembers (l.map memberText)).length + 1 := by
    intro l
    induction l with
    | nil => simp
    | cons m rest ih =>
      cases rest with
      | nil => simp [joinMembers, memberText, appendString]
      | cons n rest =>
        simp only [List.map_cons, joinMembers, List.length_append, List.length_cons] at ih ⊢
        omega
  have := h members
  simp only [encodeObject, List.length_cons, List.length_append, List.length_nil]
  omega

theorem unmarshal_encodeObject (members : List (List Nat × JSONScalar))
    (hwf : ∀ m ∈ members, m.2.wellFormed = true) :
    unmarshal (encodeObject members) =
      some (members.map (fun m => (coerceUTF8 m.1, m.2.coerced))) := by
  cases hm : members with
  | nil => simp [encodeObject, joinMembers, unmarshal, skipSpace, List.dropWhile, isSpaceByte]
  | cons m rest =>
    rw [← hm]
    have hne : members ≠ [] := by rw [hm]; simp
    have hjoin := readMembers_join members hwf hne (encodeObject members).length
      (encodeObject_length members)
    have hhead : ∃ l, joinMembers (members.map memberText) = 0x22 :: l := by
      rw [hm]
      cases rest with
      | nil => exact ⟨_, rfl⟩
      | cons n rest => exact ⟨_, rfl⟩
    obtain ⟨l, hl⟩ := hhead
    have h1 : skipSpace (encodeObject members) = encodeObject members :=
      skipSpace_cons _ _ rfl
    have h2 : (encodeObject members).tail = joinMembers (members.map memberText) ++ [0x7D, 0x0A] :=
      rfl
    have h3 : skipSpace (joinMembers (members.map memberText) ++ [0x7D, 0x0A]) =
        joinMembers (members.map memberText) ++ [0x7D, 0x0A] := by
      rw [hl]; exact skipSpace_cons _ _ rfl
    have h4 : (joinMembers (members.map memberText) ++ [0x7D, 0x0A]).headD 0 = 0x22 := by
      rw [hl]; rfl
    have h5 : (encodeObject members).headD 0 = 0x7B := rfl
    unfold unmarshal
    simp only [h1, h2, h3, h4, h5, ne_eq, not_true_eq_false, if_false, hjoin]
    simp

theorem decodeRune_shape (b : Nat) (rest : List Nat)
    (hv : ¬ ((decodeRune (b :: rest)).1 = runeError ∧ (decodeRune (b :: rest)).2 = 1)) :
    ∃ tail r, rest = tail ++ r ∧ (decodeRune (b :: rest)).2 = tail.length + 1 := by
  by_cases hb : b < 0x80
  · exact ⟨[], rest, rfl, by rw [decodeRune_ascii b rest hb]; rfl⟩
  · obtain ⟨tail, r, h1, h2, -, -⟩ := decodeRune_valid b rest hb hv
    exact ⟨tail, r, h1, h2⟩

theorem coerceLoop_valid (s : List Nat) :
    ∀ k, validLoop k s = true → coerceLoop k s = s.drop k := by
  induction s with
  | nil => intro k _; cases k <;> simp [coerceLoop]
  | cons b rest ih =>
    intro k h
    cases k with
    | succ k =>
      simp only [validLoop] at h
      simpa [coerceLoop] using ih k h
    | zero =>
      by_cases hinv : (decodeRune (b :: rest)).1 = runeError ∧ (decodeRune (b :: rest)).2 = 1
      · simp [validLoop, hinv] at h
      · simp only [validLoop, hinv, if_false] at h
        obtain ⟨tail, r, hrest, hsize⟩ := decodeRune_shape b rest hinv
        rw [coerceLoop]
        simp only [hinv, if_false, ih _ h, List.drop_zero]
        rw [hsize, hrest]
        simp

theorem coerceLoop_length (s : List Nat) : ∀ k, s.length ≤ (coerceLoop k s).length + k := by
  induction s with
  | nil => intro k; simp
  | cons b rest ih =>
    intro k
    cases k with
    | succ k =>
      have := ih k
      simp only [coerceLoop, List.length_cons]
      omega
    | zero =>
      by_cases hinv : (decodeRune (b :: rest)).1 = runeError ∧ (decodeRune (b :: rest)).2 = 1
      · have := ih 0
        rw [coerceLoop]
        simp only [hinv, and_self, if_true, List.length_append, List.length_cons, List.length_nil]
        omega
      · obtain ⟨tail, r, hrest, hsize⟩ := decodeRune_shape b rest hinv
        have := ih tail.length
        rw [coerceLoop]
        simp only [hinv, if_false]
        simp only [hsize, Nat.add_sub_cancel, List.length_append, List.length_take,
          List.length_cons]
        have hl : tail.length ≤ rest.length := by rw [hrest]; simp
        omega

theorem coerceLoop_invalid (s : List Nat) :
    ∀ k, validLoop k s = false → s.length < (coerceLoop k s).length + k := by
  induction s with
  | nil => intro k h; cases k <;> simp [validLoop] at h
  | cons b rest ih =>
    intro k h
    cases k with
    | succ k =>
      simp only [validLoop] at h
      have := ih k h
      simp only [coerceLoop, List.length_cons]
      omega
    | zero =>
      by_cases hinv : (decodeRune (b :: rest)).1 = runeError ∧ (decodeRune (b :: rest)).2 = 1
      · have := coerceLoop_length rest 0
        rw [coerceLoop]
        simp only [hinv, and_self, if_true, List.length_append, List.length_cons, List.length_nil]
        omega
      · simp only [validLoop, hinv, if_false] at h
        obtain ⟨tail, r, hrest, hsize⟩ := decodeRune_shape b rest hinv
        rw [hsize, Nat.add_sub_cancel] at h
        have := ih tail.length h
        rw [coerceLoop]
        simp only [hinv, if_false]
        simp only [hsize, Nat.add_sub_cancel, List.length_append, List.length_take,
          List.length_cons]
        have hl : tail.length ≤ rest.length := by rw [hrest]; simp
        omega

theorem coerceUTF8_valid (s : List Nat) (h : validUTF8 s = true) : coerceUTF8 s = s := by
  have := coerceLoop_valid s 0 h
  simpa [coerceUTF8] using this

theorem coerceUTF8_invalid (s : List Nat) (h : validUTF8 s = false) : coerceUTF8 s ≠ s := by
  have := coerceLoop_invalid s 0 h
  intro heq
  rw [coerceUTF8] at heq
  rw [heq] at this
  omega

theorem encodeRune_shape (c : Char) :
    ∃ b tail, encodeRune c.toNat = b :: tail ∧
      ∀ X, decodeRune (b :: (tail ++ X)) = (c.toNat, tail.length + 1) ∧
        ¬ ((c.toNat = runeError) ∧ tail.length + 1 = 1) := by
  have hvalid : c.toNat < 0xD800 ∨ (0xDFFF < c.toNat ∧ c.toNat < 0x110000) := c.valid
  generalize c.toNat = r at hvalid
  by_cases h1 : r < 0x80
  · refine ⟨r, [], by simp [encodeRune, h1], fun X => ⟨decodeRune_ascii r _ h1, ?_⟩⟩
    simp only [runeError]; omega
  by_cases h2 : r < 0x800
  · refine ⟨0xC0 + r / 64, [0x80 + r % 64], by simp [encodeRune, h1, h2], fun X => ⟨?_, ?_⟩⟩
    · rw [List.singleton_append,
        decodeRune_two _ _ X (by omega) (by omega) (by omega) (by omega)]
      simp only [List.length_singleton, Prod.mk.injEq, and_true]
      omega
    · simp
  have hv : ¬ (0x10FFFF < r ∨ (0xD800 ≤ r ∧ r ≤ 0xDFFF)) := by omega
  by_cases h3 : r < 0x10000
  · refine ⟨0xE0 + r / 4096, [0x80 + r / 64 % 64, 0x80 + r % 64],
      by simp [encodeRune, h1, h2, h3, hv], fun X => ⟨?_, ?_⟩⟩
    · have hlo : (if 0xE0 + r / 4096 = 0xE0 then 0xA0 else 0x80) ≤ 0x80 + r / 64 % 64 := by
        split_ifs <;> omega
      have hhi : 0x80 + r / 64 % 64 ≤ (if 0xE0 + r / 4096 = 0xED then 0x9F else 0xBF) := by
        split_ifs <;> omega
      rw [List.cons_append, List.singleton_append,
        decodeRune_three _ _ _ X (by omega) (by omega) hlo hhi (by omega) (by omega)]
      simp only [List.length_cons, List.length_nil, Prod.mk.injEq, and_true]
      omega
    · simp
  · refine ⟨0xF0 + r / 262144, [0x80 + r / 4096 % 64, 0x80 + r / 64 % 64, 0x80 + r % 64],
      by simp [encodeRune, h1, h2, h3, hv], fun X => ⟨?_, ?_⟩⟩
    · have hlo : (if 0xF0 + r / 262144 = 0xF0 then 0x90 else 0x80) ≤ 0x80 + r / 4096 % 64 := by
        split_ifs <;> omega
      have hhi : 0x80 + r / 4096 % 64 ≤ (if 0xF0 + r / 262144 = 0xF4 then 0x8F else 0xBF) := by
        split_ifs <;> omega
      rw [List.cons_append, List.cons_append, List.singleton_append,
        decodeRune_four _ _ _ _ X (by omega) (by omega) hlo hhi (by omega) (by omega)
          (by omega) (by omega)]
      simp only [List.length_cons, List.length_nil, Prod.mk.injEq, and_true]
      omega
    · simp

theorem validLoop_skip (l X : List Nat) : validLoop l.length (l ++ X) = validLoop 0 X := by
  induction l with
  | nil => rfl
  | cons a l ih => exact ih

theorem validUTF8_utf8 (text : String) : validUTF8 (utf8 text) = true := by
  have h : ∀ l : List Char, validLoop 0 (l.flatMap (fun c => encodeRune c.toNat)) = true := by
    intro l
    induction l with
    | nil => rfl
    | cons c l ih =>
      obtain ⟨b, tail, henc, hdec⟩ := encodeRune_shape c
      obtain ⟨hd, hne⟩ := hdec (l.flatMap (fun c => encodeRune c.toNat))
      simp only [List.flatMap_cons, henc, List.cons_append]
      rw [validLoop]
      simp only [hd, hne, if_false, Nat.add_sub_cancel]
      rw [validLoop_skip]
      exact ih
  exact h text.data

/-! ## Lemmas on the metadata document -/

/-- A value that `encoding/json` accepts is written as its scalar. -/
theorem encodeValue_ok
    (formatFloat : Float64 → { literal : List Nat // (JSONScalar.num literal).wellFormed = true })
    (v : RawValue) (x : JSONScalar) (h : encodeValue formatFloat v = .ok x) :
    x = v.scalar formatFloat := by
  cases v with
  | str s => simp only [encodeValue, Except.ok.injEq] at h; rw [← h]; rfl
  | int n => simp only [encodeValue, Except.ok.injEq] at h; rw [← h]; rfl
  | float f =>
    cases f with
    | fin q => simp only [encodeValue, Except.ok.injEq] at h; rw [← h]; rfl
    | nan => simp [encodeValue] at h
    | posInf => simp [encodeValue] at h
    | negInf => simp [encodeValue] at h

/-- A map that `encoding/json` accepts is written entry by entry. -/
theorem encodeMembers_ok
    (formatFloat : Float64 → { literal : List Nat // (JSONScalar.num literal).wellFormed = true })
    (payload : List (List Nat × RawValue)) :
    ∀ members, encodeMembers formatFloat payload = .ok members →
      members = payload.map (fun p => (p.1, p.2.scalar formatFloat)) := by
  induction payload with
  | nil => intro members h; simp only [encodeMembers, Except.ok.injEq] at h; rw [← h]; rfl
  | cons p rest ih =>
    intro members h
    obtain ⟨key, v⟩ := p
    simp only [encodeMembers] at h
    cases hv : encodeValue formatFloat v with
    | error err => rw [hv] at h; simp at h
    | ok x =>
      rw [hv] at h
      cases hr : encodeMembers formatFloat rest with
      | error err => rw [hr] at h; simp at h
      | ok xs =>
        rw [hr] at h
        simp only [Except.ok.injEq] at h
        rw [← h, ih xs hr, encodeValue_ok formatFloat v x hv]
        rfl

/-- Every scalar written for a value of the map can be written. -/
theorem scalar_wellFormed
    (formatFloat : Float64 → { literal : List Nat // (JSONScalar.num literal).wellFormed = true })
    (v : RawValue) : (v.scalar formatFloat).wellFormed = true := by
  cases v with
  | str s => rfl
  | int n => exact appendInt_wellFormed n
  | float x => exact (formatFloat x).2

/-- What a successful call of `writeMetadata` wrote, and what is read back from it. -/
theorem writeMetadataRaw_ok (w : RawMetaWorld) (input : RawJobInput)
    (jobID videoPath transcript transcriptPath : List Nat) (analysis : Analysis)
    (hok : (writeMetadataRaw w input jobID videoPath transcript transcriptPath
      analysis).returned.2 = none) :
    readBack (writeMetadataRaw w input jobID videoPath transcript transcriptPath analysis) =
      some ((rawMetadataPayload input jobID videoPath transcript transcriptPath analysis
          (utf8 w.nowCreated.rfc3339)).map
        (fun p => (coerceUTF8 p.1, (p.2.scalar w.formatFloat).coerced))) := by
  simp only [writeMetadataRaw] at hok ⊢
  cases hmk : w.mkdirAll input.OutputDir with
  | some err => simp [hmk] at hok
  | none =>
    simp only [hmk] at hok ⊢
    cases hcr : w.create (w.filepathJoin input.OutputDir
        (utf8 "metadata-" ++ appendInt w.nowName.unixNano ++ utf8 ".json")) with
    | some err => rw [hcr] at hok; simp at hok
    | none =>
      simp only [hcr] at hok ⊢
      cases henc : encodeMembers w.formatFloat (rawMetadataPayload input jobID videoPath
          transcript transcriptPath analysis (utf8 w.nowCreated.rfc3339)) with
      | error err => simp [henc] at hok
      | ok members =>
        simp only [henc] at hok ⊢
        cases hwr : w.write (w.filepathJoin input.OutputDir
            (utf8 "metadata-" ++ appendInt w.nowName.unixNano ++ utf8 ".json"))
            (encodeObject members) with
        | some err => rw [hwr] at hok; simp at hok
        | none =>
          simp only [hwr, readBack]
          have hm := encodeMembers_ok w.formatFloat _ members henc
          rw [unmarshal_encodeObject members (by
            intro m hmem
            rw [hm] at hmem
            obtain ⟨p, -, rfl⟩ := List.mem_map.mp hmem
            exact scalar_wellFormed w.formatFloat p.2)]
          rw [hm, List.map_map]
          rfl

/-! ## The claims -/

/-- C1: in a run that returns without error, with transcription enabled and a non-nil event
sink, whatever the remote client answers, the events carry exactly the stages and Progress
values validate 0.05, enhance 0.2, transcribe 0.3, transcribe 0.35, analyze 0.36, submit 0.4,
then one or more render events each with 0.4 or 0.6, then download 0.9, then done 1.0. -/
theorem run_success_progress (w : World) (runner : Runner) (input : JobInput) (res : Result)
    (ht : runner.Transcribe.Enabled = true)
    (hs : (Run w runner input true).returned = some (res, none)) :
    ∃ renders : List (String × ℚ), renders ≠ [] ∧
      (∀ r ∈ renders, r = ("render", 0.4) ∨ r = ("render", 0.6)) ∧
      (events (Run w runner input true).trace).map (fun e => (e.Stage, e.Progress)) =
        [("validate", 0.05), ("enhance", 0.2), ("transcribe", 0.3), ("transcribe", 0.35),
          ("analyze", 0.36), ("submit", 0.4)] ++ renders
          ++ [("download", 0.9), ("done", 1.0)] := by
  obtain ⟨ready, renders, hstage, hready, hr, h⟩ := run_events w runner input
  rcases h with ⟨-, hne, hev⟩ | ⟨hret, -⟩
  · refine ⟨renders.map (fun e => (e.Stage, e.Progress)), by simpa using hne, ?_, ?_⟩
    · intro r hmem
      obtain ⟨e, he, rfl⟩ := List.mem_map.mp hmem
      obtain ⟨h1, h2⟩ := hr e he
      rcases h2 with h2 | h2 <;> simp [h1, h2]
    · rw [hev, ht]
      simp [earlyEvents, lateEvents, doneEvent, plainEvent, hstage, hready]
  · rcases hret with hnone | ⟨err, herr⟩
    · rw [hnone] at hs; cases hs
    · rw [herr] at hs; cases hs

/-- Witness of `run_success_progress`: the sample run, which succeeds. -/
theorem run_success_progress_witness :
    (sampleRunner true).Transcribe.Enabled = true ∧
      (Run sampleWorld (sampleRunner true) sampleInput true).returned =
        some ({ JobID := "job-1", VideoPath := "out/video-1.mp4",
                MetaPath := "out/metadata-4.json" }, none) ∧
      ∃ renders : List (String × ℚ), renders ≠ [] ∧
        (∀ r ∈ renders, r = ("render", 0.4) ∨ r = ("render", 0.6)) ∧
        (events (Run sampleWorld (sampleRunner true) sampleInput true).trace).map
            (fun e => (e.Stage, e.Progress)) =
          [("validate", 0.05), ("enhance", 0.2), ("transcribe", 0.3), ("transcribe", 0.35),
            ("analyze", 0.36), ("submit", 0.4)] ++ renders
            ++ [("download", 0.9), ("done", 1.0)] :=
  ⟨rfl, rfl, run_success_progress sampleWorld (sampleRunner true) sampleInput _ rfl rfl⟩

/-- C2, as stated, fails: in the sample run the remote job is reported as starting, then
processing, then succeeded, and the render events carry 0.4, 0.6 and then 0.4 again, so the
list of Progress values is not non-decreasing: the ninth event carries less than the
eighth. -/
theorem run_progress_monotone_counterexample :
    ∃ values : List ℚ,
      (events (Run sampleWorld (sampleRunner true) sampleInput true).trace).map
          (fun e => e.Progress) = values ∧
      values = [0.05, 0.2, 0.3, 0.35, 0.36, 0.4, 0.4, 0.6, 0.4, 0.9, 1.0] ∧
      ¬ ∀ (i : Nat) (h : i + 1 < values.length), values[i] ≤ values[i + 1] := by
  refine ⟨[0.05, 0.2, 0.3, 0.35, 0.36, 0.4, 0.4, 0.6, 0.4, 0.9, 1.0], rfl, rfl, ?_⟩
  intro h
  have h7 := h 7 (by simp)
  simp only [List.getElem_cons_succ, List.getElem_cons_zero] at h7
  norm_num at h7

/-- C2, amended: in every run (successful, failing or still blocked in the poller), with or
without a sink and whatever the remote client answers, the Progress of an event is at least
the Progress of every event emitted before it, except possibly between two render events
(each of which carries 0.4 or 0.6). -/
theorem run_progress_ordered (w : World) (runner : Runner) (input : JobInput) (sink : Bool) :
    List.Pairwise ProgressOrdered (events (Run w runner input sink).trace) ∧
      ∀ e ∈ events (Run w runner input sink).trace,
        e.Stage = "render" → e.Progress = 0.4 ∨ e.Progress = 0.6 := by
  cases sink with
  | false => rw [run_events_no_sink]; simp
  | true =>
    obtain ⟨ready, renders, hstage, hready, hr, h⟩ := run_events w runner input
    have hfull := full_events_ordered runner.Transcribe.Enabled ready renders hready hr
    have hsub : events (Run w runner input true).trace <+:
        earlyEvents runner.Transcribe.Enabled ready ++ (lateEvents renders ++ [doneEvent]) := by
      rcases h with ⟨-, -, hev⟩ | ⟨-, hpre⟩
      · rw [hev]
      · rw [← List.append_assoc]
        exact hpre.trans (List.prefix_append _ _)
    refine ⟨hfull.sublist hsub.sublist, ?_⟩
    intro e he hrender
    have hmem := hsub.subset he
    simp only [earlyEvents, lateEvents, doneEvent, plainEvent, List.mem_append, List.mem_cons,
      List.mem_singleton, List.not_mem_nil, or_false] at hmem
    rcases hmem with ((h | h) | h) | (((h | h) | h) | h) | h
    · rw [h] at hrender; simp at hrender
    · rw [h] at hrender; simp at hrender
    · cases ht : runner.Transcribe.Enabled
      · rw [ht] at h; simp at h
      · rw [ht] at h
        simp only [if_true, List.mem_cons, List.mem_singleton, List.not_mem_nil, or_false] at h
        rcases h with h | h
        · rw [h] at hrender; simp at hrender
        · rw [h, hstage] at hrender; simp at hrender
    · rw [h] at hrender; simp at hrender
    · rw [h] at hrender; simp at hrender
    · exact (hr e h).2
    · rw [h] at hrender; simp at hrender
    · rw [h] at hrender; simp at hrender

/-- C3, the code at the failing input: the sample run succeeds; `muxAudio` produces
"out/final-2.mp4", which is the path handed to `writeMetadata` and recorded as `video_path`;
yet the `Result` holds "out/video-1.mp4", the file `downloadOutput` wrote, as its video
path. -/
theorem run_result_holds_downloaded_path :
    (Run sampleWorld (sampleRunner false) sampleInput true).returned =
        some ({ JobID := "job-1", VideoPath := "out/video-1.mp4",
                MetaPath := "out/metadata-4.json" }, none) ∧
      downloadOutput sampleWorld.download sampleWorld.filepathJoin
          "https://cdn.example/out.mp4" "out" = ("out/video-1.mp4", none) ∧
      muxAudio sampleWorld.mux sampleWorld.filepathJoin "" "out/video-1.mp4" "song.wav" "out" =
        ("out/final-2.mp4", none) ∧
      metadataVideoPaths (Run sampleWorld (sampleRunner false) sampleInput true).trace =
        ["out/final-2.mp4"] :=
  ⟨rfl, rfl, rfl, rfl⟩

/-- C4, as stated, fails: with a nil event sink the sample run returns a nil error, yet no
event at all is emitted, so no done event either. -/
theorem run_done_event_counterexample :
    (Run sampleWorld (sampleRunner true) sampleInput false).returned =
        some ({ JobID := "job-1", VideoPath := "out/video-1.mp4",
                MetaPath := "out/metadata-4.json" }, none) ∧
      events (Run sampleWorld (sampleRunner true) sampleInput false).trace = [] :=
  ⟨rfl, rfl⟩

/-- C4, amended (the done event is tied to success only when the event sink is not nil): in
every run, (1) an error is returned together with the empty `Result`; (2) a stage call
(validate, enhance, transcribe, analyze, submit, download, mux, persist-metadata) that
returns an error is the last action of the trace, so no later stage runs and no further
event is emitted, and its error is the one `Run` returns; (3) when the poller returns an
error, `Run` returns that error and the trace stops with the trace of the poller; (4) every
event bears one of the stage names validate, enhance, transcribe, analyze, submit, render,
download, done, so there is no failure event; when the sink is not nil, (5) a done event
is emitted if and only if `Run` returns a nil error, and (6) a done event carries 1.0; and
(7) with a nil sink no event is emitted at all, whether the run succeeds or not. -/
theorem run_abort_on_error (w : World) (runner : Runner) (input : JobInput) :
    (∀ sink : Bool,
      (∀ res err, (Run w runner input sink).returned = some (res, some err) →
        res = Result.zero) ∧
      (∀ a ∈ (Run w runner input sink).trace, ∀ err, stageError w runner a = some err →
        (Run w runner input sink).trace.getLast? = some a ∧
          (Run w runner input sink).returned = some (Result.zero, some err)) ∧
      (∀ a ∈ (Run w runner input sink).trace, ∀ p q err, submitted w runner a = some p →
        (pollPrediction sink runner.PollInterval w.poll p).returned = some (q, some err) →
        (Run w runner input sink).returned = some (Result.zero, some err) ∧
          ∃ before, (Run w runner input sink).trace =
            before ++ a :: (pollPrediction sink runner.PollInterval w.poll p).trace) ∧
      (∀ e ∈ events (Run w runner input sink).trace, e.Stage ∈ eventStages)) ∧
    ((∃ e ∈ events (Run w runner input true).trace, e.Stage = "done") ↔
      ∃ res, (Run w runner input true).returned = some (res, none)) ∧
    (∀ e ∈ events (Run w runner input true).trace, e.Stage = "done" → e.Progress = 1.0) ∧
    events (Run w runner input false).trace = [] := by
  obtain ⟨ready, renders, hstage, hready, hr, h⟩ := run_events w runner input
  have hst := staged_events runner.Transcribe.Enabled ready renders hstage hr
  have hdone : doneEvent.Stage ∈ eventStages := by decide
  refine ⟨?_, ?_, ?_, run_events_no_sink w runner input⟩
  · intro sink
    refine ⟨(run_aborts w runner input sink).1, (run_aborts w runner input sink).2,
      run_pollAborts w runner input sink, ?_⟩
    cases sink with
    | false => rw [run_events_no_sink]; simp
    | true =>
      intro e he
      rcases h with ⟨-, -, hev⟩ | ⟨-, hpre⟩
      · rw [hev, ← List.append_assoc] at he
        rcases List.mem_append.mp he with h1 | h1
        · exact (hst e h1).1
        · rw [List.mem_singleton.mp h1]; exact hdone
      · exact (hst e (hpre.subset he)).1
  · rcases h with ⟨hres, -, hev⟩ | ⟨hret, hpre⟩
    · refine ⟨fun _ => hres, fun _ => ⟨doneEvent, ?_, rfl⟩⟩
      rw [hev]; simp
    · constructor
      · rintro ⟨e, he, hd⟩
        exact absurd hd (hst e (hpre.subset he)).2
      · rintro ⟨res, hres⟩
        rcases hret with hnone | ⟨err, herr⟩
        · rw [hnone] at hres; cases hres
        · rw [herr] at hres; cases hres
  · intro e he hd
    rcases h with ⟨-, -, hev⟩ | ⟨-, hpre⟩
    · rw [hev, ← List.append_assoc] at he
      rcases List.mem_append.mp he with h1 | h1
      · exact absurd hd (hst e h1).2
      · rw [List.mem_singleton.mp h1]; rfl
    · exact absurd hd (hst e (hpre.subset he)).2

/-- Witness of `run_abort_on_error`: when the ffmpeg mux fails, its call is the last action of
the trace and `Run` returns the empty `Result` with the error of the mux stage; no metadata is
written and no done event is emitted. -/
theorem run_abort_on_error_witness :
    stageError muxFailingWorld (sampleRunner true)
        (.muxAudio "" "out/video-1.mp4" "song.wav" "out") =
        some (.errorf "ffmpeg mux failed: song.wav: Invalid data found when processing input") ∧
      (Run muxFailingWorld (sampleRunner true) sampleInput true).trace.getLast? =
        some (.muxAudio "" "out/video-1.mp4" "song.wav" "out") ∧
      (Run muxFailingWorld (sampleRunner true) sampleInput true).returned =
        some (Result.zero,
          some (.errorf "ffmpeg mux failed: song.wav: Invalid data found when processing input")) :=
  ⟨rfl,
    ((run_abort_on_error muxFailingWorld (sampleRunner true) sampleInput).1 true).2.1
      (.muxAudio "" "out/video-1.mp4" "song.wav" "out")
      (List.mem_of_getLast?_eq_some (by rfl))
      (.errorf "ffmpeg mux failed: song.wav: Invalid data found when processing input") rfl⟩

/-- C5: without a remote-generation client (`Runner.Replicate` nil) `Run` returns the empty
`Result` and the error "replicate client not configured", and its trace is empty: no event
is emitted and no stage is called, for every input, world and event sink. -/
theorem run_without_replicate_client (w : World) (runner : Runner) (input : JobInput)
    (sink : Bool) (h : runner.Replicate = none) :
    Run w runner input sink =
      { trace := [],
        returned := some (Result.zero, some (.errorf "replicate client not configured")) } := by
  simp [Run, h]

/-- Witness of `run_without_replicate_client`. -/
theorem run_without_replicate_client_witness :
    unconfiguredRunner.Replicate = none ∧
      Run sampleWorld unconfiguredRunner sampleInput true =
        { trace := [],
          returned := some (Result.zero, some (.errorf "replicate client not configured")) } :=
  ⟨rfl, run_without_replicate_client sampleWorld unconfiguredRunner sampleInput true rfl⟩

/-- C6: a prediction whose status is "succeeded" or "completed" is returned unchanged with a
nil error; the trace is the single render event (when there is a sink), so the poller neither
waits nor fetches. -/
theorem poll_terminal_success (sink : Bool) (interval : Int) (steps : List PollStep)
    (p : Prediction) (h : p.Status = "succeeded" ∨ p.Status = "completed") :
    pollPrediction sink interval steps p =
      { trace := send sink "render" ("Rendering (" ++ p.Status ++ ")") 0.4,
        returned := some (p, none) } := by
  have hc : classify (toLower p.Status) = .success := by
    rcases h with h | h <;> rw [h] <;> decide
  rw [pollPrediction_settled sink interval steps p (by rw [hc]; decide)]
  have hp : renderProgress (toLower p.Status) = 0.4 := by
    rcases h with h | h <;> rw [h] <;> simp [toLower_succeeded, toLower_completed, renderProgress]
  simp [pollIteration, hc, hp]

/-- Witness of `poll_terminal_success`: the status "completed". -/
theorem poll_terminal_success_witness :
    ((samplePrediction "job-1" "completed").Status = "succeeded" ∨
        (samplePrediction "job-1" "completed").Status = "completed") ∧
      pollPrediction true 0 [] (samplePrediction "job-1" "completed") =
        { trace := send true "render" "Rendering (completed)" 0.4,
          returned := some (samplePrediction "job-1" "completed", none) } :=
  ⟨Or.inr rfl, poll_terminal_success true 0 [] (samplePrediction "job-1" "completed") (Or.inr rfl)⟩

/-- C7: a prediction whose status is "failed" or "canceled" makes the poller return the empty
prediction and the error "replicate job failed", whatever the other fields of the
prediction are. -/
theorem poll_terminal_failure (sink : Bool) (interval : Int) (steps : List PollStep)
    (p : Prediction) (h : p.Status = "failed" ∨ p.Status = "canceled") :
    (pollPrediction sink interval steps p).returned =
        some (Prediction.zero, some (.errorf "replicate job failed")) ∧
      GoError.message (.errorf "replicate job failed") = "replicate job failed" := by
  have hc : classify (toLower p.Status) = .failure := by
    rcases h with h | h <;> rw [h] <;> decide
  rw [pollPrediction_settled sink interval steps p (by rw [hc]; decide)]
  simp [pollIteration, hc, GoError.message]

/-- Witness of `poll_terminal_failure`: the status "canceled". -/
theorem poll_terminal_failure_witness :
    ((samplePrediction "job-1" "canceled").Status = "failed" ∨
        (samplePrediction "job-1" "canceled").Status = "canceled") ∧
      (pollPrediction true 0 [] (samplePrediction "job-1" "canceled")).returned =
        some (Prediction.zero, some (.errorf "replicate job failed")) :=
  ⟨Or.inr rfl,
    (poll_terminal_failure true 0 [] (samplePrediction "job-1" "canceled") (Or.inr rfl)).1⟩

/-- C8, as stated, fails: the status "SUCCEEDED" is none of the eight listed strings, yet the
poller returns the prediction with a nil error instead of the unknown-status error. -/
theorem poll_unknown_status_counterexample :
    "SUCCEEDED" ∉ knownStatuses ∧
      (pollPrediction true 0 [] (samplePrediction "job-1" "SUCCEEDED")).returned =
        some (samplePrediction "job-1" "SUCCEEDED", none) ∧
      (pollPrediction true 0 [] (samplePrediction "job-1" "SUCCEEDED")).returned ≠
        some (Prediction.zero, some (.errorf "replicate job status unknown: SUCCEEDED")) := by
  refine ⟨by decide, rfl, ?_⟩
  rw [show (pollPrediction true 0 [] (samplePrediction "job-1" "SUCCEEDED")).returned =
    some (samplePrediction "job-1" "SUCCEEDED", none) from rfl]
  simp

/-- C8, amended: when the status, converted to lower case, is none of the eight statuses the
poller knows, the poller returns at once (one render event, no wait, no fetch) the empty
prediction and an error whose message is "replicate job status unknown: " followed by the
status exactly as received. -/
theorem poll_unknown_status (sink : Bool) (interval : Int) (steps : List PollStep)
    (p : Prediction) (h : toLower p.Status ∉ knownStatuses) :
    pollPrediction sink interval steps p =
        { trace := send sink "render" ("Rendering (" ++ p.Status ++ ")") 0.4,
          returned := some (Prediction.zero,
            some (.errorf ("replicate job status unknown: " ++ p.Status))) } ∧
      GoError.message (.errorf ("replicate job status unknown: " ++ p.Status)) =
        "replicate job status unknown: " ++ p.Status := by
  simp only [knownStatuses, List.mem_cons, List.mem_singleton, List.not_mem_nil, or_false,
    not_or] at h
  obtain ⟨h1, h2, h3, h4, h5, h6, h7, h8⟩ := h
  have hc : classify (toLower p.Status) = .unknown := by simp [classify, *]
  have hp : renderProgress (toLower p.Status) = 0.4 := by simp [renderProgress, *]
  rw [pollPrediction_settled sink interval steps p (by rw [hc]; decide)]
  simp [pollIteration, hc, hp, GoError.message]

/-- Witness of `poll_unknown_status`: the status "weird". -/
theorem poll_unknown_status_witness :
    toLower (samplePrediction "job-1" "weird").Status ∉ knownStatuses ∧
      (pollPrediction true 0 [] (samplePrediction "job-1" "weird")).returned =
        some (Prediction.zero, some (.errorf "replicate job status unknown: weird")) :=
  ⟨by decide, by
    have h := (poll_unknown_status true 0 [] (samplePrediction "job-1" "weird") (by decide)).1
    rw [h]; rfl⟩

/-- C9, as stated, fails: for the status "RUNNING", which is neither the string "processing"
nor the string "running", the render event carries 0.6. -/
theorem poll_render_progress_counterexample :
    (samplePrediction "job-1" "RUNNING").Status ≠ "processing" ∧
      (samplePrediction "job-1" "RUNNING").Status ≠ "running" ∧
      events (pollPrediction true 0 [] (samplePrediction "job-1" "RUNNING")).trace =
        [{ Stage := "render", Message := "Rendering (RUNNING)", Progress := 0.6,
           Transcript := "", TranscriptPath := "" }] := by
  refine ⟨by decide, by decide, ?_⟩
  simp [pollPrediction, pollIteration, samplePrediction, toLower, toLowerRune, classify,
    renderProgress, send, events]

/-- C9, amended (statuses compared after conversion to lower case, event sink not nil, one
status observed per successful fetch): every pass of the poll loop, whatever the status it
observes, first emits one render event, whose Progress is 0.6 if the lower-cased status is
processing or running and 0.4 otherwise, and emits nothing else before the next pass (the
rest of the pass is nothing, a wait, a wait and a fetch, or a wait and a successful fetch
followed by the next pass); every event of the poller is a render event; and the number of
render events is the number of fetches plus one, unless the trace stops at a fetch, which
then failed and showed no status. -/
theorem poll_render_events (interval : Int) (steps : List PollStep) (p : Prediction) :
    (∃ tail,
        (pollPrediction true interval steps p).trace =
          .emit (renderEvent p
            (if toLower p.Status = "processing" ∨ toLower p.Status = "running" then 0.6
              else 0.4)) :: tail ∧
        (tail = [] ∨ tail = [.wait (effectiveInterval interval)] ∨
          tail = [.wait (effectiveInterval interval), .fetchPrediction p.ID] ∨
          ∃ fetch rest next, steps = .elapsed fetch :: rest ∧ fetch p.ID = .ok next ∧
            tail = [.wait (effectiveInterval interval), .fetchPrediction p.ID]
              ++ (pollPrediction true interval rest next).trace)) ∧
      (∀ e ∈ events (pollPrediction true interval steps p).trace, e.Stage = "render") ∧
      (events (pollPrediction true interval steps p).trace).length =
        fetchCount (pollPrediction true interval steps p).trace +
          (if endsWithFetch (pollPrediction true interval steps p).trace then 0 else 1) := by
  refine ⟨?_, fun e he => (poll_events_render true interval steps p e he).1,
    poll_render_count interval steps p⟩
  have hr : (if toLower p.Status = "processing" ∨ toLower p.Status = "running" then (0.6 : ℚ)
      else 0.4) = renderProgress (toLower p.Status) := rfl
  rw [hr]
  rcases pollPrediction_pass true interval steps p with h | h | h | h | h
  · obtain ⟨-, ht, -⟩ := h
    exact ⟨[], by rw [ht, send_render]; rfl, Or.inl rfl⟩
  · obtain ⟨-, -, ht, -⟩ := h
    exact ⟨_, by rw [ht, send_render]; rfl, Or.inr (Or.inl rfl)⟩
  · obtain ⟨-, e', rest', -, ht, -⟩ := h
    exact ⟨_, by rw [ht, send_render]; rfl, Or.inr (Or.inl rfl)⟩
  · obtain ⟨-, f, rest', err, -, -, ht, -⟩ := h
    exact ⟨_, by rw [ht, send_render]; rfl, Or.inr (Or.inr (Or.inl rfl))⟩
  · obtain ⟨-, f, rest', next, hs, hf, ht, -⟩ := h
    exact ⟨_, by rw [ht, send_render]; rfl, Or.inr (Or.inr (Or.inr ⟨f, rest', next, hs, hf, rfl⟩))⟩

/-- C10: on a prediction whose status is starting, processing, running or queued, (1) if the
cancellation token fires during the wait, the poller returns the empty prediction and the
context's error itself, and its trace holds no fetch; (2) if the interval elapses, it fetches
with the id of that prediction, and an error of the fetch is returned as it is; (3) a
successful fetch hands the fetched prediction to the next pass of the loop. -/
theorem poll_wait_outcomes (sink : Bool) (interval : Int) (rest : List PollStep)
    (p : Prediction) (h : p.Status ∈ pendingStatuses) :
    (∀ e : CtxErr,
        pollPrediction sink interval (.cancelled e :: rest) p =
          { trace := send sink "render" ("Rendering (" ++ p.Status ++ ")") (renderProgress p.Status)
              ++ [.wait (effectiveInterval interval)],
            returned := some (Prediction.zero, some (.ctx e)) }) ∧
      (∀ (fetch : String → Except GoError Prediction) (err : GoError),
        fetch p.ID = .error err →
        pollPrediction sink interval (.elapsed fetch :: rest) p =
          { trace := send sink "render" ("Rendering (" ++ p.Status ++ ")") (renderProgress p.Status)
              ++ [.wait (effectiveInterval interval), .fetchPrediction p.ID],
            returned := some (Prediction.zero, some err) }) ∧
      (∀ (fetch : String → Except GoError Prediction) (next : Prediction),
        fetch p.ID = .ok next →
        pollPrediction sink interval (.elapsed fetch :: rest) p =
          { trace := send sink "render" ("Rendering (" ++ p.Status ++ ")") (renderProgress p.Status)
              ++ [.wait (effectiveInterval interval), .fetchPrediction p.ID]
              ++ (pollPrediction sink interval rest next).trace,
            returned := (pollPrediction sink interval rest next).returned }) := by
  have hl : toLower p.Status = p.Status := by
    simp only [pendingStatuses, List.mem_cons, List.mem_singleton, List.not_mem_nil,
      or_false] at h
    rcases h with h | h | h | h <;> rw [h] <;> decide
  have hc : classify p.Status = .pending := by
    simp only [pendingStatuses, List.mem_cons, List.mem_singleton, List.not_mem_nil,
      or_false] at h
    rcases h with h | h | h | h <;> rw [h] <;> decide
  refine ⟨?_, ?_, ?_⟩
  · intro e
    simp [pollPrediction, pollIteration, hc, hl]
  · intro fetch err hf
    simp [pollPrediction, pollIteration, hc, hl, hf]
  · intro fetch next hf
    simp [pollPrediction, pollIteration, hc, hl, hf]

/-- Witness of `poll_wait_outcomes`: a queued job and a cancelled wait. -/
theorem poll_wait_outcomes_witness :
    (samplePrediction "job-1" "queued").Status ∈ pendingStatuses ∧
      (pollPrediction true 0 [.cancelled .canceled] (samplePrediction "job-1" "queued")).returned =
        some (Prediction.zero, some (.ctx .canceled)) :=
  ⟨by decide, by
    rw [(poll_wait_outcomes true 0 [] (samplePrediction "job-1" "queued") (by decide)).1 .canceled]⟩

/-- C11, as stated, fails: with a nil event sink the poller of a job reported as queued at
first and by two fetches, then as succeeded by the third, makes three fetches and returns
success, yet emits no render event at all (not four). -/
theorem poll_silent_counterexample :
    (pollPrediction false 0
          (reports [samplePrediction "job-1" "queued", samplePrediction "job-1" "queued",
            samplePrediction "job-1" "succeeded"])
          (samplePrediction "job-1" "queued")).returned =
        some (samplePrediction "job-1" "succeeded", none) ∧
      fetchCount (pollPrediction false 0
          (reports [samplePrediction "job-1" "queued", samplePrediction "job-1" "queued",
            samplePrediction "job-1" "succeeded"])
          (samplePrediction "job-1" "queued")).trace = 3 ∧
      events (pollPrediction false 0
          (reports [samplePrediction "job-1" "queued", samplePrediction "job-1" "queued",
            samplePrediction "job-1" "succeeded"])
          (samplePrediction "job-1" "queued")).trace = [] :=
  ⟨rfl, rfl, rfl⟩

/-- C11, amended (the render events are sent only when the event sink is not nil): the poller
has no bound on its passes.  (1) For every n and either sink, when the job is reported as
queued at first and by the next n-1 fetches, then as succeeded by the n-th fetch, and no wait
is cancelled, the poller fetches exactly n times and returns the prediction reported as
succeeded with a nil error; it emits exactly n+1 events when the sink is not nil and none when
it is nil, and every event it emits is a render event.  (2) As long as every status reported
is starting, processing, running or queued and no wait is cancelled and no fetch fails, the
poller has not returned, however many answers it got: it has made one fetch per answer and is
waiting again. -/
theorem poll_unbounded (interval : Int) :
    (∀ (sink : Bool) (n : Nat) (p final : Prediction) (qs : List Prediction)
        (rest : List PollStep),
        qs.length + 1 = n → p.Status = "queued" → (∀ q ∈ qs, q.Status = "queued") →
        final.Status = "succeeded" →
        (pollPrediction sink interval (reports (qs ++ [final]) ++ rest) p).returned =
            some (final, none) ∧
          fetchCount (pollPrediction sink interval (reports (qs ++ [final]) ++ rest) p).trace
            = n ∧
          (events (pollPrediction sink interval (reports (qs ++ [final]) ++ rest) p).trace).length
            = (if sink then n + 1 else 0) ∧
          ∀ e ∈ events (pollPrediction sink interval (reports (qs ++ [final]) ++ rest) p).trace,
            e.Stage = "render") ∧
      (∀ (sink : Bool) (p : Prediction) (qs : List Prediction),
        p.Status ∈ pendingStatuses → (∀ q ∈ qs, q.Status ∈ pendingStatuses) →
        (pollPrediction sink interval (reports qs) p).returned = none ∧
          fetchCount (pollPrediction sink interval (reports qs) p).trace = qs.length) := by
  refine ⟨?_, fun sink p qs hp hq => poll_reports_pending sink interval qs p hp hq⟩
  intro sink n p final qs rest hn hp hq hf
  have hp' : p.Status ∈ pendingStatuses := by rw [hp]; decide
  have hq' : ∀ q ∈ qs, q.Status ∈ pendingStatuses := by
    intro q hq0; rw [hq q hq0]; decide
  obtain ⟨before, h1, h2, h3, -, h5⟩ := poll_reports sink interval rest qs p final hp' hq'
  have hfin := poll_succeeded sink interval rest final hf
  refine ⟨?_, ?_, ?_, fun e he => (poll_events_render sink interval _ p e he).1⟩
  · rw [h2, hfin]
  · rw [h1, hfin, fetchCount_append, fetchCount_send, h3]; omega
  · rw [h1, hfin, events_append, List.length_append, h5]
    cases sink
    · simp [send, events]
    · simp [send, events]; omega

/-- Witness of `poll_unbounded`: queued at first and at the next two fetches, succeeded at the
third: three fetches, four render events, success; and a job that stays queued for three
fetches has not returned. -/
theorem poll_unbounded_witness :
    ((pollPrediction true 0
          (reports ([samplePrediction "job-1" "queued", samplePrediction "job-1" "queued"]
            ++ [samplePrediction "job-1" "succeeded"]) ++ [])
          (samplePrediction "job-1" "queued")).returned =
        some (samplePrediction "job-1" "succeeded", none) ∧
      fetchCount (pollPrediction true 0
          (reports ([samplePrediction "job-1" "queued", samplePrediction "job-1" "queued"]
            ++ [samplePrediction "job-1" "succeeded"]) ++ [])
          (samplePrediction "job-1" "queued")).trace = 3 ∧
      (events (pollPrediction true 0
          (reports ([samplePrediction "job-1" "queued", samplePrediction "job-1" "queued"]
            ++ [samplePrediction "job-1" "succeeded"]) ++ [])
          (samplePrediction "job-1" "queued")).trace).length = 4) ∧
      (pollPrediction true 0
          (reports [samplePrediction "job-1" "queued", samplePrediction "job-1" "queued",
            samplePrediction "job-1" "queued"])
          (samplePrediction "job-1" "queued")).returned = none :=
  ⟨⟨((poll_unbounded 0).1 true 3 (samplePrediction "job-1" "queued")
        (samplePrediction "job-1" "succeeded")
        [samplePrediction "job-1" "queued", samplePrediction "job-1" "queued"] [] rfl rfl
        (by intro q hq; simp at hq; rw [hq]; rfl) rfl).1,
      ((poll_unbounded 0).1 true 3 (samplePrediction "job-1" "queued")
        (samplePrediction "job-1" "succeeded")
        [samplePrediction "job-1" "queued", samplePrediction "job-1" "queued"] [] rfl rfl
        (by intro q hq; simp at hq; rw [hq]; rfl) rfl).2.1,
      ((poll_unbounded 0).1 true 3 (samplePrediction "job-1" "queued")
        (samplePrediction "job-1" "succeeded")
        [samplePrediction "job-1" "queued", samplePrediction "job-1" "queued"] [] rfl rfl
        (by intro q hq; simp at hq; rw [hq]; rfl) rfl).2.2.1⟩,
    ((poll_unbounded 0).2 true (samplePrediction "job-1" "queued")
      [samplePrediction "job-1" "queued", samplePrediction "job-1" "queued",
        samplePrediction "job-1" "queued"] (by decide)
      (by intro q hq; simp at hq; rw [hq]; decide)).1⟩

/-- C12: (1) when the poller, started on the prediction a submit call returned, returns a
prediction without error whose output yields no URL (`OutputURL` gives the empty string),
`Run` returns the empty `Result` and the error "replicate output url missing"; its trace
stops with the trace of the poller followed by the download event, it holds no call of
download, mux or persist-metadata, and there is no done event.  (2) In no run at all is the
download step called with an empty URL. -/
theorem run_missing_output_url (w : World) (runner : Runner) (input : JobInput) (sink : Bool) :
    (∀ a ∈ (Run w runner input sink).trace, ∀ p q, submitted w runner a = some p →
        (pollPrediction sink runner.PollInterval w.poll p).returned = some (q, none) →
        OutputURL q.Output = "" →
        (Run w runner input sink).returned =
            some (Result.zero, some (.errorf "replicate output url missing")) ∧
          (∃ before, (Run w runner input sink).trace =
            before ++ a :: ((pollPrediction sink runner.PollInterval w.poll p).trace
              ++ send sink "download" "Downloading video" 0.9)) ∧
          (∀ x ∈ (Run w runner input sink).trace, isLateCall x = false) ∧
          (∀ e ∈ events (Run w runner input sink).trace, e.Stage ≠ "done")) ∧
      (∀ url outputDir, .downloadOutput url outputDir ∈ (Run w runner input sink).trace →
        url ≠ "") := by
  constructor
  · intro a ha p q hsub hpoll hurl
    obtain ⟨early, transcript, transcriptPath, analysis, hearly, hr⟩ :=
      run_polled w runner input sink a ha p q hsub hpoll
    have hrun : Run w runner input sink =
        { trace := early ++ a :: (pollPrediction sink runner.PollInterval w.poll p).trace
            ++ send sink "download" "Downloading video" 0.9,
          returned := some (Result.zero, some (.errorf "replicate output url missing")) } := by
      rw [hr]; simp [runAfterPoll, hurl]
    have hkinds : ∀ x ∈ (Run w runner input sink).trace,
        earlyAction w runner input x ∨ x = a ∨ pollAction x ∨
          x ∈ send sink "download" "Downloading video" 0.9 := by
      intro x hx
      rw [hrun] at hx
      rcases List.mem_append.mp hx with h | h
      · rcases List.mem_append.mp h with h | h
        · exact Or.inl (hearly x h)
        · rcases List.mem_cons.mp h with h | h
          · exact Or.inr (Or.inl h)
          · exact Or.inr (Or.inr (Or.inl (poll_trace_actions sink _ _ p x h)))
      · exact Or.inr (Or.inr (Or.inr h))
    have hsend : ∀ x ∈ send sink "download" "Downloading video" 0.9,
        x = .emit (plainEvent "download" "Downloading video" 0.9) := by
      intro x hx
      cases sink
      · simp [send] at hx
      · simpa [send, plainEvent] using hx
    refine ⟨by rw [hrun], ⟨early, by rw [hrun]; simp⟩, ?_, ?_⟩
    · intro x hx
      rcases hkinds x hx with h | h | h | h
      · cases x <;> first
          | rfl
          | exact absurd h id
      · rw [h]
        cases a <;> first
          | rfl
          | (simp [submitted] at hsub)
      · cases x <;> first
          | rfl
          | exact absurd h id
      · rw [hsend x h]; rfl
    · intro e he hdone
      have hmem := (mem_events e _).mp he
      rcases hkinds (.emit e) hmem with h | h | h | h
      · simp only [earlyAction, List.mem_cons, List.mem_singleton, List.not_mem_nil,
          or_false] at h
        rw [hdone] at h
        simp at h
      · rw [← h] at hsub
        simp [submitted] at hsub
      · simp only [pollAction] at h
        rw [hdone] at h
        simp at h
      · have := hsend _ h
        simp only [Action.emit.injEq] at this
        rw [this] at hdone
        simp [plainEvent] at hdone
  · intro url outputDir hmem
    rcases run_actions w runner input sink _ hmem with h | ⟨request, h, -⟩ | h | h
    · exact absurd h id
    · cases h
    · exact absurd h id
    · exact h.1

/-- Witness of `run_missing_output_url`: the job is reported as succeeded with the output
`[null, 3]`. -/
theorem run_missing_output_url_witness :
    (Run noUrlWorld (sampleRunner false) sampleInput true).trace.getLast? =
        some (.emit (plainEvent "download" "Downloading video" 0.9)) ∧
      (Run noUrlWorld (sampleRunner false) sampleInput true).returned =
        some (Result.zero, some (.errorf "replicate output url missing")) :=
  ⟨rfl,
    ((run_missing_output_url noUrlWorld (sampleRunner false) sampleInput true).1
      (.submitPrediction
        (predictionRequest (buildPrompt sampleInput "song.wav" ""
          { BPM := .fin 128, MeanVolume := .fin (-18), MaxVolume := .fin (-3),
            Duration := .fin 12 }) sampleInput) false)
      (List.get?_mem (n := 6) (by rfl))
      { ID := "job-2", Status := "succeeded", Output := .arr [.null, .int 3],
        Error := .null, Logs := "" }
      { ID := "job-2", Status := "succeeded", Output := .arr [.null, .int 3],
        Error := .null, Logs := "" }
      rfl rfl rfl).1⟩

/-- C13: for every input, enhanced path and transcript, (1) when the tempo is at least 120
the prompt contains "fast paced"; (2) when the tempo is greater than 0 and at most 90 it
contains "slow motion"; (3) when the tempo is 0, or strictly between 90 and 120, no mood
fragment derived from the analysis contains "fast paced" or "slow motion". -/
theorem prompt_tempo (input : JobInput) (enhancedPath transcript : String)
    (analysis : Analysis) :
    (analysis.BPM.ge (.fin 120) = true →
        Contains (buildPrompt input enhancedPath transcript analysis) "fast paced") ∧
      (analysis.BPM.gt (.fin 0) = true → analysis.BPM.le (.fin 90) = true →
        Contains (buildPrompt input enhancedPath transcript analysis) "slow motion") ∧
      (analysis.BPM = .fin 0 ∨
          (analysis.BPM.gt (.fin 90) = true ∧ analysis.BPM.lt (.fin 120) = true) →
        ∀ f ∈ vibeFromAnalysis analysis,
          ¬ Contains f "fast paced" ∧ ¬ Contains f "slow motion") := by
  refine ⟨fun h => vibe_in_prompt _ _ _ _ _ (vibe_fast analysis h),
    fun h₁ h₂ => vibe_in_prompt _ _ _ _ _ (vibe_slow analysis h₁ h₂), ?_⟩
  intro h
  apply vibe_without_tempo
  · rcases h with h | ⟨-, h⟩
    · rw [h]; simp [Float64.ge]
    · cases hb : analysis.BPM with
      | nan => rfl
      | negInf => rfl
      | posInf => rw [hb] at h; simp [Float64.lt, Float64.gt] at h
      | fin a =>
        rw [hb] at h
        simp only [Float64.lt, Float64.gt, decide_eq_true_eq] at h
        simp only [Float64.ge, decide_eq_false_iff_not, not_le]
        exact h
  · rcases h with h | ⟨h, -⟩
    · rw [h]; simp [Float64.gt]
    · cases hb : analysis.BPM with
      | nan => rfl
      | negInf => rfl
      | posInf => simp [Float64.gt, Float64.le, Float64.ge]
      | fin a =>
        rw [hb] at h
        simp only [Float64.gt, decide_eq_true_eq] at h
        simp only [Float64.gt, Float64.le, Float64.ge, Bool.and_eq_false_imp,
          decide_eq_true_eq, decide_eq_false_iff_not, not_le]
        intro _
        exact h

/-- Witness of `prompt_tempo`: tempos 128, 72 and 0. -/
theorem prompt_tempo_witness :
    Contains (buildPrompt sampleInput "" "" (sampleAnalysis 128 (-18) (-3))) "fast paced" ∧
      Contains (buildPrompt sampleInput "" "" (sampleAnalysis 72 (-18) (-3))) "slow motion" ∧
      ∀ f ∈ vibeFromAnalysis (sampleAnalysis 0 (-18) (-3)),
        ¬ Contains f "fast paced" ∧ ¬ Contains f "slow motion" :=
  ⟨(prompt_tempo sampleInput "" "" (sampleAnalysis 128 (-18) (-3))).1
      (by simp [sampleAnalysis, Float64.ge]; norm_num),
    (prompt_tempo sampleInput "" "" (sampleAnalysis 72 (-18) (-3))).2.1
      (by simp [sampleAnalysis, Float64.gt])
      (by simp [sampleAnalysis, Float64.le, Float64.ge]; norm_num),
    (prompt_tempo sampleInput "" "" (sampleAnalysis 0 (-18) (-3))).2.2 (Or.inl rfl)⟩

/-- C14: for every analysis (and every input, enhanced path and transcript), (1) when the max
loudness is at least -10 the prompt contains "intense"; (2) otherwise, when the mean loudness
is at most -25, the prompt contains "minimalist"; (3) the mood fragments never hold both
"intense" and "minimalist". -/
theorem prompt_loudness (input : JobInput) (enhancedPath transcript : String)
    (analysis : Analysis) :
    (analysis.MaxVolume.ge (.fin (-10)) = true →
        Contains (buildPrompt input enhancedPath transcript analysis) "intense") ∧
      (analysis.MaxVolume.ge (.fin (-10)) = false →
        analysis.MeanVolume.le (.fin (-25)) = true →
        Contains (buildPrompt input enhancedPath transcript analysis) "minimalist") ∧
      ¬ ("intense" ∈ vibeFromAnalysis analysis ∧ "minimalist" ∈ vibeFromAnalysis analysis) := by
  refine ⟨?_, ?_, ?_⟩
  · intro h
    apply vibe_in_prompt
    simp [vibeFromAnalysis, h]
  · intro h₁ h₂
    apply vibe_in_prompt
    simp [vibeFromAnalysis, h₁, h₂, lt_zero_of_le_neg25 _ h₂]
  · rintro ⟨hi, hm⟩
    simp only [vibeFromAnalysis, List.mem_append] at hi hm
    rcases hi with hi | hi
    · exact tempo_fragments_not_loud analysis "intense" (Or.inl rfl) hi
    · rcases hm with hm | hm
      · exact tempo_fragments_not_loud analysis "minimalist" (Or.inr rfl) hm
      · split at hi
        · rename_i hge
          simp [hge] at hm
        · split at hi
          · simp at hi
          · cases hi

/-- Witness of `prompt_loudness`: max loudness -3, and max -12 with mean -30. -/
theorem prompt_loudness_witness :
    Contains (buildPrompt sampleInput "" "" (sampleAnalysis 100 (-18) (-3))) "intense" ∧
      Contains (buildPrompt sampleInput "" "" (sampleAnalysis 100 (-30) (-12))) "minimalist" :=
  ⟨(prompt_loudness sampleInput "" "" (sampleAnalysis 100 (-18) (-3))).1
      (by simp [sampleAnalysis, Float64.ge]; norm_num),
    (prompt_loudness sampleInput "" "" (sampleAnalysis 100 (-30) (-12))).2.1
      (by simp [sampleAnalysis, Float64.ge]; norm_num)
      (by simp [sampleAnalysis, Float64.le, Float64.ge]; norm_num)⟩

/-- C15, as stated, fails: the preset " hook " (with a blank on each side) is, also without
regard to case, none of "hook", "canvas" and "highlight", yet it contributes the three
fragments of "hook", because the lookup trims white space first. -/
theorem presetNotes_other_counterexample :
    toLower " hook " ∉ presetNames ∧
      presetNotes " hook " = ["hook moment", "fast impact", "center focus"] :=
  ⟨by decide, by decide⟩

/-- C15, amended (the lookup also trims surrounding white space).  For every preset string
p: (1) `presetNotes p` equals `presetNotes` of p converted to lower case, and (2) equals
`presetNotes` of p with its leading and trailing white space removed; (3) when p, trimmed
and converted to lower case, is "hook", "canvas" or "highlight", p contributes the three
fragments of that name, as the three names themselves do; (4) when p, trimmed and converted
to lower case, is none of the three (the empty string among them), p contributes no
fragment.  So "  Hook" followed by a line feed, and "hoo" followed by the Kelvin sign
(U+212A, whose lower-case form is k), both contribute the fragments of "hook". -/
theorem presetNotes_lookup :
    (∀ p, presetNotes p = presetNotes (toLower p)) ∧
      (∀ p, presetNotes p = presetNotes (trimSpace p)) ∧
      (∀ p, toLower (trimSpace p) = "hook" →
        presetNotes p = ["hook moment", "fast impact", "center focus"]) ∧
      (∀ p, toLower (trimSpace p) = "canvas" →
        presetNotes p = ["seamless loop", "subtle motion", "ambient visuals"]) ∧
      (∀ p, toLower (trimSpace p) = "highlight" →
        presetNotes p = ["dramatic highlight", "cinematic focus", "story beat"]) ∧
      presetNotes "hook" = ["hook moment", "fast impact", "center focus"] ∧
      presetNotes "canvas" = ["seamless loop", "subtle motion", "ambient visuals"] ∧
      presetNotes "highlight" = ["dramatic highlight", "cinematic focus", "story beat"] ∧
      (∀ p, toLower (trimSpace p) ∉ presetNames → presetNotes p = []) ∧
      presetNotes "" = [] ∧
      presetNotes "  Hook\n" = ["hook moment", "fast impact", "center focus"] ∧
      presetNotes "hoo\u212A" = ["hook moment", "fast impact", "center focus"] := by
  refine ⟨?_, ?_, ?_, ?_, ?_, by decide, by decide, by decide, ?_, by decide, by decide,
    by decide!⟩
  · intro p
    simp only [presetNotes, trimSpace_toLower, toLower_idem]
  · intro p
    simp only [presetNotes, trimSpace_idem]
  · intro p hp
    simp [presetNotes, hp]
  · intro p hp
    simp [presetNotes, hp]
  · intro p hp
    simp [presetNotes, hp]
  · intro p hp
    simp only [presetNames, List.mem_cons, List.mem_singleton, List.not_mem_nil, or_false,
      not_or] at hp
    simp [presetNotes, hp.1, hp.2.1, hp.2.2]

/-- Witness of `presetNotes_lookup`: "  CANVAS" followed by a tab, trimmed and converted to
lower case, is "canvas", so it contributes the fragments of "canvas"; "other" is none of
the three names and contributes nothing. -/
theorem presetNotes_lookup_witness :
    presetNotes "  CANVAS\t" = ["seamless loop", "subtle motion", "ambient visuals"] ∧
      presetNotes "other" = [] :=
  ⟨presetNotes_lookup.2.2.2.1 "  CANVAS\t" (by decide),
    presetNotes_lookup.2.2.2.2.2.2.2.2.1 "other" (by decide)⟩

/-- C16, as stated, fails: for the lyrics "la la" followed by a line feed, the prompt is
"cinematic music video visuals, lyrics: la la, intense, vibrant colors, high contrast", in
which the unmodified lyrics string (with its line feed) does not occur. -/
theorem prompt_lyrics_verbatim_counterexample :
    trimSpace "la la\n" ≠ "" ∧
      buildPrompt (lyricsInput "la la\n") "" "" Analysis.zero =
        "cinematic music video visuals, lyrics: la la, intense, vibrant colors, high contrast" ∧
      ¬ Contains (buildPrompt (lyricsInput "la la\n") "" "" Analysis.zero) "la la\n" := by
  have h : buildPrompt (lyricsInput "la la\n") "" "" Analysis.zero =
      "cinematic music video visuals, lyrics: la la, intense, vibrant colors, high contrast" := by
    rw [buildPrompt_eq_join]
    simp only [promptFragments, vibe_zero]
    decide
  refine ⟨by decide, h, ?_⟩
  rw [h]
  intro hc
  have hmem : '\n' ∈
      "cinematic music video visuals, lyrics: la la, intense, vibrant colors, high contrast".data :=
    hc.subset (by decide)
  revert hmem
  decide

/-- C16, amended (the text is trimmed before it is appended): for lyrics that are not blank,
the prompt contains the fragment "lyrics: " followed by the lyrics without their leading and
trailing white space, hence it contains the trimmed lyrics, and lyrics that have no leading
or trailing white space occur in it verbatim; the same holds for a transcript that is not
blank, with the fragment "transcript: "; blank lyrics, or a blank transcript, add no
fragment: the prompt is the one of empty lyrics, or of an empty transcript. -/
theorem prompt_lyrics (input : JobInput) (enhancedPath transcript : String)
    (analysis : Analysis) :
    (trimSpace input.Lyrics ≠ "" →
        Contains (buildPrompt input enhancedPath transcript analysis)
            ("lyrics: " ++ trimSpace input.Lyrics) ∧
          Contains (buildPrompt input enhancedPath transcript analysis)
            (trimSpace input.Lyrics) ∧
          (trimSpace input.Lyrics = input.Lyrics →
            Contains (buildPrompt input enhancedPath transcript analysis) input.Lyrics)) ∧
      (trimSpace transcript ≠ "" →
        Contains (buildPrompt input enhancedPath transcript analysis)
            ("transcript: " ++ trimSpace transcript) ∧
          Contains (buildPrompt input enhancedPath transcript analysis)
            (trimSpace transcript) ∧
          (trimSpace transcript = transcript →
            Contains (buildPrompt input enhancedPath transcript analysis) transcript)) ∧
      (trimSpace input.Lyrics = "" →
        lyricsFragment input.Lyrics = [] ∧
          buildPrompt input enhancedPath transcript analysis =
            buildPrompt { input with Lyrics := "" } enhancedPath transcript analysis) ∧
      (trimSpace transcript = "" →
        transcriptFragment transcript = [] ∧
          buildPrompt input enhancedPath transcript analysis =
            buildPrompt input enhancedPath "" analysis) := by
  have hempty : trimSpace "" = "" := by decide
  refine ⟨?_, ?_, ?_, ?_⟩
  · intro h
    have hfrag : Contains (buildPrompt input enhancedPath transcript analysis)
        ("lyrics: " ++ trimSpace input.Lyrics) := by
      rw [buildPrompt_eq_join]
      apply join_contains
      simp [promptFragments, lyricsFragment, h]
    have htrim := contains_trans hfrag (contains_append_right "lyrics: " (trimSpace input.Lyrics))
    exact ⟨hfrag, htrim, fun heq => by rw [heq] at htrim; exact htrim⟩
  · intro h
    have hfrag : Contains (buildPrompt input enhancedPath transcript analysis)
        ("transcript: " ++ trimSpace transcript) := by
      rw [buildPrompt_eq_join]
      apply join_contains
      simp [promptFragments, transcriptFragment, h]
    have htrim := contains_trans hfrag
      (contains_append_right "transcript: " (trimSpace transcript))
    exact ⟨hfrag, htrim, fun heq => by rw [heq] at htrim; exact htrim⟩
  · intro h
    refine ⟨by simp [lyricsFragment, h], ?_⟩
    rw [buildPrompt_eq_join, buildPrompt_eq_join]
    simp [promptFragments, lyricsFragment, styleFragment, aspectFragment, h, hempty]
  · intro h
    refine ⟨by simp [transcriptFragment, h], ?_⟩
    rw [buildPrompt_eq_join, buildPrompt_eq_join]
    simp [promptFragments, transcriptFragment, h, hempty]

/-- Witness of `prompt_lyrics`: the lyrics "la la" followed by a line feed. -/
theorem prompt_lyrics_witness :
    trimSpace (lyricsInput "la la\n").Lyrics ≠ "" ∧
      Contains (buildPrompt (lyricsInput "la la\n") "" "" Analysis.zero)
        ("lyrics: " ++ trimSpace (lyricsInput "la la\n").Lyrics) :=
  ⟨by decide,
    ((prompt_lyrics (lyricsInput "la la\n") "" "" Analysis.zero).1 (by decide)).1⟩

/-- C17: for every input the prompt is the fragments joined by ", " in the fixed order base
phrase, preset fragments, style fragment, aspect-ratio fragment, lyrics, transcript, mood
fragments, audio-source fragment; so it starts with "cinematic music video visuals", and
when the enhanced path is not empty it ends with "audio source " followed by the base file
name of the enhanced path. -/
theorem prompt_order (input : JobInput) (enhancedPath transcript : String)
    (analysis : Analysis) :
    buildPrompt input enhancedPath transcript analysis =
        join (["cinematic music video visuals"] ++ presetNotes input.Preset
          ++ styleFragment input ++ aspectFragment input ++ lyricsFragment input.Lyrics
          ++ transcriptFragment transcript ++ vibeFromAnalysis analysis
          ++ audioSourceFragment enhancedPath) ", " ∧
      StartsWith (buildPrompt input enhancedPath transcript analysis)
        "cinematic music video visuals" ∧
      (enhancedPath ≠ "" →
        EndsWith (buildPrompt input enhancedPath transcript analysis)
          ("audio source " ++ filepathBase enhancedPath)) := by
  refine ⟨buildPrompt_eq_join input enhancedPath transcript analysis, ?_, ?_⟩
  · rw [buildPrompt_eq_join]
    simp only [promptFragments, List.singleton_append, List.cons_append]
    exact join_startsWith _ _ _
  · intro h
    rw [buildPrompt_eq_join]
    simp only [promptFragments, audioSourceFragment, h, ne_eq, not_false_eq_true, if_true]
    exact join_endsWith _ _ _

/-- Witness of `prompt_order`: the enhanced path "out/enhanced-7.wav". -/
theorem prompt_order_witness :
    "out/enhanced-7.wav" ≠ "" ∧
      EndsWith (buildPrompt sampleInput "out/enhanced-7.wav" "" Analysis.zero)
        ("audio source " ++ filepathBase "out/enhanced-7.wav") ∧
      filepathBase "out/enhanced-7.wav" = "enhanced-7.wav" :=
  ⟨by decide,
    (prompt_order sampleInput "out/enhanced-7.wav" "" Analysis.zero).2.2 (by decide),
    by decide⟩

/-- C18: in every run, whatever the enhancement stage returns, (1) the analyze stage and
(2) the mux stage receive the audio path of the input; (3) the path the enhancement returns
matters through the audio-source fragment of the prompt only: two runs that differ only in
that path are the same run when the two paths give the same audio-source fragment, and
(4) the prompt is the join of fragments that do not depend on the enhanced path, followed by
the audio-source fragment; (5) without an enhancement client no enhancement call is made and
the prompt of every submit call is built with the audio path of the input as the enhanced
path. -/
theorem run_audio_paths (w : World) (runner : Runner) (input : JobInput) (sink : Bool) :
    (∀ ffmpegPath inputPath, .analyze ffmpegPath inputPath ∈ (Run w runner input sink).trace →
        inputPath = input.AudioPath) ∧
      (∀ ffmpegPath videoPath audioPath outputDir,
        .muxAudio ffmpegPath videoPath audioPath outputDir ∈ (Run w runner input sink).trace →
        audioPath = input.AudioPath) ∧
      (∀ e₁ e₂, audioSourceFragment e₁ = audioSourceFragment e₂ →
        Run (withEnhanced w e₁) runner input sink = Run (withEnhanced w e₂) runner input sink) ∧
      (∀ enhancedPath transcript analysis,
        buildPrompt input enhancedPath transcript analysis =
          join (promptFragments input "" transcript analysis
            ++ audioSourceFragment enhancedPath) ", ") ∧
      (runner.ElevenLabs = none →
        (∀ inputPath outputDir,
          .enhanceAudio inputPath outputDir ∉ (Run w runner input sink).trace) ∧
        ∀ request preferWait,
          .submitPrediction request preferWait ∈ (Run w runner input sink).trace →
          ∃ transcript analysis, request =
            predictionRequest (buildPrompt input input.AudioPath transcript analysis) input) := by
  refine ⟨?_, ?_, fun e₁ e₂ h => run_withEnhanced w runner input sink e₁ e₂ h, ?_, ?_⟩
  · intro ffmpegPath inputPath hmem
    rcases run_actions w runner input sink _ hmem with h | ⟨request, h, -⟩ | h | h
    · exact h.2
    · cases h
    · exact absurd h id
    · exact absurd h id
  · intro ffmpegPath videoPath audioPath outputDir hmem
    rcases run_actions w runner input sink _ hmem with h | ⟨request, h, -⟩ | h | h
    · exact absurd h id
    · cases h
    · exact absurd h id
    · exact h.2.1
  · intro enhancedPath transcript analysis
    rw [buildPrompt_eq_join]
    simp [promptFragments, audioSourceFragment]
  · intro hel
    constructor
    · intro inputPath outputDir hmem
      rcases run_actions w runner input sink _ hmem with h | ⟨request, h, -⟩ | h | h
      · exact h.2.2 hel
      · cases h
      · exact absurd h id
      · exact absurd h id
    · intro request preferWait hmem
      rcases run_actions w runner input sink _ hmem with h | ⟨request', h, hshape⟩ | h | h
      · obtain ⟨-, -, e, t, a, hreq, he⟩ := h
        exact ⟨t, a, by rw [hreq, he hel]⟩
      · obtain ⟨-, e, t, a, hreq, he⟩ := hshape
        cases h
        exact ⟨t, a, by rw [hreq, he hel]⟩
      · exact absurd h id
      · exact absurd h id

/-- Witness of `run_audio_paths`: with an enhancement client whose call returns another path,
the analyze call of the sample run is made on "song.wav", the audio path of the input. -/
theorem run_audio_paths_witness :
    (Run (withEnhanced sampleWorld "out/enhanced-9.wav") enhancingRunner sampleInput true).trace[3]?
        = some (.enhanceAudio "song.wav" "out") ∧
      (Run (withEnhanced sampleWorld "out/enhanced-9.wav") enhancingRunner sampleInput true).trace[5]?
        = some (.analyze "" "song.wav") ∧
      "song.wav" = sampleInput.AudioPath :=
  ⟨rfl, rfl,
    (run_audio_paths (withEnhanced sampleWorld "out/enhanced-9.wav") enhancingRunner sampleInput
      true).1 "" "song.wav" (List.getElem?_mem (n := 5) (by rfl))⟩

/-- C19, as stated, fails: when the subprocess wrote "Device busy" and a line feed and exits
with an error, and `Stop` was never called, the message of the error `Wait` returns is
"ffmpeg recording failed: Device busy": the captured output, with its line feed, does not
occur in it. -/
theorem wait_message_counterexample :
    Wait (some (startedRecorder "out/recording-1.wav" "Device busy\n"))
        (some (.external "exit status 1")) =
        some (.errorf "ffmpeg recording failed: Device busy") ∧
      ¬ Contains (GoError.message (.errorf "ffmpeg recording failed: Device busy"))
        "Device busy\n" := by
  refine ⟨by decide, ?_⟩
  intro hc
  have hmem : '\n' ∈ "ffmpeg recording failed: Device busy".data := hc.subset (by decide)
  revert hmem
  decide

/-- C19, amended (the captured output is trimmed of leading and trailing white space before
it is put in the message): for a recorder with a started subprocess, (1) after `Stop`,
whatever the signal call returned and whatever the subprocess wrote since, `Wait` returns nil
whatever `cmd.Wait()` reports; (2) when `Stop` was never called and `cmd.Wait()` reports an
error, `Wait` returns an error whose message is "ffmpeg recording failed: " followed by the
captured standard output and standard error, trimmed, so the message contains the trimmed
output; (3) when `cmd.Wait()` reports no error, `Wait` returns nil in both cases. -/
theorem wait_after_stop (r : Recorder) (hstarted : r.started) :
    (∀ (signal exit : Option GoError) (captured : String),
        Wait ((Stop (some r) signal).recorder.map (fun x => { x with stderr := captured }))
          exit = none) ∧
      (r.stopped = false → ∀ err : GoError,
        Wait (some r) (some err) =
            some (.errorf ("ffmpeg recording failed: " ++ trimSpace r.stderr)) ∧
          Contains (GoError.message (.errorf ("ffmpeg recording failed: " ++ trimSpace r.stderr)))
            (trimSpace r.stderr)) ∧
      Wait (some r) none = none := by
  obtain ⟨cmd, process, hcmd, hprocess⟩ := hstarted
  refine ⟨?_, ?_, ?_⟩
  · intro signal exit captured
    cases signal <;> cases exit <;> simp [Stop, Wait, hcmd, hprocess]
  · intro hs err
    refine ⟨by simp [Wait, hcmd, hs], ?_⟩
    exact contains_append_right "ffmpeg recording failed: " (trimSpace r.stderr)
  · simp [Wait, hcmd]

/-- Witness of `wait_after_stop`: a started recorder whose subprocess wrote "Device busy" and
a line feed. -/
theorem wait_after_stop_witness :
    (startedRecorder "out/recording-1.wav" "Device busy\n").started ∧
      Wait ((Stop (some (startedRecorder "out/recording-1.wav" "Device busy\n"))
          none).recorder.map (fun x => { x with stderr := "Device busy\nInterrupted\n" }))
        (some (.external "signal: interrupt")) = none :=
  ⟨⟨_, _, rfl, rfl⟩,
    (wait_after_stop (startedRecorder "out/recording-1.wav" "Device busy\n")
      ⟨_, _, rfl, rfl⟩).1 none (some (.external "signal: interrupt"))
      "Device busy\nInterrupted\n"⟩

/-- C20 (counterexample): an audio path that is not valid UTF-8 does not come back.
The audio path of the input is `song`, the byte 0xFF, `.wav`.  `writeMetadata` returns
the path of the file and no error; in the document it wrote the field audio_path reads
`song`, U+FFFD, `.wav`, because `encoding/json` writes the byte 0xFF as the escape
`\ufffd`; and that string is not the audio path of the input. -/
theorem metadata_invalid_utf8_counterexample :
    (writeMetadataRaw sampleRawMeta latin1Input (utf8 "job-1") (utf8 "out/final-2.mp4")
        (utf8 "la la la") (utf8 "out/transcript-0.txt") Analysis.zero).returned =
      (utf8 "out/metadata-4.json", none) ∧
    (readBack (writeMetadataRaw sampleRawMeta latin1Input (utf8 "job-1")
        (utf8 "out/final-2.mp4") (utf8 "la la la") (utf8 "out/transcript-0.txt")
        Analysis.zero)).bind (fun record => record.lookup (utf8 "audio_path")) =
      some (.str (utf8 "song\uFFFD.wav")) ∧
    utf8 "song\uFFFD.wav" ≠ latin1Input.AudioPath := by
  decide!

/-- C20 (amended): the metadata round trip, on Go strings as they are, sequences of bytes.
When `writeMetadata` returns without error, the document it wrote to the file is read
back by `json.Unmarshal` as an object in which (1) audio_path, preset, style_preset,
aspect_ratio, job_id, video_path, transcript and transcript_path are the strings of the
input and of the arguments as `encoding/json` writes a string, with every byte that
belongs to no well-formed UTF-8 sequence replaced by U+FFFD, and (2) duration_seconds is
the decimal literal of `DurationSeconds`, which reads back as that integer.  (3) A
string that is valid UTF-8 is written unchanged, so such a field comes back exactly
equal; (4) a string that is not valid UTF-8 is changed, so such a field does not;
(5) every string that is the UTF-8 encoding of a text is valid.  (6) The map written
has the entries of the payload map of `writeMetadata`, the strings by their bytes. -/
theorem metadata_round_trip (w : RawMetaWorld) (input : RawJobInput)
    (jobID videoPath transcript transcriptPath : List Nat) (analysis : Analysis)
    (hok : (writeMetadataRaw w input jobID videoPath transcript transcriptPath
      analysis).returned.2 = none) :
    (∃ record : List (List Nat × JSONScalar),
      readBack (writeMetadataRaw w input jobID videoPath transcript transcriptPath analysis) =
        some record ∧
      record.length = 15 ∧
      record.lookup (utf8 "audio_path") = some (.str (coerceUTF8 input.AudioPath)) ∧
      record.lookup (utf8 "preset") = some (.str (coerceUTF8 input.Preset)) ∧
      record.lookup (utf8 "style_preset") = some (.str (coerceUTF8 input.StylePreset)) ∧
      record.lookup (utf8 "aspect_ratio") = some (.str (coerceUTF8 input.AspectRatio)) ∧
      record.lookup (utf8 "duration_seconds") =
        some (.num (appendInt input.DurationSeconds)) ∧
      record.lookup (utf8 "job_id") = some (.str (coerceUTF8 jobID)) ∧
      record.lookup (utf8 "video_path") = some (.str (coerceUTF8 videoPath)) ∧
      record.lookup (utf8 "transcript") = some (.str (coerceUTF8 transcript)) ∧
      record.lookup (utf8 "transcript_path") = some (.str (coerceUTF8 transcriptPath))) ∧
    parseInt (appendInt input.DurationSeconds) = some input.DurationSeconds ∧
    (∀ s : List Nat, validUTF8 s = true → coerceUTF8 s = s) ∧
    (∀ s : List Nat, validUTF8 s = false → coerceUTF8 s ≠ s) ∧
    (∀ text : String, validUTF8 (utf8 text) = true) ∧
    (∀ (text : JobInput) (job video script scriptPath created : String)
        (entry : List Nat × RawValue),
      entry ∈ rawMetadataPayload text.raw (utf8 job) (utf8 video) (utf8 script)
          (utf8 scriptPath) analysis (utf8 created) ↔
        entry ∈ (metadataPayload text job video script scriptPath analysis created).map
          (fun field => (utf8 field.1, field.2.raw))) := by
  refine ⟨⟨_, writeMetadataRaw_ok w input jobID videoPath transcript transcriptPath analysis hok,
    rfl, rfl, rfl, rfl, rfl, rfl, rfl, rfl, rfl, rfl⟩, parseInt_appendInt _, coerceUTF8_valid,
    coerceUTF8_invalid, validUTF8_utf8, ?_⟩
  intro text job video script scriptPath created entry
  simp only [rawMetadataPayload, metadataPayload, JobInput.raw, Value.raw, List.map,
    List.mem_cons, List.mem_singleton, List.not_mem_nil, or_false]
  tauto

/-- Witness of `metadata_round_trip`: the metadata of the sample input, whose strings are
valid UTF-8; the audio path comes back exactly. -/
theorem metadata_round_trip_witness :
    (writeMetadataRaw sampleRawMeta sampleInput.raw (utf8 "job-1") (utf8 "out/final-2.mp4")
        (utf8 "la la la") (utf8 "out/transcript-0.txt") Analysis.zero).returned.2 = none ∧
      (readBack (writeMetadataRaw sampleRawMeta sampleInput.raw (utf8 "job-1")
        (utf8 "out/final-2.mp4") (utf8 "la la la") (utf8 "out/transcript-0.txt")
        Analysis.zero)).bind (fun record => record.lookup (utf8 "audio_path")) =
      some (.str sampleInput.raw.AudioPath) := by
  refine ⟨rfl, ?_⟩
  obtain ⟨⟨record, hrec, -, haudio, -⟩, -, hvalid, -, hutf8, -⟩ :=
    metadata_round_trip sampleRawMeta sampleInput.raw (utf8 "job-1") (utf8 "out/final-2.mp4")
      (utf8 "la la la") (utf8 "out/transcript-0.txt") Analysis.zero rfl
  rw [hrec]
  show List.lookup (utf8 "audio_path") record = _
  rw [haudio, hvalid sampleInput.raw.AudioPath (hutf8 sampleInput.AudioPath)]

/-- C23: `replicate.OutputURL` follows one rule.  On a string it returns that string; on a
list it returns the first element that is a string, whatever non-string elements stand
before it and whatever follows it; on a list without a string element (the empty list
included), on an absent output (`nil`) and on a value of any other type (boolean, number,
object) it returns the empty string. -/
theorem outputURL_rule :
    (∀ s : String, OutputURL (.str s) = s) ∧
    (∀ (before after : List Value) (s : String), (∀ v ∈ before, v.isStr = false) →
      OutputURL (.arr (before ++ .str s :: after)) = s) ∧
    (∀ items : List Value, (∀ v ∈ items, v.isStr = false) → OutputURL (.arr items) = "") ∧
    OutputURL .null = "" ∧
    (∀ v : Value, v.isStr = false → (∀ items, v ≠ .arr items) → OutputURL v = "") := by
  refine ⟨fun _ => rfl, ?_, ?_, rfl, ?_⟩
  · intro before after s h
    show firstString (before ++ .str s :: after) = s
    rw [firstString_skip before _ h]
    rfl
  · intro items h
    exact firstString_none items h
  · intro v hv harr
    cases v with
    | str s => simp [Value.isStr] at hv
    | arr items => exact absurd rfl (harr items)
    | null => rfl
    | bool b => rfl
    | int n => rfl
    | float x => rfl
    | obj fields => rfl

/-- Witness of `outputURL_rule`: of the list `[nil, 3, "https://cdn.example/a.mp4",
"https://cdn.example/b.mp4"]` the first string is returned, and a list of `nil` and a number
gives the empty string. -/
theorem outputURL_rule_witness :
    OutputURL (.arr ([.null, .int 3] ++ .str "https://cdn.example/a.mp4" ::
        [.str "https://cdn.example/b.mp4"])) = "https://cdn.example/a.mp4" ∧
      OutputURL (.arr [.null, .int 3]) = "" :=
  ⟨outputURL_rule.2.1 [.null, .int 3] [.str "https://cdn.example/b.mp4"]
      "https://cdn.example/a.mp4" (by simp [Value.isStr]),
    outputURL_rule.2.2.1 [.null, .int 3] (by simp [Value.isStr])⟩

/-- C25: `pollPrediction` classifies the status without regard to case.  For every
prediction `p`, list of wait outcomes and sink, compare the poller on `p` with the poller on
`lowerStatus p` (the same prediction, its status converted to lower case): the arm of the
`switch` and the render progress are the same; the two traces differ only in the message of
the first render event, which embeds the status as received (`p.Status` for `p`); on a
terminal success each returns the prediction it was given, on a terminal failure both return
"replicate job failed", on a pending status both go on in the same way and return the same,
and on an unknown status the error embeds the status exactly as received, not lower-cased. -/
theorem poll_case_insensitive (sink : Bool) (interval : Int) (steps : List PollStep)
    (p : Prediction) :
    classify (toLower (lowerStatus p).Status) = classify (toLower p.Status) ∧
    renderProgress (toLower (lowerStatus p).Status) = renderProgress (toLower p.Status) ∧
    (∃ tail,
      (pollPrediction sink interval steps p).trace =
        send sink "render" ("Rendering (" ++ p.Status ++ ")")
          (renderProgress (toLower p.Status)) ++ tail ∧
      (pollPrediction sink interval steps (lowerStatus p)).trace =
        send sink "render" ("Rendering (" ++ toLower p.Status ++ ")")
          (renderProgress (toLower p.Status)) ++ tail) ∧
    (classify (toLower p.Status) = .success →
      (pollPrediction sink interval steps p).returned = some (p, none) ∧
      (pollPrediction sink interval steps (lowerStatus p)).returned =
        some (lowerStatus p, none)) ∧
    (classify (toLower p.Status) = .failure →
      (pollPrediction sink interval steps p).returned =
        some (Prediction.zero, some (.errorf "replicate job failed")) ∧
      (pollPrediction sink interval steps (lowerStatus p)).returned =
        some (Prediction.zero, some (.errorf "replicate job failed"))) ∧
    (classify (toLower p.Status) = .pending →
      (pollPrediction sink interval steps (lowerStatus p)).returned =
        (pollPrediction sink interval steps p).returned) ∧
    (classify (toLower p.Status) = .unknown →
      (pollPrediction sink interval steps p).returned =
        some (Prediction.zero,
          some (.errorf ("replicate job status unknown: " ++ p.Status))) ∧
      (pollPrediction sink interval steps (lowerStatus p)).returned =
        some (Prediction.zero,
          some (.errorf ("replicate job status unknown: " ++ toLower p.Status)))) := by
  have h₁ : classify (toLower (lowerStatus p).Status) = classify (toLower p.Status) := by
    simp only [lowerStatus, toLower_idem]
  have h₂ : renderProgress (toLower (lowerStatus p).Status) =
      renderProgress (toLower p.Status) := by
    simp only [lowerStatus, toLower_idem]
  cases steps with
  | nil =>
    exact ⟨h₁, h₂, pollIteration_lower sink interval p none
      (fun _ => { trace := [], returned := none })⟩
  | cons step rest =>
    exact ⟨h₁, h₂, pollIteration_lower sink interval p (some step)
      (fun next => pollPrediction sink interval rest next)⟩

/-- Witness of `poll_case_insensitive`: "SUCCEEDED" is a terminal success like "succeeded",
the render message reads "Rendering (SUCCEEDED)", "Running" gets the progress 0.6 of
"running" and keeps the poller waiting, and "FAİLED" (with a dotted capital I, U+0130,
whose lower-case form is i) is a terminal failure like "failed". -/
theorem poll_case_insensitive_witness :
    classify (toLower "SUCCEEDED") = .success ∧
      classify (toLower "succeeded") = .success ∧
      (pollPrediction true 0 [] (samplePrediction "job-1" "SUCCEEDED")).returned =
        some (samplePrediction "job-1" "SUCCEEDED", none) ∧
      (pollPrediction true 0 [] (samplePrediction "job-1" "SUCCEEDED")).trace =
        [.emit (renderEvent (samplePrediction "job-1" "SUCCEEDED") 0.4)] ∧
      classify (toLower "Running") = .pending ∧
      renderProgress (toLower "Running") = 0.6 ∧
      renderProgress (toLower (lowerStatus (samplePrediction "job-1" "Running")).Status) =
        renderProgress (toLower "Running") ∧
      toLower "FAİLED" = "failed" ∧
      (pollPrediction true 0 [] (samplePrediction "job-1" "FAİLED")).returned =
        some (Prediction.zero, some (.errorf "replicate job failed")) :=
  ⟨by decide, by decide,
    ((poll_case_insensitive true 0 [] (samplePrediction "job-1" "SUCCEEDED")).2.2.2.1
      (by decide)).1,
    by rfl, by decide, by simp [renderProgress, show toLower "Running" = "running" by decide],
    (poll_case_insensitive true 0 [] (samplePrediction "job-1" "Running")).2.1,
    by decide!,
    ((poll_case_insensitive true 0 [] (samplePrediction "job-1" "FAİLED")).2.2.2.2.1
      (by decide!)).1⟩

/-- Counterexample to C21 as stated: a response with status 307 (not in the 2xx range),
which `HTTPClient.Do` hands back without an error, is stored like a success: `EnhanceAudio`
creates `out/enhanced-5.wav` and returns that path with a nil error. -/
theorem enhance_redirect_counterexample :
    ¬ ((200 : Int) ≤ 307 ∧ (307 : Int) < 300) ∧
      EnhanceAudio (sampleEnhance (sampleUpload (.ok { StatusCode := 307, Body := "moved" })))
          slashJoin sampleEleven "song.wav" "out" =
        { created := ["out/enhanced-5.wav"], returned := ("out/enhanced-5.wav", none) } := by
  refine ⟨by decide, ?_⟩
  simp [EnhanceAudio, sampleEnhance, sampleUpload, sampleEleven, uploadAudio, enhancedPath]
  decide

/-- C21, amended: the status test of `EnhanceAudio` is `StatusCode >= 400`.  With an API key,
a request that could be built, an exchange that returned `response` and an encoding goroutine
that reported no error: (1) if the status is 400 or more, `EnhanceAudio` returns the error
"elevenlabs error: " followed by the response body (so the message contains the body), creates
no file and returns the empty path; (2) if the status is below 400 (2xx, but also 1xx and
3xx) and the directory, the file and the copy succeed, it creates `enhanced-<ns>.wav` in the
output directory and returns its path with a nil error; (3) a nil error is returned only for
a status below 400, and then the path returned is the one created. -/
theorem enhance_status_check (w : EnhanceWorld) (pathJoin : String → String → String)
    (client : ElevenLabsClient) (inputPath outputDir : String) (response : HttpResponse)
    (hkey : client.APIKey ≠ "")
    (hreq : w.upload.newRequest (client.BaseURL ++ client.EnhancePath) = none)
    (hdo : w.upload.clientDo (client.BaseURL ++ client.EnhancePath) = .ok response)
    (henc : uploadAudio w.upload inputPath = none) :
    (400 ≤ response.StatusCode →
      EnhanceAudio w pathJoin client inputPath outputDir =
        { created := [],
          returned := ("", some (.errorf ("elevenlabs error: " ++ response.Body))) } ∧
      Contains (GoError.errorf ("elevenlabs error: " ++ response.Body)).message response.Body) ∧
    (response.StatusCode < 400 → w.mkdirAll outputDir = none →
      w.create (enhancedPath w pathJoin outputDir) = none →
      w.copy (enhancedPath w pathJoin outputDir) = none →
      EnhanceAudio w pathJoin client inputPath outputDir =
        { created := [enhancedPath w pathJoin outputDir],
          returned := (enhancedPath w pathJoin outputDir, none) }) ∧
    ((EnhanceAudio w pathJoin client inputPath outputDir).returned.2 = none →
      response.StatusCode < 400 ∧
      EnhanceAudio w pathJoin client inputPath outputDir =
        { created := [enhancedPath w pathJoin outputDir],
          returned := (enhancedPath w pathJoin outputDir, none) }) := by
  refine ⟨?_, ?_, ?_⟩
  · intro hcode
    refine ⟨?_, contains_append_right _ _⟩
    simp [EnhanceAudio, hkey, hreq, hdo, henc, hcode]
  · intro hcode hmk hcr hcp
    have hlt : ¬ (400 ≤ response.StatusCode) := not_le.mpr hcode
    simp only [enhancedPath] at hcr hcp
    simp [EnhanceAudio, hkey, hreq, hdo, henc, hlt, hmk, hcr, hcp, enhancedPath]
  · intro hnil
    simp only [EnhanceAudio, if_neg hkey, hreq, hdo, henc, enhancedPath] at hnil ⊢
    by_cases hcode : response.StatusCode ≥ 400
    · simp [hcode] at hnil
    · refine ⟨not_le.mp hcode, ?_⟩
      simp only [if_neg hcode] at hnil ⊢
      cases hmk : w.mkdirAll outputDir with
      | some err => simp [hmk] at hnil
      | none =>
        simp only [hmk] at hnil ⊢
        cases hcr : w.create
            (pathJoin outputDir ("enhanced-" ++ formatInt w.now.unixNano ++ ".wav")) with
        | some err => simp [hcr] at hnil
        | none =>
          simp only [hcr] at hnil ⊢
          cases hcp : w.copy
              (pathJoin outputDir ("enhanced-" ++ formatInt w.now.unixNano ++ ".wav")) with
          | some err => simp [hcp] at hnil
          | none => rfl

/-- Witness of `enhance_status_check`: a 500 answer with the body "quota exceeded" gives
the error "elevenlabs error: quota exceeded", no file and no path. -/
theorem enhance_status_check_witness :
    EnhanceAudio (sampleEnhance (sampleUpload (.ok { StatusCode := 500, Body := "quota exceeded" })))
        slashJoin sampleEleven "song.wav" "out" =
      { created := [], returned := ("", some (.errorf "elevenlabs error: quota exceeded")) } :=
  ((enhance_status_check
    (sampleEnhance (sampleUpload (.ok { StatusCode := 500, Body := "quota exceeded" })))
    slashJoin sampleEleven "song.wav" "out" { StatusCode := 500, Body := "quota exceeded" }
    (by decide) rfl rfl rfl).1 (by decide)).1

/-- Counterexample to C24 as stated: the source file cannot be opened, so the encoding
goroutine reports the open error, and the exchange fails with a transport error; both
`EnhanceAudio` and `SubmitJob` return the transport error, not the encoding error. -/
theorem upload_transport_error_counterexample :
    uploadAudio (missingFileUpload (.error refused)) "song.wav" =
        some (.external "open song.wav: no such file or directory") ∧
      (EnhanceAudio (sampleEnhance (missingFileUpload (.error refused))) slashJoin sampleEleven
          "song.wav" "out").returned = ("", some refused) ∧
      SubmitJob (sampleSubmit (missingFileUpload (.error refused))) sampleLTX2 sampleGenerate =
        ("", some refused) ∧
      refused ≠ .external "open song.wav: no such file or directory" := by
  refine ⟨by rfl, ?_, ?_, by decide⟩
  · simp [EnhanceAudio, sampleEnhance, missingFileUpload, sampleUpload, sampleEleven]
  · simp [SubmitJob, sampleSubmit, missingFileUpload, sampleUpload, sampleLTX2, sampleGenerate]

/-- C24, amended: in `EnhanceAudio` (with an API key) and in `SubmitJob` (with a base URL),
once the request is built, the error of the encoding goroutine is read only after
`HTTPClient.Do` has returned a response.  When the goroutine failed with `e` (the error of
the open, of the create-part or of the copy): (1) if the exchange returned a response,
whatever its status (2xx or not), the call returns `e` with an empty result, and
`EnhanceAudio` creates no file; (2) if the exchange returned a transport error `t`, the call
returns `t`: the encoding error is not read. -/
theorem upload_encoding_error (w : EnhanceWorld) (pathJoin : String → String → String)
    (client : ElevenLabsClient) (inputPath outputDir : String)
    (s : SubmitWorld) (ltx : LTX2Client) (request : GenerateRequest) :
    (client.APIKey ≠ "" → w.upload.newRequest (client.BaseURL ++ client.EnhancePath) = none →
      ∀ e, uploadAudio w.upload inputPath = some e →
        (∀ response, w.upload.clientDo (client.BaseURL ++ client.EnhancePath) = .ok response →
          EnhanceAudio w pathJoin client inputPath outputDir =
            { created := [], returned := ("", some e) }) ∧
        (∀ t, w.upload.clientDo (client.BaseURL ++ client.EnhancePath) = .error t →
          EnhanceAudio w pathJoin client inputPath outputDir =
            { created := [], returned := ("", some t) })) ∧
    (ltx.BaseURL ≠ "" → s.upload.newRequest (ltx.BaseURL ++ ltx.GeneratePath) = none →
      ∀ e, uploadAudio s.upload request.AudioPath = some e →
        (∀ response, s.upload.clientDo (ltx.BaseURL ++ ltx.GeneratePath) = .ok response →
          SubmitJob s ltx request = ("", some e)) ∧
        (∀ t, s.upload.clientDo (ltx.BaseURL ++ ltx.GeneratePath) = .error t →
          SubmitJob s ltx request = ("", some t))) ∧
    (∀ (u : UploadWorld) (path : String) (e : GoError), uploadAudio u path = some e →
      u.osOpen path = some e ∨ u.createFormFile "audio" (filepathBase path) = some e ∨
        u.copyPart path = some e) := by
  refine ⟨?_, ?_, ?_⟩
  · intro hkey hreq e henc
    constructor
    · intro response hdo
      simp [EnhanceAudio, hkey, hreq, hdo, henc]
    · intro t hdo
      simp [EnhanceAudio, hkey, hreq, hdo]
  · intro hurl hreq e henc
    constructor
    · intro response hdo
      simp [SubmitJob, hurl, hreq, hdo, henc]
    · intro t hdo
      simp [SubmitJob, hurl, hreq, hdo]
  · intro u path e h
    unfold uploadAudio at h
    cases ho : u.osOpen path with
    | some err => rw [ho] at h; exact Or.inl h
    | none =>
      rw [ho] at h
      cases hc : u.createFormFile "audio" (filepathBase path) with
      | some err => rw [hc] at h; exact Or.inr (Or.inl h)
      | none =>
        rw [hc] at h
        cases hp : u.copyPart path with
        | some err => rw [hp] at h; exact Or.inr (Or.inr h)
        | none => rw [hp] at h; cases h

/-- Witness of `upload_encoding_error`: the source file cannot be opened and the service
answers 400; `EnhanceAudio` returns the open error, not "elevenlabs error: ...". -/
theorem upload_encoding_error_witness :
    EnhanceAudio (sampleEnhance (missingFileUpload (.ok { StatusCode := 400, Body := "bad" })))
        slashJoin sampleEleven "song.wav" "out" =
      { created := [],
        returned := ("", some (.external "open song.wav: no such file or directory")) } :=
  ((upload_encoding_error
    (sampleEnhance (missingFileUpload (.ok { StatusCode := 400, Body := "bad" })))
    slashJoin sampleEleven "song.wav" "out"
    (sampleSubmit (missingFileUpload (.ok { StatusCode := 400, Body := "bad" })))
    sampleLTX2 sampleGenerate).1 (by decide) rfl
    (.external "open song.wav: no such file or directory") (by rfl)).1
    { StatusCode := 400, Body := "bad" } rfl

/-- Counterexample to C22 as stated: the ffmpeg mux is abandoned and its `CombinedOutput`
hands back the cancellation error itself; `Run` returns the stage-specific error
"ffmpeg mux failed: " (the captured output was empty), which is not the cancellation error
and does not wrap it. -/
theorem run_mux_cancelled_counterexample :
    muxCancelledWorld.mux.combinedOutput "ffmpeg"
        (muxArgs "out/video-1.mp4" "song.wav" "out/final-2.mp4") =
        ("", some (.ctx .canceled)) ∧
      (Run muxCancelledWorld (sampleRunner false) sampleInput true).returned =
        some (Result.zero, some (.errorf "ffmpeg mux failed: ")) ∧
      GoError.errorf "ffmpeg mux failed: " ≠ .ctx .canceled ∧
      errorsIs (.errorf "ffmpeg mux failed: ") (.ctx .canceled) = false :=
  ⟨rfl, rfl, by decide, by decide⟩

/-- C22, amended.  In every run, with the transcription and analysis of `audio.Transcribe`
and `audio.Analyze`: (1) a poll wait during which the cancellation token fires makes the
poller return `ctx.Err()` itself, and `Run` returns the poller's error unchanged; (2) the
error of a failing stage call is returned by `Run` unchanged, where the errors of the
transcribe and analyze stages are those of `Transcribe` and `Analyze`; (3) when the ffmpeg
subprocess of the mux fails, whatever its error (the cancellation error included), `muxAudio`
returns the new error "ffmpeg mux failed: " followed by the trimmed output; (4) when the
whisper subprocess fails, `Transcribe` returns the new error "whisper transcription failed: "
followed by the trimmed output; (5) when the volume subprocess fails with `cause`, `Analyze`
returns "volume analysis failed" wrapping `cause`; (6) an error built without `%w` neither is
nor wraps the cancellation error, and one built with `%w` is never the cancellation error
itself and wraps it exactly when its cause is or wraps it. -/
theorem run_cancellation (w : World) (tw : TranscribeWorld) (aw : AnalyzeWorld)
    (runner : Runner) (input : JobInput) (sink : Bool) :
    ((∀ (p : Prediction) (rest : List PollStep) (e : CtxErr),
        classify (toLower p.Status) = .pending →
        (pollPrediction sink runner.PollInterval (.cancelled e :: rest) p).returned =
          some (Prediction.zero, some (.ctx e))) ∧
      (∀ a ∈ (Run (withAudio w tw aw) runner input sink).trace, ∀ p q err,
        submitted (withAudio w tw aw) runner a = some p →
        (pollPrediction sink runner.PollInterval w.poll p).returned = some (q, some err) →
        (Run (withAudio w tw aw) runner input sink).returned = some (Result.zero, some err))) ∧
    ((∀ a ∈ (Run (withAudio w tw aw) runner input sink).trace, ∀ err,
        stageError (withAudio w tw aw) runner a = some err →
        (Run (withAudio w tw aw) runner input sink).returned = some (Result.zero, some err)) ∧
      (∀ audioPath outputDir,
        stageError (withAudio w tw aw) runner (.transcribe audioPath outputDir) =
          (Transcribe tw w.filepathJoin runner.Transcribe audioPath outputDir).2.2) ∧
      (∀ ffmpegPath inputPath,
        stageError (withAudio w tw aw) runner (.analyze ffmpegPath inputPath) =
          (Analyze aw ffmpegPath inputPath).2)) ∧
    (∀ (ffmpegPath videoPath audioPath outputDir output : String) (cause : GoError),
      w.mux.mkdirAll outputDir = none →
      w.mux.combinedOutput (if ffmpegPath = "" then "ffmpeg" else ffmpegPath)
        (muxArgs videoPath audioPath
          (w.filepathJoin outputDir ("final-" ++ formatInt w.mux.now.unixNano ++ ".mp4"))) =
        (output, some cause) →
      stageError (withAudio w tw aw) runner
          (.muxAudio ffmpegPath videoPath audioPath outputDir) =
        some (.errorf ("ffmpeg mux failed: " ++ trimSpace output))) ∧
    (∀ (config : TranscribeConfig) (workDir workDirAbs outputDir output : String)
      (cause : GoError),
      tw.combinedOutput config.DockerPath (whisperArgs config workDirAbs) =
        (output, some cause) →
      transcribeAfterCopy tw w.filepathJoin config workDir workDirAbs outputDir =
        ("", "", some (.errorf ("whisper transcription failed: " ++ trimSpace output)))) ∧
    (∀ (ffmpegPath inputPath stderr : String) (cause : GoError),
      aw.run (if ffmpegPath = "" then "ffmpeg" else ffmpegPath) (volumeArgs inputPath) =
        (stderr, some cause) →
      Analyze aw ffmpegPath inputPath =
        (Analysis.zero, some (.wrapf "volume analysis failed" cause))) ∧
    ((∀ (msg : String) (e : CtxErr),
        errorsIs (.errorf msg) (.ctx e) = false ∧ GoError.errorf msg ≠ .ctx e) ∧
      (∀ (msg : String) (cause : GoError) (e : CtxErr),
        errorsIs (.wrapf msg cause) (.ctx e) = errorsIs cause (.ctx e) ∧
          GoError.wrapf msg cause ≠ .ctx e)) := by
  refine ⟨⟨?_, ?_⟩, ⟨?_, ?_, ?_⟩, ?_, ?_, ?_, ⟨?_, ?_⟩⟩
  · intro p rest e hc
    simp [pollPrediction, pollIteration, hc]
  · intro a ha p q err hsub hpoll
    exact (run_pollAborts (withAudio w tw aw) runner input sink a ha p q err hsub hpoll).1
  · intro a ha err herr
    exact ((run_aborts (withAudio w tw aw) runner input sink).2 a ha err herr).2
  · intro audioPath outputDir
    exact stageError_transcribe w tw aw runner audioPath outputDir
  · intro ffmpegPath inputPath
    exact stageError_analyze w tw aw runner ffmpegPath inputPath
  · intro ffmpegPath videoPath audioPath outputDir output cause hdir hrun
    show (muxAudio w.mux w.filepathJoin ffmpegPath videoPath audioPath outputDir).2 = _
    rw [muxAudio_failed w.mux w.filepathJoin ffmpegPath videoPath audioPath outputDir output
      cause hdir hrun]
  · intro config workDir workDirAbs outputDir output cause hrun
    exact transcribeAfterCopy_failed tw w.filepathJoin config workDir workDirAbs outputDir
      output cause hrun
  · intro ffmpegPath inputPath stderr cause hrun
    exact analyze_failed aw ffmpegPath inputPath stderr cause hrun
  · intro msg e
    exact ⟨errorsIs_errorf msg e, fun h => by cases h⟩
  · intro msg cause e
    exact ⟨errorsIs_wrapf msg cause e, fun h => by cases h⟩

/-- Witness of `run_cancellation`: the whisper subprocess is abandoned and hands back the
cancellation error; `Transcribe` fails with "whisper transcription failed: " and `Run`
returns that error. -/
theorem run_cancellation_witness :
    Transcribe (sampleTranscription ("", some (.ctx .canceled))) sampleWorld.filepathJoin
        (sampleTranscribe true) "song.wav" "out" =
        ("", "", some (.errorf "whisper transcription failed: ")) ∧
      (Run (withAudio sampleWorld (sampleTranscription ("", some (.ctx .canceled)))
          (sampleAnalyzer ("", none))) (sampleRunner true) sampleInput true).returned =
        some (Result.zero, some (.errorf "whisper transcription failed: ")) :=
  ⟨rfl,
    (run_cancellation sampleWorld (sampleTranscription ("", some (.ctx .canceled)))
      (sampleAnalyzer ("", none)) (sampleRunner true) sampleInput true).2.1.1
      (.transcribe "song.wav" "out") (List.mem_of_getLast?_eq_some (by rfl))
      (.errorf "whisper transcription failed: ") rfl⟩

end Arky
